import Mathlib

/-!
# MuseScore instruments catalog reader

A shallow embedding of `src/instruments/internal/instrumentsreader.cpp`
(`mu::instruments::InstrumentsReader`) together with proofs of properties of
the catalog it builds.

Conventions of the embedding

* `QString` is a list of characters.  Library string functions used by the
  reader (`toInt`, `toLower`, `replace`, `split`, `endsWith`, `left`) are
  modelled on lists, following the Qt documentation.
* C++ `int` values are mathematical integers; where the source does
  arithmetic on them the result is wrapped to 32 bits with `wrap32`.
* The XML cursor (`Ms::XmlReader`) is modelled by the element tree it walks:
  `readNextStartElement` loops become folds over `Element.children`,
  `readElementText` reads `Element.text`, `skipCurrentElement` drops the
  element.  An element read with `readElementText` is taken to hold
  character data only.
* Per-staff C arrays (`T x[MAX_STAVES]`) are functions from an `int` index to
  the cell; the cells `0 .. MAX_STAVES-1` are the array proper.
* Collaborators that live outside the reader (translation, clef names,
  staff type presets, the standard drum kit, `Channel::read`, the values of
  default-constructed scalars, `MAX_STAVES`) are the fields of `Env`.
-/

namespace InstrumentsReader

/-! ## Strings and integers -/

abbrev QString := List Char

/-- Lowest value of a 32 bit `int`. -/
def INT_MIN : Int := -2147483648

/-- Highest value of a 32 bit `int`. -/
def INT_MAX : Int := 2147483647

/-- Two's complement wrap-around of a 32 bit `int` computation. -/
def wrap32 (x : Int) : Int := (x + 2147483648) % 4294967296 - 2147483648

/-- White space as skipped by Qt's string to number conversion (ASCII part). -/
def isSpace (c : Char) : Bool :=
  c = ' ' || c = Char.ofNat 9 || c = Char.ofNat 10 || c = Char.ofNat 11 || c = Char.ofNat 12
    || c = Char.ofNat 13

/-- Model of `QString::trimmed`. -/
def trimmed (s : QString) : QString :=
  ((s.dropWhile isSpace).reverse.dropWhile isSpace).reverse

/-- Value of a decimal digit character. -/
def digitValue (c : Char) : Option Nat :=
  if 48 ≤ c.toNat ∧ c.toNat ≤ 57 then some (c.toNat - 48) else none

/-- Reads a run of decimal digits, most significant first, onto `acc`. -/
def parseDigitsFrom : Nat → QString → Option Nat
  | acc, [] => some acc
  | acc, c :: cs =>
    match digitValue c with
    | some d => parseDigitsFrom (acc * 10 + d) cs
    | none => none

/-- A non-empty run of decimal digits. -/
def parseDigits : QString → Option Nat
  | [] => none
  | c :: cs => parseDigitsFrom 0 (c :: cs)

/-- An optionally signed decimal number, without range check. -/
def parseSigned : QString → Option Int
  | '-' :: ds => Option.map (fun n : Nat => -(n : Int)) (parseDigits ds)
  | '+' :: ds => Option.map (fun n : Nat => (n : Int)) (parseDigits ds)
  | ds => Option.map (fun n : Nat => (n : Int)) (parseDigits ds)

/-- Model of `QString::toInt(bool* ok)` in base 10: `some v` stands for
`ok = true` with value `v`, `none` for `ok = false`.  Surrounding white space
is ignored, one sign is accepted, and a value outside the `int` range is a
failure. -/
def toIntOk (s : QString) : Option Int :=
  match parseSigned (trimmed s) with
  | some v => if INT_MIN ≤ v ∧ v ≤ INT_MAX then some v else none
  | none => none

/-- Model of `QString::toInt()`: zero when the conversion fails. -/
def toInt (s : QString) : Int := (toIntOk s).getD 0

/-- Model of `QString::toLower` (ASCII letters). -/
def toLower (s : QString) : QString := s.map Char.toLower

/-- Model of `QString::replace(before, after)` for one-character arguments,
the only form the reader uses (`replace(" ", "-")`). -/
def replaceChar (before after : Char) (s : QString) : QString :=
  s.map fun c => if c = before then after else c

/-- Model of `QString::endsWith` for a one-character argument. -/
def endsWith (s : QString) (c : Char) : Bool := s.getLast? = some c

/-- Model of `QString::left`. -/
def left (s : QString) (n : Nat) : QString := s.take n

/-- Model of `QString::split(sep)` for a one-character separator, keeping
empty parts. -/
def split (sep : Char) : QString → List QString
  | [] => [[]]
  | c :: cs =>
    if c = sep then [] :: split sep cs
    else
      match split sep cs with
      | [] => [[c]]
      | part :: parts => (c :: part) :: parts

/-- The id derived from a display name: `name.toLower().replace(" ", "-")`. -/
def deriveId (name : QString) : QString := replaceChar ' ' '-' (toLower name)

/-- Decimal digits of a natural number, most significant first. -/
def decimalNat (n : Nat) : QString :=
  ((Nat.digits 10 n).reverse.map fun d => Char.ofNat (48 + d))

/-- Decimal text of a natural number (`0` is written "0"). -/
def decimal (n : Nat) : QString := if n = 0 then ['0'] else decimalNat n

/-- Decimal text of an integer, with a leading minus sign when negative. -/
def decimalInt (v : Int) : QString :=
  if v < 0 then '-' :: decimal v.natAbs else decimal v.natAbs

/-! ## The element tree walked by the XML cursor -/

/-- One XML element: its name, its attributes in document order, its
character data and its child elements in document order. -/
inductive Element where
  | mk (name : QString) (attrs : List (QString × QString)) (text : QString)
      (children : List Element)

namespace Element

/-- Model of `reader.name()`. -/
def name : Element → QString
  | mk n _ _ _ => n

/-- The attributes of the element. -/
def attrs : Element → List (QString × QString)
  | mk _ a _ _ => a

/-- Model of `reader.readElementText()`. -/
def text : Element → QString
  | mk _ _ t _ => t

/-- The child elements visited by a `readNextStartElement` loop. -/
def children : Element → List Element
  | mk _ _ _ c => c

/-- Modelled from the spec: `Ms::XmlReader::hasAttribute` is declared in
`libmscore/xml.h`, which is not among the sources; the cursor of the spec
gives an optional text for an attribute name. -/
def hasAttribute (e : Element) (key : QString) : Bool :=
  e.attrs.any fun p => p.1 = key

/-- Model of `reader.attributes().value(name).toString()`: empty when the
attribute is absent. -/
def value (e : Element) (key : QString) : QString :=
  match e.attrs.find? fun p => p.1 = key with
  | some p => p.2
  | none => []

/-- Modelled from the spec: `Ms::XmlReader::attribute(name, default)` is
declared in `libmscore/xml.h`, which is not among the sources; the text of the
attribute, or the default when it is absent (the word `attribute` is reserved,
hence the longer name). -/
def attributeOr (e : Element) (key : QString) (dflt : QString) : QString :=
  if e.hasAttribute key then e.value key else dflt

/-- Modelled from the spec: `Ms::XmlReader::intAttribute` is declared in
`libmscore/xml.h`, which is not among the sources; the spec describes an
optional integer attribute with a default. -/
def intAttribute (e : Element) (key : QString) (dflt : Int) : Int :=
  if e.hasAttribute key then toInt (e.value key) else dflt

/-- The cursor once `readElementText()` has returned: it stands on the end tag
of the element, where `attributes()` is empty. -/
def afterText (e : Element) : Element := mk e.name [] [] []

end Element

/-! ## Keyed maps -/

/-- A `QMap<QString, T>`: at most one entry per key. -/
abbrev QMap (α : Type) := List (QString × α)

namespace QMap

/-- Model of `QMap::insert`: the value of an existing key is replaced. -/
def insert {α : Type} : QMap α → QString → α → QMap α
  | [], k, v => [(k, v)]
  | (k0, v0) :: rest, k, v =>
    if k0 = k then (k, v) :: rest else (k0, v0) :: insert rest k v

/-- Lookup of a key. -/
def find {α : Type} : QMap α → QString → Option α
  | [], _ => none
  | (k0, v0) :: rest, k => if k0 = k then some v0 else find rest k

/-- Model of `QMap::size`. -/
def size {α : Type} (m : QMap α) : Int := (m.length : Int)

/-- Model of the non-const `QMap::operator[]`: a missing key is first
inserted with a default-constructed value. -/
def index {α : Type} (dflt : α) (m : QMap α) (k : QString) : α × QMap α :=
  match find m k with
  | some v => (v, m)
  | none => (dflt, insert m k dflt)

end QMap

/-! ## Data model -/

/-- A positioned long or short name. -/
structure StaffName where
  name : QString
  pos : Int

/-- The concert and transposing clef of one staff (`ClefType` codes). -/
structure ClefTypeList where
  _concertClef : Int
  _transposingClef : Int

/-- Inclusive range of MIDI pitches. -/
structure PitchRange where
  min : Int
  max : Int
deriving DecidableEq

/-- Transposition interval. -/
structure Interval where
  diatonic : Int
  chromatic : Int

/-- Staff grouping. -/
inductive StaffGroup where
  | STANDARD
  | PERCUSSION
  | TAB
deriving DecidableEq

/-- A staff type preset, as far as the reader looks at it (`group()`,
`lines()`); `xmlName` identifies the preset. -/
structure StaffType where
  xmlName : QString
  group : StaffGroup
  lines : Int

/-- One string of a fretted instrument (`Ms::instrString`; the field `open`
is spelled `open_`, the word being reserved). -/
structure InstrString where
  pitch : Int
  open_ : Bool

/-- Fret count and strings, `StringData(frets, strings)`. -/
structure StringData where
  frets : Int
  strings : List InstrString

/-- A MIDI event `Event(channel, type, a, b)`. -/
structure Event where
  channel : Int
  type : Int
  dataA : Int
  dataB : Int

/-- A named list of MIDI events. -/
structure MidiAction where
  name : QString
  description : QString
  events : List Event

/-- A MIDI channel, as far as the reader sets it. -/
structure Channel where
  name : QString
  chorus : Int
  reverb : Int
  program : Int
  bank : Int
  volume : Int
  pan : Int
deriving DecidableEq

/-- One entry of a drum kit table. -/
structure DrumInstrument where
  pitch : Int
  name : QString
deriving DecidableEq

/-- A drum kit table, held by value. -/
structure Drumset where
  drums : List DrumInstrument
deriving DecidableEq

/-- Model of `Drumset::clear`. -/
def Drumset.clear (_d : Drumset) : Drumset := { drums := [] }

/-- A MIDI articulation. -/
structure MidiArticulation where
  name : QString
  descr : QString
  velocity : Int
  gateTime : Int

/-- A genre record. -/
structure InstrumentGenre where
  id : QString
  name : QString

/-- A family record. -/
structure InstrumentFamily where
  id : QString
  name : QString

/-- An instrument group. -/
structure InstrumentGroup where
  id : QString
  name : QString
  extended : Bool
  sequenceOrder : Int
deriving DecidableEq

/-- An instrument.  The per-staff arrays are indexed by an `int`. -/
structure Instrument where
  id : QString
  musicXMLid : QString
  name : QString
  description : QString
  longNames : List StaffName
  shortNames : List StaffName
  sequenceOrder : Int
  extended : Bool
  staves : Int
  groupId : QString
  genreIds : List QString
  familyId : QString
  amateurPitchRange : PitchRange
  professionalPitchRange : PitchRange
  clefs : Int → ClefTypeList
  staffLines : Int → Int
  smallStaff : Int → Bool
  bracket : Int → Int
  bracketSpan : Int → Int
  barlineSpan : Int → Bool
  transpose : Interval
  staffGroup : StaffGroup
  staffTypePreset : Option StaffType
  useDrumset : Bool
  drumset : Option Drumset
  stringData : StringData
  midiActions : List MidiAction
  channels : List Channel
  singleNoteDynamics : Bool

/-- A template: its id and the instrument it holds. -/
structure InstrumentTemplate where
  id : QString
  instrument : Instrument

/-- Family override of one instrument in a score order. -/
structure InstrumentOverwrite where
  id : QString
  name : QString

/-- One group of a score order (the field `section` is spelled `section_`,
the word being reserved). -/
structure ScoreOrderGroup where
  index : Int
  family : QString
  section_ : QString
  unsorted : QString
  bracket : Bool
  showSystemMarkings : Bool
  barLineSpan : Bool
  thinBracket : Bool

/-- A score order. -/
structure ScoreOrder where
  id : QString
  name : QString
  index : Int
  instrumentMap : QMap InstrumentOverwrite
  groups : List ScoreOrderGroup

/-- The catalog under construction (`InstrumentsMeta`). -/
structure InstrumentsMeta where
  instrumentTemplates : QMap InstrumentTemplate
  groups : QMap InstrumentGroup
  genres : QMap InstrumentGenre
  articulations : QMap MidiArticulation
  families : QMap InstrumentFamily
  scoreOrders : QMap ScoreOrder

/-- A default-constructed catalog: every map is empty. -/
def InstrumentsMeta.empty : InstrumentsMeta :=
  { instrumentTemplates := [], groups := [], genres := [], articulations := [],
    families := [], scoreOrders := [] }

/-- Modelled from the spec: a status code (`mu::Ret`, declared outside the
sources). -/
structure Ret where
  code : Int
deriving DecidableEq

/-- The code `Ret::Code::Ok`. -/
def Ret.Ok : Int := 0

/-- Modelled from the spec: `Ret::operator bool`, the status is a success
when its code is `Ok`. -/
def Ret.success (r : Ret) : Bool := r.code = Ret.Ok

/-- Model of `make_ret(code)`. -/
def make_ret (code : Int) : Ret := { code := code }

/-- A status together with a value (`mu::RetVal<T>`). -/
structure RetVal (α : Type) where
  ret : Ret
  val : α

/-! ## Collaborators -/

/-- Everything the reader takes from outside `instrumentsreader.cpp`. -/
structure Env where
  /-- Number of cells of a per-staff array. -/
  MAX_STAVES : Int
  /-- Model of `qApp->translate(context, text)`. -/
  translate : QString → QString → QString
  /-- Model of `Clef::clefType(name)`. -/
  clefType : QString → Int
  /-- Model of `Ms::chromatic2diatonic`. -/
  chromatic2diatonic : Int → Int
  /-- Model of `StaffType::presetFromXmlName`; `none` is the null pointer. -/
  presetFromXmlName : QString → Option StaffType
  /-- Model of `StaffType::getDefaultPreset`. -/
  getDefaultPreset : StaffGroup → Option StaffType
  /-- The standard drum kit `*Ms::smDrumset`. -/
  smDrumset : Drumset
  /-- Model of `Drumset::load(reader)`. -/
  drumsetLoad : Drumset → Element → Drumset
  /-- Model of `Channel channel; channel.read(reader, nullptr)`. -/
  channelRead : Element → Channel
  /-- The name `Channel::DEFAULT_NAME`. -/
  DEFAULT_NAME : QString
  /-- The event type `EventType::ME_CONTROLLER`. -/
  ME_CONTROLLER : Int
  /-- The controller `CntrType::CTRL_PROGRAM`. -/
  CTRL_PROGRAM : Int
  /-- A default-constructed `Channel`. -/
  newChannel : Channel
  /-- The scalar members of a default-constructed `Instrument`. -/
  newInstrument : Instrument
  /-- The scalar members of a default-constructed `MidiArticulation`. -/
  newArticulation : MidiArticulation
  /-- The scalar members of a default-constructed `InstrumentGroup`. -/
  newGroup : InstrumentGroup
  /-- The scalar members of a default-constructed `ScoreOrderGroup`. -/
  newScoreOrderGroup : ScoreOrderGroup
  /-- The scalar members of a default-constructed `ScoreOrder`. -/
  newScoreOrder : ScoreOrder
  /-- The XML tokenizer: the elements at the root of a byte buffer. -/
  parseXml : List UInt8 → List Element

namespace Env

/-- A default-constructed `Instrument`: string and list members are empty,
scalar members are those of `newInstrument`. -/
def freshInstrument (env : Env) : Instrument :=
  { env.newInstrument with
    id := [], musicXMLid := [], name := [], description := [], longNames := [],
    shortNames := [], groupId := [], genreIds := [], familyId := [],
    midiActions := [], channels := [] }

/-- A default-constructed `InstrumentTemplate`. -/
def freshTemplate (env : Env) : InstrumentTemplate :=
  { id := [], instrument := env.freshInstrument }

/-- A default-constructed `MidiArticulation`. -/
def freshArticulation (env : Env) : MidiArticulation :=
  { env.newArticulation with name := [], descr := [] }

/-- A default-constructed `InstrumentGroup`. -/
def freshGroup (env : Env) : InstrumentGroup :=
  { env.newGroup with id := [], name := [] }

/-- A default-constructed `ScoreOrderGroup`. -/
def freshScoreOrderGroup (env : Env) : ScoreOrderGroup :=
  { env.newScoreOrderGroup with family := [], section_ := [], unsorted := [] }

/-- A default-constructed `ScoreOrder`. -/
def freshScoreOrder (env : Env) : ScoreOrder :=
  { env.newScoreOrder with id := [], name := [], instrumentMap := [], groups := [] }

end Env

/-! ## Scalar coercers and leaf record parsers -/

/-- `InstrumentsReader::readBoolAttribute`. -/
def readBoolAttribute (e : Element) (name : QString) (defvalue : Bool) : Bool :=
  if !e.hasAttribute name then defvalue
  else
    let attr := e.attributeOr name []
    if toLower attr = "false".toList then false
    else if toLower attr = "true".toList then true
    else defvalue

/-- `InstrumentsReader::readStaffIndex`. -/
def readStaffIndex (env : Env) (e : Element) : Int :=
  let staffIndex := wrap32 (toInt (e.value "staff".toList) - 1)
  if staffIndex ≥ env.MAX_STAVES then env.MAX_STAVES - 1
  else if staffIndex < 0 then 0
  else staffIndex

/-- `InstrumentsReader::readPitchRange`. -/
def readPitchRange (e : Element) : PitchRange :=
  match split '-' e.text with
  | [lo, hi] => { min := toInt lo, max := toInt hi }
  | _ => { min := 0, max := 127 }

/-- Strips one trailing percent sign, as the `velocity` and `gateTime`
handlers do before `toInt`. -/
def stripPercent (text : QString) : QString :=
  if endsWith text '%' then left text (text.length - 1) else text

/-- One turn of the loop of `readArticulation`. -/
def readArticulationStep (articulation : MidiArticulation) (e : Element) : MidiArticulation :=
  if e.name = "velocity".toList then
    { articulation with velocity := toInt (stripPercent e.text) }
  else if e.name = "gateTime".toList then
    { articulation with gateTime := toInt (stripPercent e.text) }
  else if e.name = "descr".toList then
    { articulation with descr := e.text }
  else articulation

/-- `InstrumentsReader::readArticulation`. -/
def readArticulation (env : Env) (e : Element) : MidiArticulation :=
  e.children.foldl readArticulationStep
    { env.freshArticulation with name := e.value "name".toList }

/-- One turn of the loop of `readGenre`. -/
def readGenreStep (env : Env) (genre : InstrumentGenre) (e : Element) : InstrumentGenre :=
  if e.name = "name".toList then
    { genre with name := env.translate "InstrumentsXML".toList e.text }
  else genre

/-- `InstrumentsReader::readGenre`. -/
def readGenre (env : Env) (e : Element) : InstrumentGenre :=
  e.children.foldl (readGenreStep env) { id := e.value "id".toList, name := [] }

/-- One turn of the loop of `readFamily`. -/
def readFamilyStep (env : Env) (family : InstrumentFamily) (e : Element) : InstrumentFamily :=
  if e.name = "name".toList then
    { family with name := env.translate "InstrumentsXML".toList e.text }
  else family

/-- `InstrumentsReader::readFamily`. -/
def readFamily (env : Env) (e : Element) : InstrumentFamily :=
  e.children.foldl (readFamilyStep env) { id := e.value "id".toList, name := [] }

/-- One turn of the loop of `readMidiAction`. -/
def readMidiActionStep (env : Env) (action : MidiAction) (e : Element) : MidiAction :=
  if e.name = "program".toList then
    { action with events := action.events ++
        [{ channel := 0, type := env.ME_CONTROLLER, dataA := env.CTRL_PROGRAM,
           dataB := toInt (e.value "value".toList) }] }
  else if e.name = "controller".toList then
    { action with events := action.events ++
        [{ channel := 0, type := env.ME_CONTROLLER, dataA := toInt (e.value "ctrl".toList),
           dataB := toInt (e.value "value".toList) }] }
  else if e.name = "descr".toList then
    { action with description := e.text }
  else action

/-- `InstrumentsReader::readMidiAction`. -/
def readMidiAction (env : Env) (e : Element) : MidiAction :=
  e.children.foldl (readMidiActionStep env)
    { name := e.value "name".toList, description := [], events := [] }

/-- One turn of the loop of `readStringData` over `(frets, strings)`. -/
def readStringDataStep (st : Int × List InstrString) (e : Element) : Int × List InstrString :=
  if e.name = "frets".toList then (toInt e.text, st.2)
  else if e.name = "string".toList then
    (st.1, st.2 ++ [{ open_ := toInt (e.value "open".toList) ≠ 0, pitch := toInt e.text }])
  else st

/-- `InstrumentsReader::readStringData`. -/
def readStringData (e : Element) : StringData :=
  let st := e.children.foldl readStringDataStep (0, [])
  { frets := st.1, strings := st.2 }

/-! ## Default fill and template inheritance -/

/-- The channel synthesized by `fillByDefault`. -/
def defaultChannel (env : Env) : Channel :=
  { env.newChannel with
    chorus := 0, reverb := 0, name := env.DEFAULT_NAME, program := 0, bank := 0,
    volume := 90, pan := 0 }

/-- The name of the first long name, `longNames[0].name()`. -/
def firstLongName (longNames : List StaffName) : QString :=
  match longNames with
  | [] => []
  | n :: _ => n.name

/-- `InstrumentsReader::fillByDefault`. -/
def fillByDefault (env : Env) (instrument : Instrument) : Instrument :=
  let i1 : Instrument :=
    if instrument.channels.isEmpty then
      { instrument with channels := instrument.channels ++ [defaultChannel env] }
    else instrument
  let i2 : Instrument :=
    if i1.name.isEmpty ∧ !i1.longNames.isEmpty then
      { i1 with name := firstLongName i1.longNames }
    else i1
  let i3 : Instrument :=
    if i2.description.isEmpty ∧ !i2.longNames.isEmpty then
      { i2 with description := firstLongName i2.longNames }
    else i2
  if i3.id.isEmpty then { i3 with id := deriveId i3.name } else i3

/-- The loop `for (i = 0; i < MAX_STAVES; ++i) a[i] = b[i]` of
`initInstrument` on one per-staff array: the cells `0 .. n-1` are taken from
`b`, the others are left as they are. -/
def copyCells {α : Type} (n : Int) (a b : Int → α) : Int → α :=
  fun i => if 0 ≤ i ∧ i < n then b i else a i

/-- `InstrumentsReader::initInstrument`, with the parameter names of the
source: `sourceInstrument` is the instrument being built (written),
`destinationInstrument` the template copied from (read). -/
def initInstrument (env : Env) (sourceInstrument destinationInstrument : Instrument) :
    Instrument :=
  { sourceInstrument with
    id := destinationInstrument.id
    musicXMLid := destinationInstrument.musicXMLid
    longNames := destinationInstrument.longNames
    shortNames := destinationInstrument.shortNames
    staves := destinationInstrument.staves
    extended := destinationInstrument.extended
    clefs := copyCells env.MAX_STAVES sourceInstrument.clefs destinationInstrument.clefs
    staffLines :=
      copyCells env.MAX_STAVES sourceInstrument.staffLines destinationInstrument.staffLines
    smallStaff :=
      copyCells env.MAX_STAVES sourceInstrument.smallStaff destinationInstrument.smallStaff
    bracket := copyCells env.MAX_STAVES sourceInstrument.bracket destinationInstrument.bracket
    bracketSpan :=
      copyCells env.MAX_STAVES sourceInstrument.bracketSpan destinationInstrument.bracketSpan
    barlineSpan :=
      copyCells env.MAX_STAVES sourceInstrument.barlineSpan destinationInstrument.barlineSpan
    amateurPitchRange := destinationInstrument.amateurPitchRange
    professionalPitchRange := destinationInstrument.professionalPitchRange
    transpose := destinationInstrument.transpose
    staffGroup := destinationInstrument.staffGroup
    staffTypePreset := destinationInstrument.staffTypePreset
    useDrumset := destinationInstrument.useDrumset
    drumset :=
      match destinationInstrument.drumset with
      | some d => some d
      | none => sourceInstrument.drumset
    stringData := destinationInstrument.stringData
    midiActions := destinationInstrument.midiActions
    channels := destinationInstrument.channels
    singleNoteDynamics := destinationInstrument.singleNoteDynamics }

/-! ## Instrument template parser -/

/-- The loop over `longNames` (or `shortNames`) that erases the first entry
at position `pos`, then stops. -/
def eraseFirstPos (pos : Int) : List StaffName → List StaffName
  | [] => []
  | n :: rest => if n.pos = pos then rest else n :: eraseFirstPos pos rest

/-- The clef code of a `clef` text: `ok ? ClefType(clefNumber) :
Clef::clefType(clef)`. -/
def readClefType (env : Env) (clef : QString) : Int :=
  match toIntOk clef with
  | some clefNumber => clefNumber
  | none => env.clefType clef

/-- The loop `for (i = 0; i < span - 1; ++i) barlineSpan[staffIndex + i] =
true`. -/
def setBarlineSpan (barlineSpan : Int → Bool) (staffIndex span : Int) : Int → Bool :=
  (List.range (wrap32 (span - 1)).toNat).foldl
    (fun a i => Function.update a (wrap32 (staffIndex + (i : Int))) true) barlineSpan

/-- The local state of `readInstrumentTemplate` while it loops over the
children: the instrument under construction, the flag `customDrumset` and
the catalog passed by reference. -/
structure TemplateState where
  instrument : Instrument
  customDrumset : Bool
  generalMeta : InstrumentsMeta

/-- The branches of the `if`/`else if` chain of `readInstrumentTemplate`, one
for each handler, and `other` for the final `else` (the element is skipped). -/
inductive TemplateChild where
  | longName
  | shortName
  | trackName
  | description
  | extended
  | staves
  | clef
  | concertClef
  | transposingClef
  | stafflines
  | smallStaff
  | bracket
  | bracketSpan
  | barlineSpan
  | aPitchRange
  | pPitchRange
  | transposition
  | transposeChromatic
  | transposeDiatonic
  | instrumentId
  | StringData
  | useDrumset
  | Drum
  | MidiAction
  | Channel
  | Articulation
  | stafftype
  | init
  | musicXMLid
  | genre
  | family
  | singleNoteDynamics
  | other
deriving DecidableEq

/-- The tests of the `if`/`else if` chain of `readInstrumentTemplate` on
`reader.name()`, in the order of the source. -/
def templateChild (name : QString) : TemplateChild :=
  if name = "longName".toList ∨ name = "name".toList then TemplateChild.longName
  else if name = "shortName".toList ∨ name = "short-name".toList then TemplateChild.shortName
  else if name = "trackName".toList then TemplateChild.trackName
  else if name = "description".toList then TemplateChild.description
  else if name = "extended".toList then TemplateChild.extended
  else if name = "staves".toList then TemplateChild.staves
  else if name = "clef".toList then TemplateChild.clef
  else if name = "concertClef".toList then TemplateChild.concertClef
  else if name = "transposingClef".toList then TemplateChild.transposingClef
  else if name = "stafflines".toList then TemplateChild.stafflines
  else if name = "smallStaff".toList then TemplateChild.smallStaff
  else if name = "bracket".toList then TemplateChild.bracket
  else if name = "bracketSpan".toList then TemplateChild.bracketSpan
  else if name = "barlineSpan".toList then TemplateChild.barlineSpan
  else if name = "aPitchRange".toList then TemplateChild.aPitchRange
  else if name = "pPitchRange".toList then TemplateChild.pPitchRange
  else if name = "transposition".toList then TemplateChild.transposition
  else if name = "transposeChromatic".toList then TemplateChild.transposeChromatic
  else if name = "transposeDiatonic".toList then TemplateChild.transposeDiatonic
  else if name = "instrumentId".toList then TemplateChild.instrumentId
  else if name = "StringData".toList then TemplateChild.StringData
  else if name = "useDrumset".toList then TemplateChild.useDrumset
  else if name = "Drum".toList then TemplateChild.Drum
  else if name = "MidiAction".toList then TemplateChild.MidiAction
  else if name = "Channel".toList ∨ name = "channel".toList then TemplateChild.Channel
  else if name = "Articulation".toList then TemplateChild.Articulation
  else if name = "stafftype".toList then TemplateChild.stafftype
  else if name = "init".toList then TemplateChild.init
  else if name = "musicXMLid".toList then TemplateChild.musicXMLid
  else if name = "genre".toList then TemplateChild.genre
  else if name = "family".toList then TemplateChild.family
  else if name = "singleNoteDynamics".toList then TemplateChild.singleNoteDynamics
  else TemplateChild.other

/-- One turn of the loop of `readInstrumentTemplate`: the body of the branch
that `templateChild` selects. -/
def readInstrumentTemplateStep (env : Env) (st : TemplateState) (e : Element) : TemplateState :=
  let instrument := st.instrument
  match templateChild e.name with
  | TemplateChild.longName =>
    let pos := e.intAttribute "pos".toList 0
    { st with instrument := { instrument with
        longNames := eraseFirstPos pos instrument.longNames ++
          [{ name := env.translate "InstrumentsXML".toList e.text, pos := pos }] } }
  | TemplateChild.shortName =>
    let pos := e.intAttribute "pos".toList 0
    { st with instrument := { instrument with
        shortNames := eraseFirstPos pos instrument.shortNames ++
          [{ name := env.translate "InstrumentsXML".toList e.text, pos := pos }] } }
  | TemplateChild.trackName =>
    { st with instrument := { instrument with
        name := env.translate "InstrumentsXML".toList e.text } }
  | TemplateChild.description =>
    { st with instrument := { instrument with
        description := env.translate "InstrumentsXML".toList e.text } }
  | TemplateChild.extended =>
    { st with instrument := { instrument with extended := toInt e.text ≠ 0 } }
  | TemplateChild.staves =>
    { st with instrument := { instrument with
        staves := toInt e.text
        bracketSpan := Function.update instrument.bracketSpan 0 (toInt e.text) } }
  | TemplateChild.clef =>
    let staffIndex := readStaffIndex env e
    let ct := readClefType env e.text
    { st with instrument := { instrument with
        clefs := Function.update instrument.clefs staffIndex
          { _concertClef := ct, _transposingClef := ct } } }
  | TemplateChild.concertClef =>
    let staffIndex := readStaffIndex env e
    let ct := readClefType env e.text
    { st with instrument := { instrument with
        clefs := Function.update instrument.clefs staffIndex
          { instrument.clefs staffIndex with _concertClef := ct } } }
  | TemplateChild.transposingClef =>
    let staffIndex := readStaffIndex env e
    let ct := readClefType env e.text
    { st with instrument := { instrument with
        clefs := Function.update instrument.clefs staffIndex
          { instrument.clefs staffIndex with _transposingClef := ct } } }
  | TemplateChild.stafflines =>
    let staffIndex := readStaffIndex env e
    { st with instrument := { instrument with
        staffLines := Function.update instrument.staffLines staffIndex (toInt e.text) } }
  | TemplateChild.smallStaff =>
    let staffIndex := readStaffIndex env e
    { st with instrument := { instrument with
        smallStaff := Function.update instrument.smallStaff staffIndex (toInt e.text ≠ 0) } }
  | TemplateChild.bracket =>
    let staffIndex := readStaffIndex env e
    { st with instrument := { instrument with
        bracket := Function.update instrument.bracket staffIndex (toInt e.text) } }
  | TemplateChild.bracketSpan =>
    let staffIndex := readStaffIndex env e
    { st with instrument := { instrument with
        bracketSpan := Function.update instrument.bracketSpan staffIndex (toInt e.text) } }
  | TemplateChild.barlineSpan =>
    let staffIndex := readStaffIndex env e
    let span := toInt e.text
    { st with instrument := { instrument with
        barlineSpan := setBarlineSpan instrument.barlineSpan staffIndex span } }
  | TemplateChild.aPitchRange =>
    { st with instrument := { instrument with amateurPitchRange := readPitchRange e } }
  | TemplateChild.pPitchRange =>
    { st with instrument := { instrument with professionalPitchRange := readPitchRange e } }
  | TemplateChild.transposition =>
    { st with instrument := { instrument with
        transpose := { chromatic := toInt e.text,
                       diatonic := env.chromatic2diatonic (toInt e.text) } } }
  | TemplateChild.transposeChromatic =>
    { st with instrument := { instrument with
        transpose := { instrument.transpose with chromatic := toInt e.text } } }
  | TemplateChild.transposeDiatonic =>
    { st with instrument := { instrument with
        transpose := { instrument.transpose with diatonic := toInt e.text } } }
  | TemplateChild.instrumentId =>
    { st with instrument := { instrument with musicXMLid := e.text } }
  | TemplateChild.StringData =>
    { st with instrument := { instrument with stringData := readStringData e } }
  | TemplateChild.useDrumset =>
    let useDrumset : Bool := toInt e.text ≠ 0
    { st with instrument := { instrument with
        useDrumset := useDrumset
        drumset := if useDrumset then some env.smDrumset else instrument.drumset } }
  | TemplateChild.Drum =>
    let d0 : Drumset :=
      match instrument.drumset with
      | some d => d
      | none => env.smDrumset
    let d1 : Drumset := if !st.customDrumset then d0.clear else d0
    { st with
      customDrumset := true
      instrument := { instrument with drumset := some (env.drumsetLoad d1 e) } }
  | TemplateChild.MidiAction =>
    { st with instrument := { instrument with
        midiActions := instrument.midiActions ++ [readMidiAction env e] } }
  | TemplateChild.Channel =>
    { st with instrument := { instrument with
        channels := instrument.channels ++ [env.channelRead e] } }
  | TemplateChild.Articulation =>
    let articulation := readArticulation env e
    { st with generalMeta := { st.generalMeta with
        articulations :=
          QMap.insert st.generalMeta.articulations articulation.name articulation } }
  | TemplateChild.stafftype =>
    let staffIndex := readStaffIndex env e
    let xmlPresetName := e.value "staffTypePreset".toList
    let stfGroup := e.text
    let staffGroup : StaffGroup :=
      if stfGroup = "percussion".toList then StaffGroup.PERCUSSION
      else if stfGroup = "tablature".toList then StaffGroup.TAB
      else StaffGroup.STANDARD
    let named : Option StaffType :=
      if !xmlPresetName.isEmpty then env.presetFromXmlName xmlPresetName else none
    let preset : Option StaffType :=
      match named with
      | some p => if p.group ≠ staffGroup then env.getDefaultPreset staffGroup else some p
      | none => env.getDefaultPreset staffGroup
    { st with instrument := { instrument with
        staffGroup := staffGroup
        staffTypePreset := preset
        staffLines :=
          match preset with
          | some p => Function.update instrument.staffLines staffIndex p.lines
          | none => instrument.staffLines } }
  | TemplateChild.init =>
    let templateId := e.text
    let found := QMap.index env.freshTemplate st.generalMeta.instrumentTemplates templateId
    { st with
      instrument := initInstrument env instrument found.1.instrument
      generalMeta := { st.generalMeta with instrumentTemplates := found.2 } }
  | TemplateChild.musicXMLid =>
    { st with instrument := { instrument with musicXMLid := e.text } }
  | TemplateChild.genre =>
    { st with instrument := { instrument with genreIds := instrument.genreIds ++ [e.text] } }
  | TemplateChild.family =>
    { st with instrument := { instrument with familyId := e.text } }
  | TemplateChild.singleNoteDynamics =>
    { st with instrument := { instrument with singleNoteDynamics := toInt e.text ≠ 0 } }
  | TemplateChild.other => st

/-- The state of `readInstrumentTemplate` before its loop. -/
def readInstrumentTemplateInit (env : Env) (e : Element) (generalMeta : InstrumentsMeta) :
    TemplateState :=
  { instrument := { env.freshInstrument with
      id := e.value "id".toList
      sequenceOrder := QMap.size generalMeta.instrumentTemplates }
    customDrumset := false
    generalMeta := generalMeta }

/-- The state of `readInstrumentTemplate` after its loop, before
`fillByDefault`. -/
def readInstrumentTemplateLoop (env : Env) (e : Element) (generalMeta : InstrumentsMeta) :
    TemplateState :=
  e.children.foldl (readInstrumentTemplateStep env) (readInstrumentTemplateInit env e generalMeta)

/-- `InstrumentsReader::readInstrumentTemplate`: the template returned and
the catalog, which the function may change through its reference. -/
def readInstrumentTemplate (env : Env) (e : Element) (generalMeta : InstrumentsMeta) :
    InstrumentTemplate × InstrumentsMeta :=
  let st := readInstrumentTemplateLoop env e generalMeta
  ({ id := e.value "id".toList, instrument := fillByDefault env st.instrument }, st.generalMeta)

/-! ## Group parser -/

/-- One turn of the loop of `loadGroupMeta`, over the group under
construction and the catalog. -/
def loadGroupMetaStep (env : Env) (st : InstrumentGroup × InstrumentsMeta) (e : Element) :
    InstrumentGroup × InstrumentsMeta :=
  let group := st.1
  let generalMeta := st.2
  if toLower e.name = "instrument".toList then
    let r := readInstrumentTemplate env e generalMeta
    let _template : InstrumentTemplate :=
      { r.1 with instrument := { r.1.instrument with groupId := group.id } }
    (group, { r.2 with
      instrumentTemplates := QMap.insert r.2.instrumentTemplates _template.id _template })
  else if e.name = "ref".toList then
    let templateId := e.text
    let found := QMap.index env.freshTemplate generalMeta.instrumentTemplates templateId
    let newTemplate := found.1
    (group, { generalMeta with
      instrumentTemplates := QMap.insert found.2 newTemplate.id newTemplate })
  else if e.name = "name".toList then
    ({ group with name := env.translate "InstrumentsXML".toList e.text }, generalMeta)
  else if e.name = "extended".toList then
    ({ group with extended := toInt e.text ≠ 0 }, generalMeta)
  else st

/-- The group of `loadGroupMeta` before its loop. -/
def loadGroupMetaInit (env : Env) (e : Element) (groupIndex : Int) : InstrumentGroup :=
  { env.freshGroup with
    id := e.value "id".toList
    name := env.translate "InstrumentsXML".toList (e.value "name".toList)
    extended := toInt (e.value "extended".toList) ≠ 0
    sequenceOrder := groupIndex }

/-- The group and the catalog of `loadGroupMeta` after its loop. -/
def loadGroupMetaLoop (env : Env) (e : Element) (generalMeta : InstrumentsMeta)
    (groupIndex : Int) : InstrumentGroup × InstrumentsMeta :=
  e.children.foldl (loadGroupMetaStep env) (loadGroupMetaInit env e groupIndex, generalMeta)

/-- The group as `loadGroupMeta` stores it: an empty id is derived from the
name. -/
def finishGroup (group : InstrumentGroup) : InstrumentGroup :=
  if group.id.isEmpty then { group with id := deriveId group.name } else group

/-- `InstrumentsReader::loadGroupMeta`. -/
def loadGroupMeta (env : Env) (e : Element) (generalMeta : InstrumentsMeta) (groupIndex : Int) :
    InstrumentsMeta :=
  let st := loadGroupMetaLoop env e generalMeta groupIndex
  let group := finishGroup st.1
  { st.2 with groups := QMap.insert st.2.groups group.id group }

/-! ## Score order parser -/

/-- One turn of the loop over the children of an `instrument` element of an
order. -/
def readOverwriteStep (overwrite : InstrumentOverwrite) (e : Element) : InstrumentOverwrite :=
  if e.name = "family".toList then { id := e.value "id".toList, name := e.text }
  else overwrite

/-- One turn of the loop over the children of a `section` element.  In the
`family` branch `readElementText()` is called first, so the three calls of
`readBoolAttribute` see the cursor on the end tag. -/
def readSectionStep (env : Env) (section_ : QString) (order : ScoreOrder) (e : Element) :
    ScoreOrder :=
  if e.name = "family".toList then
    let sg : ScoreOrderGroup :=
      { env.freshScoreOrderGroup with
        index := (order.groups.length : Int)
        family := e.text
        section_ := section_
        bracket := true
        showSystemMarkings := readBoolAttribute e.afterText "showSystemMarkings".toList false
        barLineSpan := readBoolAttribute e.afterText "barLineSpan".toList true
        thinBracket := readBoolAttribute e.afterText "thinBrackets".toList true }
    { order with groups := order.groups ++ [sg] }
  else if e.name = "soloists".toList then
    let sg : ScoreOrderGroup :=
      { env.freshScoreOrderGroup with
        index := (order.groups.length : Int)
        family := "<soloists>".toList
        section_ := section_ }
    { order with groups := order.groups ++ [sg] }
  else if e.name = "unsorted".toList then
    let sg : ScoreOrderGroup :=
      { env.freshScoreOrderGroup with
        index := (order.groups.length : Int)
        family := "<unsorted>".toList
        unsorted := e.attributeOr "group".toList [] }
    { order with groups := order.groups ++ [sg] }
  else order

/-- One turn of the outer loop of `readScoreOrder`. -/
def readScoreOrderStep (env : Env) (order : ScoreOrder) (e : Element) : ScoreOrder :=
  if e.name = "name".toList then
    { order with name := env.translate "OrderXML".toList e.text }
  else if e.name = "instrument".toList then
    let instrumentId := e.value "id".toList
    let overwrite := e.children.foldl readOverwriteStep { id := [], name := [] }
    { order with instrumentMap := QMap.insert order.instrumentMap instrumentId overwrite }
  else if e.name = "family".toList then
    let sg : ScoreOrderGroup :=
      { env.freshScoreOrderGroup with
        index := (order.groups.length : Int)
        family := e.text }
    { order with groups := order.groups ++ [sg] }
  else if e.name = "soloists".toList then
    let sg : ScoreOrderGroup :=
      { env.freshScoreOrderGroup with
        index := (order.groups.length : Int)
        family := "<soloists>".toList }
    { order with groups := order.groups ++ [sg] }
  else if e.name = "unsorted".toList then
    let sg : ScoreOrderGroup :=
      { env.freshScoreOrderGroup with
        index := (order.groups.length : Int)
        family := "<unsorted>".toList
        unsorted := e.attributeOr "group".toList [] }
    { order with groups := order.groups ++ [sg] }
  else if e.name = "section".toList then
    e.children.foldl (readSectionStep env (e.value "id".toList)) order
  else order

/-- `InstrumentsReader::readScoreOrder`. -/
def readScoreOrder (env : Env) (e : Element) : ScoreOrder :=
  e.children.foldl (readScoreOrderStep env)
    { env.freshScoreOrder with id := e.value "id".toList }

/-! ## Catalog builder -/

/-- One turn of the inner loop of `readMeta` (the children of `museScore`),
over the catalog and the counter `groupIndex`. -/
def readMetaStep (env : Env) (st : InstrumentsMeta × Int) (e : Element) :
    InstrumentsMeta × Int :=
  let meta := st.1
  let groupIndex := st.2
  if e.name = "instrument-group".toList ∨ e.name = "InstrumentGroup".toList then
    (loadGroupMeta env e meta groupIndex, wrap32 (groupIndex + 1))
  else if e.name = "Articulation".toList then
    let articulation := readArticulation env e
    ({ meta with
       articulations := QMap.insert meta.articulations articulation.name articulation },
     groupIndex)
  else if e.name = "Genre".toList then
    let genre := readGenre env e
    ({ meta with genres := QMap.insert meta.genres genre.id genre }, groupIndex)
  else if e.name = "Family".toList then
    let family := readFamily env e
    ({ meta with families := QMap.insert meta.families family.id family }, groupIndex)
  else if e.name = "Order".toList then
    let order : ScoreOrder :=
      { readScoreOrder env e with index := QMap.size meta.scoreOrders }
    ({ meta with scoreOrders := QMap.insert meta.scoreOrders order.id order }, groupIndex)
  else st

mutual

/-- The outer loop of `readMeta` on the elements that follow the cursor at one
level of the tree.  A `museScore` element has its children dispatched and the
loop goes on with the next sibling; any other element is entered without
being skipped (`continue`), so the loop goes on with its children and ends
with them. -/
def readMetaLoop (env : Env) : List Element → InstrumentsMeta × Int → InstrumentsMeta × Int
  | [], st => st
  | e :: rest, st =>
    if e.name = "museScore".toList then
      readMetaLoop env rest (e.children.foldl (readMetaStep env) st)
    else readMetaEnter env e st

/-- The outer loop of `readMeta` once the cursor has entered an element that
is not `museScore`: it goes on with the children of that element. -/
def readMetaEnter (env : Env) : Element → InstrumentsMeta × Int → InstrumentsMeta × Int
  | Element.mk _ _ _ children, st => readMetaLoop env children st

end

/-- The file system service: `fileSystem()->readFile(path)`. -/
structure FileSystem where
  readFile : QString → RetVal (List UInt8)

/-- `InstrumentsReader::readMeta`. -/
def readMeta (env : Env) (fileSystem : FileSystem) (path : QString) : RetVal InstrumentsMeta :=
  let fileBytes := fileSystem.readFile path
  if !fileBytes.ret.success then
    { ret := fileBytes.ret, val := InstrumentsMeta.empty }
  else
    let meta := (readMetaLoop env (env.parseXml fileBytes.val) (InstrumentsMeta.empty, 0)).1
    { ret := make_ret Ret.Ok, val := meta }

/-! ## A concrete set of collaborators

Used to evaluate the reader on concrete documents. -/

/-- Builds an element from string literals. -/
def el (name : String) (attrs : List (String × String)) (text : String)
    (children : List Element) : Element :=
  Element.mk name.toList (attrs.map fun p => (p.1.toList, p.2.toList)) text.toList children

/-- Per-staff array with the same value in every cell. -/
def constCells {α : Type} (v : α) : Int → α := fun _ => v

/-- Collaborators with four staves per instrument, the identity as
translation, a two-entry standard drum kit and five-line default presets. -/
def sampleEnv : Env :=
  { MAX_STAVES := 4
    translate := fun _ text => text
    clefType := fun _ => 0
    chromatic2diatonic := fun c => c * 7 / 12
    presetFromXmlName := fun _ => none
    getDefaultPreset := fun g => some { xmlName := [], group := g, lines := 5 }
    smDrumset := { drums := [{ pitch := 35, name := "Acoustic Bass Drum".toList },
                             { pitch := 38, name := "Acoustic Snare".toList }] }
    drumsetLoad := fun d e =>
      { drums := d.drums ++ [{ pitch := toInt (e.value "pitch".toList), name := e.text }] }
    channelRead := fun e =>
      { name := e.value "name".toList, chorus := 30, reverb := 30, program := 0, bank := 0,
        volume := 100, pan := 64 }
    DEFAULT_NAME := "normal".toList
    ME_CONTROLLER := 176
    CTRL_PROGRAM := 129
    newChannel :=
      { name := [], chorus := 30, reverb := 30, program := -1, bank := 0, volume := 100,
        pan := 64 }
    newInstrument :=
      { id := [], musicXMLid := [], name := [], description := [], longNames := [],
        shortNames := [], sequenceOrder := 0, extended := false, staves := 1, groupId := [],
        genreIds := [], familyId := [],
        amateurPitchRange := { min := 0, max := 127 },
        professionalPitchRange := { min := 0, max := 127 },
        clefs := constCells { _concertClef := 0, _transposingClef := 0 },
        staffLines := constCells 5, smallStaff := constCells false, bracket := constCells (-1),
        bracketSpan := constCells 0, barlineSpan := constCells false,
        transpose := { diatonic := 0, chromatic := 0 },
        staffGroup := StaffGroup.STANDARD, staffTypePreset := none, useDrumset := false,
        drumset := none, stringData := { frets := 0, strings := [] }, midiActions := [],
        channels := [], singleNoteDynamics := true }
    newArticulation := { name := [], descr := [], velocity := 100, gateTime := 100 }
    newGroup := { id := [], name := [], extended := false, sequenceOrder := 0 }
    newScoreOrderGroup :=
      { index := 0, family := [], section_ := [], unsorted := [], bracket := false,
        showSystemMarkings := false, barLineSpan := true, thinBracket := true }
    newScoreOrder := { id := [], name := [], index := 0, instrumentMap := [], groups := [] }
    parseXml := fun _ => [] }

/-! ## Sample documents -/

/-- An order with flat families, soloists, an unsorted placeholder and a
section. -/
def sampleOrder : Element :=
  el "Order" [("id", "orchestral")] ""
    [el "name" [] "Orchestral" [],
     el "instrument" [("id", "saxophone")] "" [el "family" [("id", "saxes")] "Saxophones" []],
     el "family" [] "flutes" [],
     el "soloists" [] "" [],
     el "section" [("id", "brass")] ""
       [el "family" [("thinBrackets", "false")] "horns" [],
        el "unsorted" [("group", "brass")] "" [],
        el "soloists" [] "" [],
        el "family" [] "trumpets" []],
     el "unsorted" [] "" [],
     el "family" [] "strings" []]

/-- The display name a group ends with, in the words of the spec: the text
of its last `name` child, else its `name` attribute, translated. -/
def finalGroupName (env : Env) (e : Element) : QString :=
  match (e.children.filter fun c => c.name = "name".toList).getLast? with
  | some c => env.translate "InstrumentsXML".toList c.text
  | none => env.translate "InstrumentsXML".toList (e.value "name".toList)

/-- A group that declares no id and holds one instrument. -/
def woodWindsGroup : Element :=
  el "instrument-group" [("name", "Wood Winds")] ""
    [el "instrument" [("id", "flute")] "" [el "longName" [] "Flute" []]]

/-- A file system with one unreadable path. -/
def sampleFileSystem : FileSystem :=
  { readFile := fun path =>
      if path = "missing.xml".toList then { ret := { code := 3 }, val := [] }
      else { ret := { code := Ret.Ok }, val := [60, 47, 62] } }

/-- A catalog holding the completed template "piano": a track name, three
staves, a transposition and two channels. -/
def pianoCatalog : InstrumentsMeta :=
  loadGroupMeta sampleEnv
    (el "instrument-group" [("id", "keyboards"), ("name", "Keyboards")] ""
      [el "instrument" [("id", "piano")] ""
        [el "trackName" [] "Piano" [],
         el "description" [] "Grand piano" [],
         el "staves" [] "3" [],
         el "transposeChromatic" [] "7" [],
         el "family" [] "keyboards" [],
         el "Channel" [("name", "normal")] "" [],
         el "Channel" [("name", "mute")] "" []]])
    InstrumentsMeta.empty 0

/-- An instrument that sets a transposition, then initializes from "piano",
then sets the transposition again; it declares no channel. -/
def pianoCopy : Element :=
  el "instrument" [("id", "upright")] ""
    [el "transposeChromatic" [] "5" [],
     el "init" [] "piano" [],
     el "transposeChromatic" [] "2" []]

/-- An instrument that switches its drum kit on and then initializes from
"piano", a template without a drum kit. -/
def drumThenInit : Element :=
  el "instrument" [("id", "kit")] ""
    [el "useDrumset" [] "1" [],
     el "init" [] "piano" []]

/-! ## Template inheritance, in the words of the spec -/

/-- The instruments `x` and `y` agree on the field set that `init` copies:
ids, long and short names, staff count, the cells `0 .. MAX_STAVES-1` of the
per-staff arrays, pitch ranges, transposition, staff grouping and preset,
drum kit use, string data, MIDI actions, channels and single-note-dynamics;
and on the drum kit table when `y` has one. -/
def SameInherited (env : Env) (x y : Instrument) : Prop :=
  x.id = y.id ∧ x.musicXMLid = y.musicXMLid ∧ x.longNames = y.longNames ∧
  x.shortNames = y.shortNames ∧ x.staves = y.staves ∧ x.extended = y.extended ∧
  (∀ i : Int, 0 ≤ i → i < env.MAX_STAVES →
    x.clefs i = y.clefs i ∧ x.staffLines i = y.staffLines i ∧
    x.smallStaff i = y.smallStaff i ∧ x.bracket i = y.bracket i ∧
    x.bracketSpan i = y.bracketSpan i ∧ x.barlineSpan i = y.barlineSpan i) ∧
  x.amateurPitchRange = y.amateurPitchRange ∧
  x.professionalPitchRange = y.professionalPitchRange ∧
  x.transpose = y.transpose ∧ x.staffGroup = y.staffGroup ∧
  x.staffTypePreset = y.staffTypePreset ∧ x.useDrumset = y.useDrumset ∧
  (y.drumset.isSome = true → x.drumset = y.drumset) ∧
  x.stringData = y.stringData ∧ x.midiActions = y.midiActions ∧
  x.channels = y.channels ∧ x.singleNoteDynamics = y.singleNoteDynamics

/-- The elements that override one inherited field, each with the override
it stands for: the field is set to the value read from the element, every
other field is left as it is.  Elements that set several fields, append to a
list or are not in the inherited set give `none`. -/
def overrideField (env : Env) (ov : Element) : Option (Instrument → Instrument) :=
  match templateChild ov.name with
  | TemplateChild.extended => some fun i => { i with extended := toInt ov.text ≠ 0 }
  | TemplateChild.concertClef => some fun i => { i with
      clefs := Function.update i.clefs (readStaffIndex env ov)
        { i.clefs (readStaffIndex env ov) with _concertClef := readClefType env ov.text } }
  | TemplateChild.transposingClef => some fun i => { i with
      clefs := Function.update i.clefs (readStaffIndex env ov)
        { i.clefs (readStaffIndex env ov) with _transposingClef := readClefType env ov.text } }
  | TemplateChild.stafflines => some fun i => { i with
      staffLines := Function.update i.staffLines (readStaffIndex env ov) (toInt ov.text) }
  | TemplateChild.smallStaff => some fun i => { i with
      smallStaff := Function.update i.smallStaff (readStaffIndex env ov) (toInt ov.text ≠ 0) }
  | TemplateChild.bracket => some fun i => { i with
      bracket := Function.update i.bracket (readStaffIndex env ov) (toInt ov.text) }
  | TemplateChild.bracketSpan => some fun i => { i with
      bracketSpan := Function.update i.bracketSpan (readStaffIndex env ov) (toInt ov.text) }
  | TemplateChild.aPitchRange => some fun i => { i with amateurPitchRange := readPitchRange ov }
  | TemplateChild.pPitchRange => some fun i => { i with
      professionalPitchRange := readPitchRange ov }
  | TemplateChild.transposeChromatic => some fun i => { i with
      transpose := { i.transpose with chromatic := toInt ov.text } }
  | TemplateChild.transposeDiatonic => some fun i => { i with
      transpose := { i.transpose with diatonic := toInt ov.text } }
  | TemplateChild.instrumentId => some fun i => { i with musicXMLid := ov.text }
  | TemplateChild.musicXMLid => some fun i => { i with musicXMLid := ov.text }
  | TemplateChild.StringData => some fun i => { i with stringData := readStringData ov }
  | TemplateChild.singleNoteDynamics => some fun i => { i with
      singleNoteDynamics := toInt ov.text ≠ 0 }
  | _ => none

/-- An instrument that initializes from "piano" and then declares one more
channel. -/
def initThenChannel : Element :=
  el "instrument" [("id", "organ")] ""
    [el "init" [] "piano" [],
     el "Channel" [("name", "extra")] "" []]

/-- The template stored under "piano" in `pianoCatalog`. -/
def pianoTemplate : InstrumentTemplate :=
  (QMap.index sampleEnv.freshTemplate pianoCatalog.instrumentTemplates "piano".toList).1

/-! ## Invariant of the score order parser -/

/-- The groups carry their own positions as `index`. -/
def Indexed (groups : List ScoreOrderGroup) : Prop :=
  groups.map (fun g => g.index) = List.map (fun i : Nat => (i : Int)) (List.range groups.length)

/-! ## Sample catalogs built from whole documents -/

/-- The sample collaborators with a tokenizer that yields the one root
element `doc`, whatever the bytes. -/
def docEnv (doc : Element) : Env :=
  { sampleEnv with parseXml := fun _ => [doc] }

/-- The catalog `readMeta` returns for the document `doc`. -/
def catalogOf (doc : Element) : InstrumentsMeta :=
  (readMeta (docEnv doc) sampleFileSystem "instruments.xml".toList).val

/-- An instrument element that declares neither an id nor a name. -/
def namelessInstrument : Element :=
  el "instrument" [] "" [el "staves" [] "1" []]

/-- A document whose only instrument initializes from a template that is
declared nowhere. -/
def danglingInitDocument : Element :=
  el "museScore" [] ""
    [el "instrument-group" [("id", "strings"), ("name", "Strings")] ""
      [el "instrument" [("id", "violin")] ""
        [el "longName" [] "Violin" [], el "init" [] "ghost" []]]]

/-- A document with three instruments, the first two of which share the id
"a". -/
def sharedIdDocument : Element :=
  el "museScore" [] ""
    [el "instrument-group" [("id", "strings"), ("name", "Strings")] ""
      [el "instrument" [("id", "a")] "" [el "longName" [] "First" []],
       el "instrument" [("id", "a")] "" [el "longName" [] "Second" []],
       el "instrument" [("id", "b")] "" [el "longName" [] "Third" []]]]

/-- A group whose only child refers to a template that is declared nowhere. -/
def danglingRefGroup : Element :=
  el "instrument-group" [("id", "strings"), ("name", "Strings")] ""
    [el "ref" [] "ghost" []]

/-- An order with one section "brass" that holds a family, a soloists
placeholder and an unsorted placeholder. -/
def brassSectionOrder : Element :=
  el "Order" [("id", "band")] ""
    [el "section" [("id", "brass")] ""
      [el "family" [("showSystemMarkings", "TRUE"), ("barLineSpan", "False"),
          ("thinBrackets", "maybe")] "horns" [],
       el "soloists" [] "" [],
       el "unsorted" [("group", "rest")] "" []]]

/-- The value of a boolean attribute in the words of the spec: `true` or
`false` when the attribute is present and reads so, whatever the case of its
letters; the default otherwise. -/
def attributeFlag (e : Element) (name : QString) (dflt : Bool) : Bool :=
  if e.hasAttribute name = true ∧ toLower (e.value name) = "true".toList then true
  else if e.hasAttribute name = true ∧ toLower (e.value name) = "false".toList then false
  else dflt

/-! ## Positioned names, in the words of the spec -/

/-- The children of an instrument element that declare a long name. -/
def longNameChildren (e : Element) : List Element :=
  e.children.filter fun c => decide (c.name = "longName".toList ∨ c.name = "name".toList)

/-- The children of an instrument element that declare a short name. -/
def shortNameChildren (e : Element) : List Element :=
  e.children.filter fun c =>
    decide (c.name = "shortName".toList ∨ c.name = "short-name".toList)

/-- The last of the elements `kids` that declares the position `p` (`pos`
attribute, 0 when absent). -/
def lastAtPos (kids : List Element) (p : Int) : Option Element :=
  (kids.filter fun c => decide (c.intAttribute "pos".toList 0 = p)).getLast?

/-- The name list `names` is the one the name elements `kids` declare: at
most one entry per position, an entry for exactly the declared positions, and
at each position the (translated) text of the last element declared there. -/
def NamesOf (env : Env) (kids : List Element) (names : List StaffName) : Prop :=
  (names.map fun n => n.pos).Nodup ∧
  (∀ p : Int, (∃ n ∈ names, n.pos = p) ↔ ∃ c ∈ kids, c.intAttribute "pos".toList 0 = p) ∧
  (∀ n ∈ names, ∃ c : Element, lastAtPos kids n.pos = some c ∧
    n.name = env.translate "InstrumentsXML".toList c.text)

/-- The effect of one long or short name element on the name list: the first
entry at its position is erased and the new entry is appended. -/
def placeName (env : Env) (names : List StaffName) (c : Element) : List StaffName :=
  eraseFirstPos (c.intAttribute "pos".toList 0) names ++
    [{ name := env.translate "InstrumentsXML".toList c.text,
       pos := c.intAttribute "pos".toList 0 }]

/-- An instrument that declares the long name at position 0 twice and one at
position 1. -/
def renamedInstrument : Element :=
  el "instrument" [("id", "horn")] ""
    [el "longName" [] "Horn" [],
     el "longName" [("pos", "1")] "Horn in F" [],
     el "shortName" [] "Hn." [],
     el "name" [("pos", "0")] "French Horn" []]

/-- An element no loop of the reader knows, with a subtree of its own. -/
def unknownElement : Element :=
  el "Comment" [("lang", "en")] "to do" [el "instrument" [("id", "hidden")] "" []]

/-- A file system with two documents: "with.xml" holds the byte 1,
"without.xml" the byte 2. -/
def twoFiles : FileSystem :=
  { readFile := fun path =>
      if path = "with.xml".toList then { ret := { code := Ret.Ok }, val := [1] }
      else { ret := { code := Ret.Ok }, val := [2] } }

/-- The sample collaborators with a tokenizer that reads the byte 1 as a
document with an unknown element between a genre and a family, and anything
else as the same document without that element. -/
def twoDocumentsEnv : Env :=
  { sampleEnv with
    parseXml := fun bytes =>
      if bytes = [1] then
        [Element.mk "museScore".toList [] []
          ([el "Genre" [("id", "jazz")] "" [el "name" [] "Jazz" []]] ++
            unknownElement :: [el "Family" [("id", "brass")] "" [el "name" [] "Brass" []]])]
      else
        [Element.mk "museScore".toList [] []
          ([el "Genre" [("id", "jazz")] "" [el "name" [] "Jazz" []]] ++
            [el "Family" [("id", "brass")] "" [el "name" [] "Brass" []]])] }

/-! ## Replacement of records, in the words of the spec -/

/-- The keys of a map, in the order of its entries. -/
def QMap.keys {α : Type} (m : QMap α) : List QString := m.map fun p => p.1

/-- The map `m` holds exactly one entry for the key `k`, and it is `v`. -/
def StoredOnce {α : Type} (m : QMap α) (k : QString) (v : α) : Prop :=
  QMap.find m k = some v ∧ (m.filter fun p => decide (p.1 = k)).length = 1

/-- No key occurs twice in any of the six maps of the catalog. -/
def UniqueKeys (meta : InstrumentsMeta) : Prop :=
  (QMap.keys meta.instrumentTemplates).Nodup ∧ (QMap.keys meta.groups).Nodup ∧
  (QMap.keys meta.genres).Nodup ∧ (QMap.keys meta.articulations).Nodup ∧
  (QMap.keys meta.families).Nodup ∧ (QMap.keys meta.scoreOrders).Nodup

/-- The element is dispatched to `loadGroupMeta` by `readMeta`. -/
def isGroupElement (c : Element) : Prop :=
  c.name = "instrument-group".toList ∨ c.name = "InstrumentGroup".toList

instance (c : Element) : Decidable (isGroupElement c) := by
  unfold isGroupElement
  exact inferInstance

/-- The id under which `loadGroupMeta` stores the group `e`: the declared id,
or the id derived from the final display name when none is declared. -/
def storedGroupId (env : Env) (e : Element) : QString :=
  if e.value "id".toList = [] then deriveId (finalGroupName env e) else e.value "id".toList

/-- The catalog and the group counter of `readMeta` after the children `kids`
of the `museScore` element have been dispatched. -/
def stateAfter (env : Env) (kids : List Element) : InstrumentsMeta × Int :=
  kids.foldl (readMetaStep env) (InstrumentsMeta.empty, 0)

/-- The group and the catalog of `loadGroupMeta` for the group element `g`,
entered in the state `st` of `readMeta`, after the children `kids` of the
group have been handled. -/
def groupStateAfter (env : Env) (st : InstrumentsMeta × Int) (g : Element)
    (kids : List Element) : InstrumentGroup × InstrumentsMeta :=
  kids.foldl (loadGroupMetaStep env) (loadGroupMetaInit env g st.2, st.1)

/-- The template `loadGroupMeta` stores for the instrument child `i` of a
group, handled in the state `st` of the group loop: the template read, with
the group id stamped on its instrument. -/
def storedTemplate (env : Env) (st : InstrumentGroup × InstrumentsMeta) (i : Element) :
    InstrumentTemplate :=
  { (readInstrumentTemplate env i st.2).1 with
    instrument :=
      { (readInstrumentTemplate env i st.2).1.instrument with groupId := st.1.id } }

/-- Every template of the mapping is stored under its own id, or has the
empty id (as a default-constructed template has). -/
def TemplateIds (meta : InstrumentsMeta) : Prop :=
  ∀ p ∈ meta.instrumentTemplates, p.2.id = p.1 ∨ p.2.id = []

/-- The child `c` of a group stores no template under the key `k`: it is no
instrument with the id `k`, and it is no `ref` when `k` is the empty id (a
`ref` stores a template under the id of the template, which is empty for a
default-constructed one). -/
def StoresNoTemplate (k : QString) (c : Element) : Prop :=
  (c.name = "ref".toList → k ≠ []) ∧
  (toLower c.name = "instrument".toList → c.value "id".toList ≠ k)

instance (k : QString) (c : Element) : Decidable (StoresNoTemplate k c) := by
  unfold StoresNoTemplate
  exact inferInstance

/-- The top-level element `c` stores no articulation under the name `k`: it
is no `Articulation` with that name, and when it is a group, no instrument of
it holds an `Articulation` child with that name. -/
def StoresNoArticulation (k : QString) (c : Element) : Prop :=
  (c.name = "Articulation".toList → c.value "name".toList ≠ k) ∧
  (isGroupElement c → ∀ i ∈ c.children, ∀ a ∈ i.children,
    a.name = "Articulation".toList → a.value "name".toList ≠ k)

instance (k : QString) (c : Element) : Decidable (StoresNoArticulation k c) := by
  unfold StoresNoArticulation
  exact inferInstance

/-- A document that declares the genre "jazz" twice, with another genre in
between. -/
def duplicateGenreDocument : Element :=
  el "museScore" [] ""
    [el "Genre" [("id", "jazz")] "" [el "name" [] "Jazz" []],
     el "Genre" [("id", "rock")] "" [el "name" [] "Rock" []],
     el "Genre" [("id", "jazz")] "" [el "name" [] "Modern Jazz" []]]

/-! ## Drum kit tables and staff arrays -/

/-- The number of calls of `Drumset::clear` while the loop of
`readInstrumentTemplate` handles the children `kids` from the state `st`: one
for each `Drum` child met while `customDrumset` is unset. -/
def clearCount (env : Env) : TemplateState → List Element → Nat
  | _, [] => 0
  | st, c :: rest =>
    (if templateChild c.name = TemplateChild.Drum ∧ st.customDrumset = false then 1 else 0) +
      clearCount env (readInstrumentTemplateStep env st c) rest

/-- The drum kit table that holds exactly the entries loaded from the `Drum`
elements among `kids`, in their order: the loads applied to an empty table. -/
def loadedDrums (env : Env) (kids : List Element) : Drumset :=
  (kids.filter fun c => decide (c.name = "Drum".toList)).foldl env.drumsetLoad { drums := [] }

/-- The drum kit table of the stored template an `init` with the text `id`
refers to, if there is such a template and it holds a table. -/
def sourceDrumset (generalMeta : InstrumentsMeta) (id : QString) : Option Drumset :=
  (QMap.find generalMeta.instrumentTemplates id).bind fun t => t.instrument.drumset

/-- An instrument that loads a drum, switches the standard drum kit on and
loads another drum. -/
def drumThenUseDrumset : Element :=
  el "instrument" [("id", "kit")] ""
    [el "Drum" [("pitch", "36")] "Kick" [],
     el "useDrumset" [] "1" [],
     el "Drum" [("pitch", "40")] "Snare" []]

/-- A catalog holding the template "standard-kit", whose instrument holds the
standard drum kit, and the template "triangle", whose instrument holds no
drum kit table. -/
def kitCatalog : InstrumentsMeta :=
  loadGroupMeta sampleEnv
    (el "instrument-group" [("id", "percussion"), ("name", "Percussion")] ""
      [el "instrument" [("id", "standard-kit")] ""
        [el "trackName" [] "Drumset" [], el "useDrumset" [] "1" []],
       el "instrument" [("id", "triangle")] ""
        [el "trackName" [] "Triangle" []]])
    InstrumentsMeta.empty 0

/-- An instrument that loads a drum and then initializes from
"standard-kit". -/
def drumThenKit : Element :=
  el "instrument" [("id", "kit")] ""
    [el "Drum" [("pitch", "36")] "Kick" [],
     el "init" [] "standard-kit" []]

/-- An instrument whose barline span of four staves starts at the third of
four staves. -/
def wideBarlineSpan : Element :=
  el "instrument" [("id", "organ")] ""
    [el "barlineSpan" [("staff", "3")] "4" []]

/-- A group state: the group "winds" before its first child, on an empty
catalog. -/
def windsGroupState : InstrumentGroup × InstrumentsMeta :=
  (loadGroupMetaInit sampleEnv (el "instrument-group" [("id", "winds")] "" []) 0,
   InstrumentsMeta.empty)

/-- An instrument element without an id attribute, with the long name
"Flute". -/
def idlessFlute : Element :=
  el "instrument" [] "" [el "longName" [] "Flute" []]

/-- An instrument element without an id attribute, with the long name
"Oboe". -/
def idlessOboe : Element :=
  el "instrument" [] "" [el "longName" [] "Oboe" []]

/-- An instrument that switches the standard drum kit on and initializes from
"standard-kit" before its first drum, and after it switches the drum kit off,
initializes from "triangle" and from an id declared nowhere, and loads a
second drum. -/
def interleavedKit : Element :=
  el "instrument" [("id", "kit")] ""
    [el "useDrumset" [] "1" [],
     el "init" [] "standard-kit" [],
     el "Drum" [("pitch", "36")] "Kick" [],
     el "useDrumset" [] "0" [],
     el "init" [] "triangle" [],
     el "init" [] "ghost" [],
     el "Drum" [("pitch", "40")] "Snare" []]

/-- An instrument that switches the standard drum kit on and then initializes
from an id that is declared nowhere. -/
def drumThenGhost : Element :=
  el "instrument" [("id", "kit")] ""
    [el "useDrumset" [] "1" [],
     el "init" [] "ghost" []]

/-! ## Lemmas on strings and numbers -/

theorem digitValue_ofNat (d : Nat) (h : d < 10) : digitValue (Char.ofNat (48 + d)) = some d := by
  interval_cases d <;> rfl

theorem isSpace_ofNat (d : Nat) (h : d < 10) : isSpace (Char.ofNat (48 + d)) = false := by
  interval_cases d <;> rfl

theorem parseDigitsFrom_map (ds : List Nat) (h : ∀ d ∈ ds, d < 10) (acc : Nat) :
    parseDigitsFrom acc (ds.map fun d => Char.ofNat (48 + d)) =
      some (ds.foldl (fun a d => a * 10 + d) acc) := by
  induction ds generalizing acc with
  | nil => rfl
  | cons d ds ih =>
    have hd : d < 10 := h d (List.mem_cons_self _ _)
    simp only [List.map_cons, parseDigitsFrom, digitValue_ofNat d hd, List.foldl_cons]
    exact ih (fun x hx => h x (List.mem_cons_of_mem _ hx)) _

theorem foldl_digits (n : Nat) :
    (Nat.digits 10 n).reverse.foldl (fun a d => a * 10 + d) 0 = n := by
  rw [List.foldl_reverse]
  have h : ∀ L : List Nat, L.foldr (fun d a => a * 10 + d) 0 = Nat.ofDigits 10 L := by
    intro L
    induction L with
    | nil => rfl
    | cons d L ih => simp [Nat.ofDigits_cons, ih]; ring
  rw [h, Nat.ofDigits_digits]

theorem decimalNat_ne_nil (n : Nat) (h : n ≠ 0) : decimalNat n ≠ [] := by
  simp [decimalNat, Nat.digits_ne_nil_iff_ne_zero, h]

theorem parseDigits_decimal (n : Nat) : parseDigits (decimal n) = some n := by
  by_cases h : n = 0
  · subst h; rfl
  · have hne := decimalNat_ne_nil n h
    simp only [decimal, h, if_false]
    cases hd : decimalNat n with
    | nil => exact absurd hd hne
    | cons c cs =>
      rw [parseDigits, ← hd, decimalNat,
        parseDigitsFrom_map _ (fun d hd => Nat.digits_lt_base (by norm_num) (List.mem_reverse.mp hd)),
        foldl_digits]

/-- Every character of a decimal text is a digit character. -/
theorem decimal_digit (n : Nat) (c : Char) (h : c ∈ decimal n) :
    ∃ d, d < 10 ∧ c = Char.ofNat (48 + d) := by
  by_cases h0 : n = 0
  · subst h0
    simp [decimal] at h
    exact ⟨0, by norm_num, by rw [h]⟩
  · simp only [decimal, h0, if_false, decimalNat, List.mem_map, List.mem_reverse] at h
    obtain ⟨d, hd, rfl⟩ := h
    exact ⟨d, Nat.digits_lt_base (by norm_num) hd, rfl⟩

theorem decimal_ne_nil (n : Nat) : decimal n ≠ [] := by
  by_cases h : n = 0
  · simp [decimal, h]
  · simp [decimal, h, decimalNat_ne_nil n h]

theorem digit_ne_minus (d : Nat) (h : d < 10) : Char.ofNat (48 + d) ≠ '-' := by
  interval_cases d <;> decide

theorem digit_ne_plus (d : Nat) (h : d < 10) : Char.ofNat (48 + d) ≠ '+' := by
  interval_cases d <;> decide

theorem digit_ne_percent (d : Nat) (h : d < 10) : Char.ofNat (48 + d) ≠ '%' := by
  interval_cases d <;> decide

theorem dropWhile_eq_self {α : Type} (p : α → Bool) (s : List α) (h : ∀ c ∈ s, p c = false) :
    s.dropWhile p = s := by
  cases s with
  | nil => rfl
  | cons c cs => simp [List.dropWhile, h c (List.mem_cons_self _ _)]

theorem trimmed_eq_self (s : QString) (h : ∀ c ∈ s, isSpace c = false) : trimmed s = s := by
  unfold trimmed
  rw [dropWhile_eq_self _ s h, dropWhile_eq_self _ _ (fun c hc => h c (List.mem_reverse.mp hc)),
    List.reverse_reverse]

theorem parseSigned_of_ne (c : Char) (cs : QString) (h1 : c ≠ '-') (h2 : c ≠ '+') :
    parseSigned (c :: cs) = Option.map (fun n : Nat => (n : Int)) (parseDigits (c :: cs)) := by
  unfold parseSigned
  split <;> simp_all

theorem parseSigned_minus (ds : QString) :
    parseSigned ('-' :: ds) = Option.map (fun n : Nat => -(n : Int)) (parseDigits ds) := by
  simp [parseSigned]

theorem parseSigned_decimal (n : Nat) : parseSigned (decimal n) = some (n : Int) := by
  have hne := decimal_ne_nil n
  have hdig := decimal_digit n
  cases hd : decimal n with
  | nil => exact absurd hd hne
  | cons c cs =>
    obtain ⟨d, hd10, hc⟩ := hdig c (by rw [hd]; exact List.mem_cons_self _ _)
    rw [parseSigned_of_ne c cs (hc ▸ digit_ne_minus d hd10) (hc ▸ digit_ne_plus d hd10), ← hd,
      parseDigits_decimal]
    rfl

theorem decimal_not_space (n : Nat) (c : Char) (h : c ∈ decimal n) : isSpace c = false := by
  obtain ⟨d, hd, rfl⟩ := decimal_digit n c h
  exact isSpace_ofNat d hd

/-- Reading back the decimal text of a natural number in the `int` range. -/
theorem toIntOk_decimal (n : Nat) (h : (n : Int) ≤ INT_MAX) : toIntOk (decimal n) = some (n : Int) := by
  unfold toIntOk
  rw [trimmed_eq_self _ (decimal_not_space n), parseSigned_decimal]
  have h0 : INT_MIN ≤ (n : Int) := by unfold INT_MIN; omega
  simp [h, h0]

/-- Reading back the decimal text of an integer in the `int` range. -/
theorem toIntOk_decimalInt (v : Int) (h1 : INT_MIN ≤ v) (h2 : v ≤ INT_MAX) :
    toIntOk (decimalInt v) = some v := by
  by_cases hneg : v < 0
  · have hsp : ∀ c ∈ decimalInt v, isSpace c = false := by
      intro c hc
      simp only [decimalInt, hneg, if_true, List.mem_cons] at hc
      rcases hc with rfl | hc
      · rfl
      · exact decimal_not_space _ c hc
    unfold toIntOk
    rw [trimmed_eq_self _ hsp]
    have hv : -((v.natAbs : Nat) : Int) = v := by omega
    have hp : parseSigned (decimalInt v) = some v := by
      simp only [decimalInt, hneg, if_true]
      rw [parseSigned_minus, parseDigits_decimal, Option.map_some', hv]
    rw [hp]
    simp [h1, h2]
  · have hv : ((v.natAbs : Nat) : Int) = v := by omega
    simp only [decimalInt, hneg, if_false]
    have := toIntOk_decimal v.natAbs (by rw [hv]; exact h2)
    rw [this, hv]

theorem toInt_decimalInt (v : Int) (h1 : INT_MIN ≤ v) (h2 : v ≤ INT_MAX) :
    toInt (decimalInt v) = v := by
  simp [toInt, toIntOk_decimalInt v h1 h2]

theorem toInt_decimal (n : Nat) (h : (n : Int) ≤ INT_MAX) : toInt (decimal n) = (n : Int) := by
  simp [toInt, toIntOk_decimal n h]

theorem stripPercent_of_last (s : QString) (h : ∀ c, s.getLast? = some c → c ≠ '%') :
    stripPercent s = s := by
  unfold stripPercent endsWith
  cases hl : s.getLast? with
  | none => simp
  | some c =>
    have := h c hl
    simp [this]

theorem stripPercent_decimalInt (v : Int) : stripPercent (decimalInt v) = decimalInt v := by
  apply stripPercent_of_last
  intro c hc
  have hmem := List.mem_of_getLast?_eq_some hc
  have hdig : c ∈ decimal v.natAbs := by
    by_cases hneg : v < 0
    · simp only [decimalInt, hneg, if_true] at hc
      rw [List.getLast?_cons] at hc
      cases hl : (decimal v.natAbs).getLast? with
      | none =>
        have := decimal_ne_nil v.natAbs
        simp at hl
        exact absurd hl this
      | some c0 =>
        rw [hl] at hc
        simp at hc
        exact hc ▸ List.mem_of_getLast?_eq_some hl
    · simp only [decimalInt, hneg, if_false] at hmem
      exact hmem
  obtain ⟨d, hd, rfl⟩ := decimal_digit _ c hdig
  exact digit_ne_percent d hd

theorem stripPercent_append (s : QString) : stripPercent (s ++ ['%']) = s := by
  unfold stripPercent endsWith left
  simp [List.getLast?_concat]

/-- Both percentage spellings of an `int` read back as that `int`. -/
theorem toInt_stripPercent (n : Int) (h1 : INT_MIN ≤ n) (h2 : n ≤ INT_MAX) (text : QString)
    (h : text = decimalInt n ∨ text = decimalInt n ++ ['%']) :
    toInt (stripPercent text) = n := by
  rcases h with rfl | rfl
  · rw [stripPercent_decimalInt, toInt_decimalInt n h1 h2]
  · rw [stripPercent_append, toInt_decimalInt n h1 h2]

theorem readArticulationStep_velocity (a : MidiArticulation) (e : Element)
    (h : e.name ≠ "velocity".toList) : (readArticulationStep a e).velocity = a.velocity := by
  unfold readArticulationStep
  split_ifs <;> simp_all

theorem readArticulationStep_gateTime (a : MidiArticulation) (e : Element)
    (h : e.name ≠ "gateTime".toList) : (readArticulationStep a e).gateTime = a.gateTime := by
  unfold readArticulationStep
  split_ifs <;> simp_all

theorem readArticulation_fold_velocity (post : List Element)
    (h : ∀ c ∈ post, c.name ≠ "velocity".toList) (a : MidiArticulation) :
    (post.foldl readArticulationStep a).velocity = a.velocity := by
  induction post generalizing a with
  | nil => rfl
  | cons c post ih =>
    rw [List.foldl_cons, ih (fun x hx => h x (List.mem_cons_of_mem _ hx)),
      readArticulationStep_velocity a c (h c (List.mem_cons_self _ _))]

theorem readArticulation_fold_gateTime (post : List Element)
    (h : ∀ c ∈ post, c.name ≠ "gateTime".toList) (a : MidiArticulation) :
    (post.foldl readArticulationStep a).gateTime = a.gateTime := by
  induction post generalizing a with
  | nil => rfl
  | cons c post ih =>
    rw [List.foldl_cons, ih (fun x hx => h x (List.mem_cons_of_mem _ hx)),
      readArticulationStep_gateTime a c (h c (List.mem_cons_self _ _))]

theorem split_ne_nil (sep : Char) (s : QString) : split sep s ≠ [] := by
  induction s with
  | nil => simp [split]
  | cons c cs ih =>
    unfold split
    split_ifs
    · simp
    · cases h : split sep cs with
      | nil => exact absurd h ih
      | cons p ps => simp

theorem split_of_not_mem (sep : Char) (s : QString) (h : sep ∉ s) : split sep s = [s] := by
  induction s with
  | nil => rfl
  | cons c cs ih =>
    have hc : c ≠ sep := fun hc => h (hc ▸ List.mem_cons_self _ _)
    have hcs : sep ∉ cs := fun hm => h (List.mem_cons_of_mem _ hm)
    simp [split, hc, ih hcs]

theorem split_append (sep : Char) (s t : QString) (h : sep ∉ s) :
    split sep (s ++ sep :: t) = s :: split sep t := by
  induction s with
  | nil => simp [split]
  | cons c cs ih =>
    have hc : c ≠ sep := fun hc => h (hc ▸ List.mem_cons_self _ _)
    have hcs : sep ∉ cs := fun hm => h (List.mem_cons_of_mem _ hm)
    simp [split, hc, ih hcs]

theorem split_length (sep : Char) (s : QString) :
    (split sep s).length = s.count sep + 1 := by
  induction s with
  | nil => rfl
  | cons c cs ih =>
    unfold split
    by_cases hc : c = sep
    · subst hc
      simp [ih]
    · have hne := split_ne_nil sep cs
      cases h : split sep cs with
      | nil => exact absurd h hne
      | cons p ps =>
        rw [h] at ih
        simp only [hc, if_false, List.length_cons] at ih ⊢
        rw [List.count_cons_of_ne (Ne.symm hc)]
        exact ih

theorem minus_not_mem_decimal (n : Nat) : '-' ∉ decimal n := by
  intro h
  obtain ⟨d, hd, hc⟩ := decimal_digit n _ h
  exact digit_ne_minus d hd hc.symm

theorem readPitchRange_two_fields (e : Element) (lo hi : QString) (hlo : '-' ∉ lo)
    (hhi : '-' ∉ hi) (h : e.text = lo ++ '-' :: hi) :
    readPitchRange e = { min := toInt lo, max := toInt hi } := by
  unfold readPitchRange
  rw [h, split_append _ _ _ hlo, split_of_not_mem _ _ hhi]

theorem readPitchRange_other_count (e : Element) (h : e.text.count '-' ≠ 1) :
    readPitchRange e = { min := 0, max := 127 } := by
  have hlen := split_length '-' e.text
  unfold readPitchRange
  split
  · rename_i lo hi heq
    rw [heq] at hlen
    simp at hlen
    omega
  · rfl

theorem wrap32_of_range (x : Int) (h1 : INT_MIN ≤ x) (h2 : x ≤ INT_MAX) : wrap32 x = x := by
  unfold INT_MIN at h1
  unfold INT_MAX at h2
  unfold wrap32
  omega

theorem wrap32_range (x : Int) : INT_MIN ≤ wrap32 x ∧ wrap32 x ≤ INT_MAX := by
  unfold INT_MIN INT_MAX wrap32
  omega

theorem toInt_range (s : QString) : INT_MIN ≤ toInt s ∧ toInt s ≤ INT_MAX := by
  unfold toInt toIntOk
  split
  · split_ifs with h
    · exact h
    · decide
  · decide

theorem toInt_of_none (s : QString) (h : toIntOk s = none) : toInt s = 0 := by
  simp [toInt, h]

theorem value_of_not_hasAttribute (e : Element) (key : QString)
    (h : e.hasAttribute key = false) : e.value key = [] := by
  unfold Element.hasAttribute at h
  unfold Element.value
  have : e.attrs.find? (fun p => decide (p.1 = key)) = none := by
    rw [List.find?_eq_none]
    intro p hp
    have := List.any_eq_false.mp h p hp
    simpa using this
  rw [this]

/-! ## Lemmas on the score order parser -/

theorem indexed_nil : Indexed [] := rfl

theorem indexed_append (groups : List ScoreOrderGroup) (sg : ScoreOrderGroup)
    (h : Indexed groups) (hsg : sg.index = (groups.length : Int)) : Indexed (groups ++ [sg]) := by
  unfold Indexed at h ⊢
  simp [List.range_succ, h, hsg]

theorem indexed_get (groups : List ScoreOrderGroup) (h : Indexed groups) (i : Nat)
    (hi : i < groups.length) : (groups.get ⟨i, hi⟩).index = (i : Int) := by
  unfold Indexed at h
  have h1 : (groups.map fun g => g.index)[i]? = some (groups.get ⟨i, hi⟩).index := by
    rw [List.getElem?_map, List.getElem?_eq_getElem hi]
    rfl
  have h2 : (List.map (fun i : Nat => (i : Int)) (List.range groups.length))[i]? =
      some (i : Int) := by
    rw [List.getElem?_map, List.getElem?_range hi]
    rfl
  rw [h, h2] at h1
  exact (Option.some.inj h1).symm

theorem readSectionStep_indexed (env : Env) (s : QString) (order : ScoreOrder) (e : Element)
    (h : Indexed order.groups) : Indexed (readSectionStep env s order e).groups := by
  unfold readSectionStep
  split_ifs
  · exact indexed_append _ _ h rfl
  · exact indexed_append _ _ h rfl
  · exact indexed_append _ _ h rfl
  · exact h

theorem readSection_fold_indexed (env : Env) (s : QString) (es : List Element)
    (order : ScoreOrder) (h : Indexed order.groups) :
    Indexed (es.foldl (readSectionStep env s) order).groups := by
  induction es generalizing order with
  | nil => exact h
  | cons e es ih => exact ih _ (readSectionStep_indexed env s order e h)

theorem readScoreOrderStep_indexed (env : Env) (order : ScoreOrder) (e : Element)
    (h : Indexed order.groups) : Indexed (readScoreOrderStep env order e).groups := by
  unfold readScoreOrderStep
  split_ifs
  · exact h
  · exact h
  · exact indexed_append _ _ h rfl
  · exact indexed_append _ _ h rfl
  · exact indexed_append _ _ h rfl
  · exact readSection_fold_indexed env _ _ order h
  · exact h

theorem readScoreOrder_fold_indexed (env : Env) (es : List Element) (order : ScoreOrder)
    (h : Indexed order.groups) : Indexed (es.foldl (readScoreOrderStep env) order).groups := by
  induction es generalizing order with
  | nil => exact h
  | cons e es ih => exact ih _ (readScoreOrderStep_indexed env order e h)

/-! ## Lemmas on keyed maps -/

theorem QMap.find_insert_self {α : Type} (m : QMap α) (k : QString) (v : α) :
    QMap.find (QMap.insert m k v) k = some v := by
  induction m with
  | nil => simp [QMap.insert, QMap.find]
  | cons p rest ih =>
    obtain ⟨k0, v0⟩ := p
    by_cases h : k0 = k
    · simp [QMap.insert, QMap.find, h]
    · simp [QMap.insert, QMap.find, h, ih]

theorem QMap.find_insert_of_ne {α : Type} (m : QMap α) (k k1 : QString) (v : α) (h : k ≠ k1) :
    QMap.find (QMap.insert m k v) k1 = QMap.find m k1 := by
  induction m with
  | nil => simp [QMap.insert, QMap.find, h]
  | cons p rest ih =>
    obtain ⟨k0, v0⟩ := p
    by_cases h0 : k0 = k
    · subst h0
      simp [QMap.insert, QMap.find, h]
    · by_cases h1 : k0 = k1
      · subst h1
        simp [QMap.insert, QMap.find, h0]
      · simp [QMap.insert, QMap.find, h0, h1, ih]

/-! ## Lemmas on the group parser -/

theorem loadGroupMetaStep_id (env : Env) (st : InstrumentGroup × InstrumentsMeta) (e : Element) :
    (loadGroupMetaStep env st e).1.id = st.1.id := by
  unfold loadGroupMetaStep
  split_ifs <;> rfl

theorem loadGroupMeta_fold_id (env : Env) (es : List Element)
    (st : InstrumentGroup × InstrumentsMeta) :
    (es.foldl (loadGroupMetaStep env) st).1.id = st.1.id := by
  induction es generalizing st with
  | nil => rfl
  | cons e es ih => rw [List.foldl_cons, ih, loadGroupMetaStep_id]

theorem loadGroupMetaStep_sequenceOrder (env : Env) (st : InstrumentGroup × InstrumentsMeta)
    (e : Element) : (loadGroupMetaStep env st e).1.sequenceOrder = st.1.sequenceOrder := by
  unfold loadGroupMetaStep
  split_ifs <;> rfl

theorem loadGroupMeta_fold_sequenceOrder (env : Env) (es : List Element)
    (st : InstrumentGroup × InstrumentsMeta) :
    (es.foldl (loadGroupMetaStep env) st).1.sequenceOrder = st.1.sequenceOrder := by
  induction es generalizing st with
  | nil => rfl
  | cons e es ih => rw [List.foldl_cons, ih, loadGroupMetaStep_sequenceOrder]

theorem loadGroupMetaStep_name (env : Env) (st : InstrumentGroup × InstrumentsMeta)
    (e : Element) :
    (loadGroupMetaStep env st e).1.name =
      if e.name = "name".toList then env.translate "InstrumentsXML".toList e.text
      else st.1.name := by
  unfold loadGroupMetaStep
  by_cases h : e.name = "name".toList
  · have h1 : toLower e.name ≠ "instrument".toList := by rw [h]; decide
    have h2 : e.name ≠ "ref".toList := by rw [h]; decide
    simp only [h1, h2, if_false]
    rw [if_pos h, if_pos h]
  · simp only [h, if_false]
    split_ifs <;> rfl

theorem loadGroupMeta_fold_name (env : Env) (es : List Element)
    (st : InstrumentGroup × InstrumentsMeta) :
    (es.foldl (loadGroupMetaStep env) st).1.name =
      match (es.filter fun c => c.name = "name".toList).getLast? with
      | some c => env.translate "InstrumentsXML".toList c.text
      | none => st.1.name := by
  induction es generalizing st with
  | nil => rfl
  | cons e es ih =>
    rw [List.foldl_cons, ih, loadGroupMetaStep_name]
    by_cases h : e.name = "name".toList
    · have hf : (e :: es).filter (fun c => decide (c.name = "name".toList)) =
          e :: es.filter (fun c => decide (c.name = "name".toList)) :=
        List.filter_cons_of_pos (by simp only [h, decide_True])
      rw [hf, List.getLast?_cons]
      cases (es.filter fun c => decide (c.name = "name".toList)).getLast? with
      | none => simp only [Option.getD_none, if_pos h]
      | some c => simp only [Option.getD_some]
    · have hf : (e :: es).filter (fun c => decide (c.name = "name".toList)) =
          es.filter (fun c => decide (c.name = "name".toList)) :=
        List.filter_cons_of_neg (by simp only [h, decide_False]; exact Bool.false_ne_true)
      rw [hf]
      cases (es.filter fun c => decide (c.name = "name".toList)).getLast? with
      | none => simp only [if_neg h]
      | some c => rfl

theorem loadGroupMetaLoop_name (env : Env) (e : Element) (meta : InstrumentsMeta) (idx : Int) :
    (loadGroupMetaLoop env e meta idx).1.name = finalGroupName env e := by
  unfold loadGroupMetaLoop finalGroupName
  rw [loadGroupMeta_fold_name]
  rfl

/-! ## Lemmas on the instrument template parser -/

/-- One step down an `if`/`else if` chain whose first branch gives another
value than the one returned. -/
theorem ite_ne_elim {α : Type} {c : Prop} [Decidable c] {a b t : α}
    (h : (if c then a else b) = t) (hat : a ≠ t) : b = t := by
  by_cases hc : c
  · rw [if_pos hc] at h
    exact absurd h hat
  · rw [if_neg hc] at h
    exact h

theorem templateChild_Channel (name : QString)
    (h : templateChild name = TemplateChild.Channel) :
    name = "Channel".toList ∨ name = "channel".toList := by
  unfold templateChild at h
  repeat (replace h := ite_ne_elim h (by decide))
  by_cases hc : name = "Channel".toList ∨ name = "channel".toList
  · exact hc
  · rw [if_neg hc] at h
    repeat (replace h := ite_ne_elim h (by decide))
    cases h

theorem templateChild_init (name : QString) (h : templateChild name = TemplateChild.init) :
    name = "init".toList := by
  unfold templateChild at h
  repeat (replace h := ite_ne_elim h (by decide))
  by_cases hc : name = "init".toList
  · exact hc
  · rw [if_neg hc] at h
    repeat (replace h := ite_ne_elim h (by decide))
    cases h

theorem readInstrumentTemplateStep_channels (env : Env) (st : TemplateState) (e : Element)
    (h1 : e.name ≠ "Channel".toList) (h2 : e.name ≠ "channel".toList)
    (h3 : e.name ≠ "init".toList) :
    (readInstrumentTemplateStep env st e).instrument.channels = st.instrument.channels := by
  unfold readInstrumentTemplateStep
  cases h : templateChild e.name
  case Channel => exact absurd (templateChild_Channel _ h) (not_or.mpr ⟨h1, h2⟩)
  case init => exact absurd (templateChild_init _ h) h3
  all_goals rfl

theorem readInstrumentTemplate_fold_channels (env : Env) (es : List Element)
    (h : ∀ c ∈ es, c.name ≠ "Channel".toList ∧ c.name ≠ "channel".toList ∧
      c.name ≠ "init".toList) (st : TemplateState) :
    (es.foldl (readInstrumentTemplateStep env) st).instrument.channels =
      st.instrument.channels := by
  induction es generalizing st with
  | nil => rfl
  | cons e es ih =>
    have he := h e (List.mem_cons_self _ _)
    rw [List.foldl_cons, ih (fun x hx => h x (List.mem_cons_of_mem _ hx)),
      readInstrumentTemplateStep_channels env st e he.1 he.2.1 he.2.2]

theorem fillByDefault_channels (env : Env) (i : Instrument) :
    (fillByDefault env i).channels =
      if i.channels.isEmpty then i.channels ++ [defaultChannel env] else i.channels := by
  unfold fillByDefault
  simp only
  split_ifs <;> rfl

theorem QMap.find_index {α : Type} (dflt : α) (m : QMap α) (k k1 : QString) (v : α)
    (h : QMap.find m k = some v) : QMap.find (QMap.index dflt m k1).2 k = some v := by
  unfold QMap.index
  cases hf : QMap.find m k1 with
  | some w => exact h
  | none =>
    have hne : k1 ≠ k := by
      intro hk
      rw [hk, h] at hf
      cases hf
    simp only
    rw [QMap.find_insert_of_ne _ _ _ _ hne]
    exact h

theorem QMap.index_of_find {α : Type} (dflt : α) (m : QMap α) (k : QString) (v : α)
    (h : QMap.find m k = some v) : QMap.index dflt m k = (v, m) := by
  unfold QMap.index
  rw [h]

theorem readInstrumentTemplateStep_find (env : Env) (st : TemplateState) (e : Element)
    (k : QString) (t : InstrumentTemplate)
    (h : QMap.find st.generalMeta.instrumentTemplates k = some t) :
    QMap.find (readInstrumentTemplateStep env st e).generalMeta.instrumentTemplates k =
      some t := by
  unfold readInstrumentTemplateStep
  cases templateChild e.name
  case init => exact QMap.find_index _ _ _ _ _ h
  all_goals exact h

theorem readInstrumentTemplate_fold_find (env : Env) (es : List Element) (k : QString)
    (t : InstrumentTemplate) (st : TemplateState)
    (h : QMap.find st.generalMeta.instrumentTemplates k = some t) :
    QMap.find (es.foldl (readInstrumentTemplateStep env) st).generalMeta.instrumentTemplates k =
      some t := by
  induction es generalizing st with
  | nil => exact h
  | cons e es ih => exact ih _ (readInstrumentTemplateStep_find env st e k t h)

theorem readInstrumentTemplateStep_init (env : Env) (st : TemplateState) (e : Element)
    (t : InstrumentTemplate) (hname : e.name = "init".toList)
    (h : QMap.find st.generalMeta.instrumentTemplates e.text = some t) :
    (readInstrumentTemplateStep env st e).instrument =
      initInstrument env st.instrument t.instrument := by
  have ht : templateChild e.name = TemplateChild.init := by
    rw [hname]
    decide
  unfold readInstrumentTemplateStep
  rw [ht]
  simp only [QMap.index_of_find _ _ _ _ h]

theorem readInstrumentTemplateStep_override (env : Env) (st : TemplateState) (ov : Element)
    (f : Instrument → Instrument) (h : overrideField env ov = some f) :
    (readInstrumentTemplateStep env st ov).instrument = f st.instrument := by
  unfold overrideField at h
  unfold readInstrumentTemplateStep
  cases ht : templateChild ov.name <;> rw [ht] at h <;> simp only at h <;>
    first
      | (cases h; rfl)
      | cases h

theorem copyCells_apply {α : Type} (n : Int) (a b : Int → α) (i : Int) (h0 : 0 ≤ i)
    (h1 : i < n) : copyCells n a b i = b i := by
  simp [copyCells, h0, h1]

/-- Apart from the drum kit table of a template that has none, `initInstrument`
leaves the instrument with the inherited fields of the template. -/
theorem initInstrument_sameInherited (env : Env) (cur src : Instrument) :
    SameInherited env (initInstrument env cur src) src := by
  unfold SameInherited initInstrument
  refine ⟨rfl, rfl, rfl, rfl, rfl, rfl, ?_, rfl, rfl, rfl, rfl, rfl, rfl, ?_, rfl, rfl, rfl, rfl⟩
  · intro i h0 h1
    simp only [copyCells_apply _ _ _ i h0 h1, and_self]
  · intro h
    cases hd : src.drumset with
    | none => rw [hd] at h; cases h
    | some d => rfl

theorem sameInherited_trans (env : Env) (x y z : Instrument) (hxy : SameInherited env x y)
    (hyz : SameInherited env y z) : SameInherited env x z := by
  obtain ⟨a1, a2, a3, a4, a5, a6, a7, a8, a9, a10, a11, a12, a13, a14, a15, a16, a17, a18⟩ := hxy
  obtain ⟨b1, b2, b3, b4, b5, b6, b7, b8, b9, b10, b11, b12, b13, b14, b15, b16, b17, b18⟩ := hyz
  refine ⟨a1.trans b1, a2.trans b2, a3.trans b3, a4.trans b4, a5.trans b5, a6.trans b6, ?_,
    a8.trans b8, a9.trans b9, a10.trans b10, a11.trans b11, a12.trans b12, a13.trans b13, ?_,
    a15.trans b15, a16.trans b16, a17.trans b17, a18.trans b18⟩
  · intro i h0 h1
    obtain ⟨c1, c2, c3, c4, c5, c6⟩ := a7 i h0 h1
    obtain ⟨d1, d2, d3, d4, d5, d6⟩ := b7 i h0 h1
    exact ⟨c1.trans d1, c2.trans d2, c3.trans d3, c4.trans d4, c5.trans d5, c6.trans d6⟩
  · intro h
    have hy := b14 h
    exact (a14 (by rw [hy]; exact h)).trans hy

/-- An override of one field keeps two instruments in agreement on the
inherited fields. -/
theorem sameInherited_override (env : Env) (ov : Element) (f : Instrument → Instrument)
    (h : overrideField env ov = some f) (x y : Instrument) (hxy : SameInherited env x y) :
    SameInherited env (f x) (f y) := by
  obtain ⟨a1, a2, a3, a4, a5, a6, a7, a8, a9, a10, a11, a12, a13, a14, a15, a16, a17, a18⟩ := hxy
  unfold overrideField at h
  cases ht : templateChild ov.name <;> rw [ht] at h <;> simp only at h <;>
    first
      | (cases h
         refine ⟨a1, ?_, a3, a4, a5, ?_, ?_, ?_, ?_, ?_, a11, a12, a13, a14, ?_, a16, a17, ?_⟩
         all_goals first
           | assumption
           | (simp only [a10]; done)
           | (intro i h0 h1
              obtain ⟨c1, c2, c3, c4, c5, c6⟩ := a7 i h0 h1
              by_cases hi : i = readStaffIndex env ov
              · subst hi
                simp only [Function.update_same, c1, c2, c3, c4, c5, c6, and_self]
              · simp only [Function.update_noteq hi, c1, c2, c3, c4, c5, c6, and_self]))
      | cases h

theorem fillByDefault_sameInherited (env : Env) (x : Instrument) (hch : x.channels ≠ [])
    (hid : x.id ≠ []) : SameInherited env (fillByDefault env x) x := by
  have hc : x.channels.isEmpty = false := by
    cases h : x.channels with
    | nil => exact absurd h hch
    | cons c cs => rfl
  have hi : x.id.isEmpty = false := by
    cases h : x.id with
    | nil => exact absurd h hid
    | cons c cs => rfl
  unfold fillByDefault
  simp only [hc, Bool.false_eq_true, if_false]
  split_ifs <;> simp_all [SameInherited]

theorem overrideField_channels_id (env : Env) (ov : Element) (f : Instrument → Instrument)
    (h : overrideField env ov = some f) (y : Instrument) :
    (f y).channels = y.channels ∧ (f y).id = y.id := by
  unfold overrideField at h
  cases ht : templateChild ov.name <;> rw [ht] at h <;> simp only at h <;>
    first
      | (cases h; exact ⟨rfl, rfl⟩)
      | cases h

theorem readInstrumentTemplateStep_Channel (env : Env) (st : TemplateState) (e : Element)
    (h : e.name = "Channel".toList ∨ e.name = "channel".toList) :
    (readInstrumentTemplateStep env st e).instrument.channels =
      st.instrument.channels ++ [env.channelRead e] := by
  have ht : templateChild e.name = TemplateChild.Channel := by
    rcases h with h | h <;> rw [h] <;> decide
  unfold readInstrumentTemplateStep
  rw [ht]

theorem readInstrumentTemplateStep_MidiAction (env : Env) (st : TemplateState) (e : Element)
    (h : e.name = "MidiAction".toList) :
    (readInstrumentTemplateStep env st e).instrument.midiActions =
      st.instrument.midiActions ++ [readMidiAction env e] := by
  have ht : templateChild e.name = TemplateChild.MidiAction := by
    rw [h]
    decide
  unfold readInstrumentTemplateStep
  rw [ht]

theorem readInstrumentTemplateStep_longName (env : Env) (st : TemplateState) (e : Element)
    (h : e.name = "longName".toList ∨ e.name = "name".toList) :
    (readInstrumentTemplateStep env st e).instrument.longNames =
      eraseFirstPos (e.intAttribute "pos".toList 0) st.instrument.longNames ++
        [{ name := env.translate "InstrumentsXML".toList e.text,
           pos := e.intAttribute "pos".toList 0 }] := by
  have ht : templateChild e.name = TemplateChild.longName := by
    rcases h with h | h <;> rw [h] <;> decide
  unfold readInstrumentTemplateStep
  rw [ht]

theorem readInstrumentTemplateStep_shortName (env : Env) (st : TemplateState) (e : Element)
    (h : e.name = "shortName".toList ∨ e.name = "short-name".toList) :
    (readInstrumentTemplateStep env st e).instrument.shortNames =
      eraseFirstPos (e.intAttribute "pos".toList 0) st.instrument.shortNames ++
        [{ name := env.translate "InstrumentsXML".toList e.text,
           pos := e.intAttribute "pos".toList 0 }] := by
  have ht : templateChild e.name = TemplateChild.shortName := by
    rcases h with h | h <;> rw [h] <;> decide
  unfold readInstrumentTemplateStep
  rw [ht]

/-! ## Lemmas on default fill -/

theorem isEmpty_eq_true_iff {α : Type} (l : List α) : l.isEmpty = true ↔ l = [] := by
  cases l <;> simp

theorem deriveId_eq_nil (name : QString) : deriveId name = [] ↔ name = [] := by
  unfold deriveId replaceChar toLower
  cases name <;> simp

theorem fillByDefault_name (env : Env) (i : Instrument) :
    (fillByDefault env i).name =
      if i.name.isEmpty = true ∧ (!i.longNames.isEmpty) = true then firstLongName i.longNames
      else i.name := by
  unfold fillByDefault
  simp only
  split_ifs <;> rfl

theorem fillByDefault_description (env : Env) (i : Instrument) :
    (fillByDefault env i).description =
      if i.description.isEmpty = true ∧ (!i.longNames.isEmpty) = true then
        firstLongName i.longNames
      else i.description := by
  unfold fillByDefault
  simp only
  split_ifs <;> rfl

theorem fillByDefault_id (env : Env) (i : Instrument) :
    (fillByDefault env i).id =
      if i.id.isEmpty = true then deriveId (fillByDefault env i).name else i.id := by
  rw [fillByDefault_name]
  unfold fillByDefault
  simp only
  split_ifs <;> rfl

theorem fillByDefault_longNames (env : Env) (i : Instrument) :
    (fillByDefault env i).longNames = i.longNames := by
  unfold fillByDefault
  simp only
  split_ifs <;> rfl

theorem fillByDefault_shortNames (env : Env) (i : Instrument) :
    (fillByDefault env i).shortNames = i.shortNames := by
  unfold fillByDefault
  simp only
  split_ifs <;> rfl

theorem fillByDefault_sequenceOrder (env : Env) (i : Instrument) :
    (fillByDefault env i).sequenceOrder = i.sequenceOrder := by
  unfold fillByDefault
  simp only
  split_ifs <;> rfl

/-! ## More lemmas on the instrument template parser -/

theorem readInstrumentTemplateStep_id (env : Env) (st : TemplateState) (e : Element)
    (h : e.name ≠ "init".toList) :
    (readInstrumentTemplateStep env st e).instrument.id = st.instrument.id := by
  unfold readInstrumentTemplateStep
  cases ht : templateChild e.name
  case init => exact absurd (templateChild_init _ ht) h
  all_goals rfl

theorem readInstrumentTemplate_fold_id (env : Env) (es : List Element)
    (h : ∀ c ∈ es, c.name ≠ "init".toList) (st : TemplateState) :
    (es.foldl (readInstrumentTemplateStep env) st).instrument.id = st.instrument.id := by
  induction es generalizing st with
  | nil => rfl
  | cons e es ih =>
    rw [List.foldl_cons, ih (fun x hx => h x (List.mem_cons_of_mem _ hx)),
      readInstrumentTemplateStep_id env st e (h e (List.mem_cons_self _ _))]

/-! ## More lemmas on the score order parser -/

theorem readBoolAttribute_eq (e : Element) (name : QString) (dflt : Bool) :
    readBoolAttribute e name dflt = attributeFlag e name dflt := by
  unfold readBoolAttribute attributeFlag Element.attributeOr
  cases h : e.hasAttribute name with
  | false => simp
  | true =>
    simp only [Bool.not_true, Bool.false_eq_true, if_false, if_true, true_and]
    by_cases hf : toLower (e.value name) = "false".toList
    · have ht : toLower (e.value name) ≠ "true".toList := by
        rw [hf]
        decide
      rw [if_pos hf, if_neg ht, if_pos hf]
    · rw [if_neg hf, if_neg hf]

/-- On the end tag no attribute is present: `readBoolAttribute` gives the
default. -/
theorem readBoolAttribute_afterText (e : Element) (name : QString) (dflt : Bool) :
    readBoolAttribute e.afterText name dflt = dflt := rfl

theorem readSectionStep_family (env : Env) (s : QString) (order : ScoreOrder) (e : Element)
    (h : e.name = "family".toList) :
    (readSectionStep env s order e).groups = order.groups ++
      [{ env.freshScoreOrderGroup with
         index := (order.groups.length : Int)
         family := e.text
         section_ := s
         bracket := true
         showSystemMarkings := false
         barLineSpan := true
         thinBracket := true }] := by
  unfold readSectionStep
  rw [if_pos h]
  rfl

theorem readSectionStep_extends (env : Env) (s : QString) (order : ScoreOrder) (e : Element) :
    ∃ suffix, (readSectionStep env s order e).groups = order.groups ++ suffix := by
  unfold readSectionStep
  split_ifs
  · exact ⟨_, rfl⟩
  · exact ⟨_, rfl⟩
  · exact ⟨_, rfl⟩
  · exact ⟨[], (List.append_nil _).symm⟩

theorem readSection_fold_extends (env : Env) (s : QString) (es : List Element)
    (order : ScoreOrder) :
    ∃ suffix, (es.foldl (readSectionStep env s) order).groups = order.groups ++ suffix := by
  induction es generalizing order with
  | nil => exact ⟨[], (List.append_nil _).symm⟩
  | cons e es ih =>
    obtain ⟨s1, h1⟩ := readSectionStep_extends env s order e
    obtain ⟨s2, h2⟩ := ih (readSectionStep env s order e)
    exact ⟨s1 ++ s2, by rw [List.foldl_cons, h2, h1, List.append_assoc]⟩

theorem readScoreOrderStep_extends (env : Env) (order : ScoreOrder) (e : Element) :
    ∃ suffix, (readScoreOrderStep env order e).groups = order.groups ++ suffix := by
  unfold readScoreOrderStep
  split_ifs
  · exact ⟨[], (List.append_nil _).symm⟩
  · exact ⟨[], (List.append_nil _).symm⟩
  · exact ⟨_, rfl⟩
  · exact ⟨_, rfl⟩
  · exact ⟨_, rfl⟩
  · exact readSection_fold_extends env _ _ order
  · exact ⟨[], (List.append_nil _).symm⟩

theorem readScoreOrder_fold_extends (env : Env) (es : List Element) (order : ScoreOrder) :
    ∃ suffix, (es.foldl (readScoreOrderStep env) order).groups = order.groups ++ suffix := by
  induction es generalizing order with
  | nil => exact ⟨[], (List.append_nil _).symm⟩
  | cons e es ih =>
    obtain ⟨s1, h1⟩ := readScoreOrderStep_extends env order e
    obtain ⟨s2, h2⟩ := ih (readScoreOrderStep env order e)
    exact ⟨s1 ++ s2, by rw [List.foldl_cons, h2, h1, List.append_assoc]⟩

theorem readScoreOrderStep_section (env : Env) (order : ScoreOrder) (e : Element)
    (h : e.name = "section".toList) :
    readScoreOrderStep env order e =
      e.children.foldl (readSectionStep env (e.value "id".toList)) order := by
  unfold readScoreOrderStep
  rw [if_neg (by rw [h]; decide), if_neg (by rw [h]; decide), if_neg (by rw [h]; decide),
    if_neg (by rw [h]; decide), if_neg (by rw [h]; decide), if_pos h]

theorem section_family_groups (env : Env) (order : ScoreOrder) (s : QString)
    (spre spost post : List Element) (fam : Element) (hfam : fam.name = "family".toList) :
    ∃ (before after : List ScoreOrderGroup) (g : ScoreOrderGroup),
      (post.foldl (readScoreOrderStep env)
        (spost.foldl (readSectionStep env s)
          (readSectionStep env s (spre.foldl (readSectionStep env s) order) fam))).groups =
        before ++ g :: after ∧
      g.index = (before.length : Int) ∧
      g.family = fam.text ∧
      g.section_ = s ∧
      g.bracket = true ∧
      g.showSystemMarkings = false ∧
      g.barLineSpan = true ∧
      g.thinBracket = true := by
  obtain ⟨s1, h1⟩ := readSection_fold_extends env s spost
    (readSectionStep env s (spre.foldl (readSectionStep env s) order) fam)
  obtain ⟨s2, h2⟩ := readScoreOrder_fold_extends env post
    (spost.foldl (readSectionStep env s)
      (readSectionStep env s (spre.foldl (readSectionStep env s) order) fam))
  rw [h2, h1, readSectionStep_family env _ _ fam hfam]
  refine ⟨_, s1 ++ s2, _, (by rw [List.append_assoc, List.append_assoc]; rfl), ?_, ?_, ?_, ?_,
    ?_, ?_, ?_⟩
  · rfl
  · rfl
  · rfl
  · rfl
  · rfl
  · rfl
  · rfl

/-! ## Lemmas on positioned names -/

theorem eraseFirstPos_eq_filter (p : Int) (names : List StaffName)
    (h : (names.map fun n => n.pos).Nodup) :
    eraseFirstPos p names = names.filter fun n => decide (n.pos ≠ p) := by
  induction names with
  | nil => rfl
  | cons n rest ih =>
    rw [List.map_cons, List.nodup_cons] at h
    unfold eraseFirstPos
    by_cases hp : n.pos = p
    · rw [if_pos hp, List.filter_cons_of_neg (by simp [hp])]
      symm
      rw [List.filter_eq_self]
      intro m hm
      have : m.pos ≠ n.pos := fun hmn => h.1 (hmn ▸ List.mem_map_of_mem (fun n => n.pos) hm)
      simpa [← hp] using this
    · rw [if_neg hp, List.filter_cons_of_pos (by simp [hp]), ih h.2]

theorem namesOf_nil (env : Env) : NamesOf env [] [] := by
  refine ⟨List.nodup_nil, ?_, ?_⟩
  · intro p
    simp
  · intro n hn
    cases hn

theorem namesOf_placeName (env : Env) (kids : List Element) (names : List StaffName)
    (c : Element) (h : NamesOf env kids names) :
    NamesOf env (kids ++ [c]) (placeName env names c) := by
  obtain ⟨hnd, hpos, hlast⟩ := h
  unfold placeName
  rw [eraseFirstPos_eq_filter _ _ hnd]
  refine ⟨?_, ?_, ?_⟩
  · rw [List.map_append, List.nodup_append]
    refine ⟨(hnd.sublist ((List.filter_sublist _).map _)), List.nodup_singleton _, ?_⟩
    intro a ha hb
    simp only [List.map_cons, List.map_nil, List.mem_singleton] at hb
    simp only [List.mem_map, List.mem_filter] at ha
    obtain ⟨n, ⟨_, hn⟩, rfl⟩ := ha
    simp at hn
    exact hn hb
  · intro p
    constructor
    · rintro ⟨n, hn, rfl⟩
      rw [List.mem_append] at hn
      rcases hn with hn | hn
      · obtain ⟨c1, hc1, hc1p⟩ := (hpos n.pos).mp ⟨n, (List.mem_filter.mp hn).1, rfl⟩
        exact ⟨c1, List.mem_append_left _ hc1, hc1p⟩
      · rw [List.mem_singleton] at hn
        exact ⟨c, List.mem_append_right _ (List.mem_singleton_self _), by rw [hn]⟩
    · rintro ⟨c1, hc1, rfl⟩
      by_cases hp : c1.intAttribute "pos".toList 0 = c.intAttribute "pos".toList 0
      · exact ⟨_, List.mem_append_right _ (List.mem_singleton_self _), hp.symm⟩
      · rw [List.mem_append] at hc1
        rcases hc1 with hc1 | hc1
        · obtain ⟨n, hn, hnp⟩ := (hpos _).mpr ⟨c1, hc1, rfl⟩
          exact ⟨n, List.mem_append_left _
            (List.mem_filter.mpr ⟨hn, decide_eq_true (by rw [hnp]; exact hp)⟩), hnp⟩
        · rw [List.mem_singleton] at hc1
          exact absurd (by rw [hc1]) hp
  · intro n hn
    rw [List.mem_append] at hn
    rcases hn with hn | hn
    · obtain ⟨hn1, hn2⟩ := List.mem_filter.mp hn
      simp at hn2
      obtain ⟨c1, hc1, hname⟩ := hlast n hn1
      refine ⟨c1, ?_, hname⟩
      unfold lastAtPos at hc1 ⊢
      rw [List.filter_append, List.filter_cons_of_neg (by simpa using fun h => hn2 h.symm),
        List.filter_nil, List.append_nil]
      exact hc1
    · rw [List.mem_singleton] at hn
      subst hn
      refine ⟨c, ?_, rfl⟩
      unfold lastAtPos
      rw [List.filter_append, List.filter_cons_of_pos (by simp), List.filter_nil,
        List.getLast?_concat]

theorem namesOf_fold (env : Env) (kids : List Element) :
    NamesOf env kids (kids.foldl (placeName env) []) := by
  induction kids using List.reverseRecOn with
  | nil => exact namesOf_nil env
  | append_singleton kids c ih =>
    rw [List.foldl_append]
    exact namesOf_placeName env kids _ c ih

theorem templateChild_longName (name : QString)
    (h : templateChild name = TemplateChild.longName) :
    name = "longName".toList ∨ name = "name".toList := by
  unfold templateChild at h
  by_cases hc : name = "longName".toList ∨ name = "name".toList
  · exact hc
  · rw [if_neg hc] at h
    repeat (replace h := ite_ne_elim h (by decide))
    cases h

theorem templateChild_shortName (name : QString)
    (h : templateChild name = TemplateChild.shortName) :
    name = "shortName".toList ∨ name = "short-name".toList := by
  unfold templateChild at h
  replace h := ite_ne_elim h (by decide)
  by_cases hc : name = "shortName".toList ∨ name = "short-name".toList
  · exact hc
  · rw [if_neg hc] at h
    repeat (replace h := ite_ne_elim h (by decide))
    cases h

theorem templateChild_of_longName (name : QString)
    (h : name = "longName".toList ∨ name = "name".toList) :
    templateChild name = TemplateChild.longName := by
  rcases h with h | h <;> rw [h] <;> decide

theorem templateChild_of_shortName (name : QString)
    (h : name = "shortName".toList ∨ name = "short-name".toList) :
    templateChild name = TemplateChild.shortName := by
  rcases h with h | h <;> rw [h] <;> decide

theorem readInstrumentTemplateStep_longNames_keep (env : Env) (st : TemplateState)
    (e : Element) (hinit : e.name ≠ "init".toList)
    (h : ¬(e.name = "longName".toList ∨ e.name = "name".toList)) :
    (readInstrumentTemplateStep env st e).instrument.longNames = st.instrument.longNames := by
  unfold readInstrumentTemplateStep
  cases ht : templateChild e.name
  case longName => exact absurd (templateChild_longName _ ht) h
  case init => exact absurd (templateChild_init _ ht) hinit
  all_goals rfl

theorem readInstrumentTemplateStep_longNames (env : Env) (st : TemplateState) (e : Element)
    (hinit : e.name ≠ "init".toList) :
    (readInstrumentTemplateStep env st e).instrument.longNames =
      if e.name = "longName".toList ∨ e.name = "name".toList then
        placeName env st.instrument.longNames e
      else st.instrument.longNames := by
  by_cases h : e.name = "longName".toList ∨ e.name = "name".toList
  · rw [if_pos h, readInstrumentTemplateStep_longName env st e h]
    rfl
  · rw [if_neg h]
    exact readInstrumentTemplateStep_longNames_keep env st e hinit h

theorem readInstrumentTemplateStep_shortNames_keep (env : Env) (st : TemplateState)
    (e : Element) (hinit : e.name ≠ "init".toList)
    (h : ¬(e.name = "shortName".toList ∨ e.name = "short-name".toList)) :
    (readInstrumentTemplateStep env st e).instrument.shortNames = st.instrument.shortNames := by
  unfold readInstrumentTemplateStep
  cases ht : templateChild e.name
  case shortName => exact absurd (templateChild_shortName _ ht) h
  case init => exact absurd (templateChild_init _ ht) hinit
  all_goals rfl

theorem readInstrumentTemplateStep_shortNames (env : Env) (st : TemplateState) (e : Element)
    (hinit : e.name ≠ "init".toList) :
    (readInstrumentTemplateStep env st e).instrument.shortNames =
      if e.name = "shortName".toList ∨ e.name = "short-name".toList then
        placeName env st.instrument.shortNames e
      else st.instrument.shortNames := by
  by_cases h : e.name = "shortName".toList ∨ e.name = "short-name".toList
  · rw [if_pos h, readInstrumentTemplateStep_shortName env st e h]
    rfl
  · rw [if_neg h]
    exact readInstrumentTemplateStep_shortNames_keep env st e hinit h

theorem readInstrumentTemplate_fold_longNames (env : Env) (es : List Element)
    (h : ∀ c ∈ es, c.name ≠ "init".toList) (st : TemplateState) :
    (es.foldl (readInstrumentTemplateStep env) st).instrument.longNames =
      (es.filter fun c =>
        decide (c.name = "longName".toList ∨ c.name = "name".toList)).foldl
        (placeName env) st.instrument.longNames := by
  induction es generalizing st with
  | nil => rfl
  | cons e es ih =>
    rw [List.foldl_cons, ih (fun x hx => h x (List.mem_cons_of_mem _ hx))]
    have hstep := readInstrumentTemplateStep_longNames env st e (h e (List.mem_cons_self _ _))
    by_cases hn : e.name = "longName".toList ∨ e.name = "name".toList
    · have hf : (e :: es).filter (fun c => decide (c.name = "longName".toList ∨ c.name = "name".toList)) =
          e :: es.filter (fun c => decide (c.name = "longName".toList ∨ c.name = "name".toList)) :=
        List.filter_cons_of_pos (decide_eq_true hn)
      rw [hf, List.foldl_cons, hstep, if_pos hn]
    · have hf : (e :: es).filter (fun c => decide (c.name = "longName".toList ∨ c.name = "name".toList)) =
          es.filter (fun c => decide (c.name = "longName".toList ∨ c.name = "name".toList)) :=
        List.filter_cons_of_neg (by rw [decide_eq_false hn]; exact Bool.false_ne_true)
      rw [hf, hstep, if_neg hn]

theorem readInstrumentTemplate_fold_shortNames (env : Env) (es : List Element)
    (h : ∀ c ∈ es, c.name ≠ "init".toList) (st : TemplateState) :
    (es.foldl (readInstrumentTemplateStep env) st).instrument.shortNames =
      (es.filter fun c =>
        decide (c.name = "shortName".toList ∨ c.name = "short-name".toList)).foldl
        (placeName env) st.instrument.shortNames := by
  induction es generalizing st with
  | nil => rfl
  | cons e es ih =>
    rw [List.foldl_cons, ih (fun x hx => h x (List.mem_cons_of_mem _ hx))]
    have hstep := readInstrumentTemplateStep_shortNames env st e (h e (List.mem_cons_self _ _))
    by_cases hn : e.name = "shortName".toList ∨ e.name = "short-name".toList
    · have hf : (e :: es).filter (fun c => decide (c.name = "shortName".toList ∨ c.name = "short-name".toList)) =
          e :: es.filter (fun c => decide (c.name = "shortName".toList ∨ c.name = "short-name".toList)) :=
        List.filter_cons_of_pos (decide_eq_true hn)
      rw [hf, List.foldl_cons, hstep, if_pos hn]
    · have hf : (e :: es).filter (fun c => decide (c.name = "shortName".toList ∨ c.name = "short-name".toList)) =
          es.filter (fun c => decide (c.name = "shortName".toList ∨ c.name = "short-name".toList)) :=
        List.filter_cons_of_neg (by rw [decide_eq_false hn]; exact Bool.false_ne_true)
      rw [hf, hstep, if_neg hn]

/-! ## Lemmas on skipped elements -/

theorem foldl_skip {σ : Type} (step : σ → Element → σ) (u : Element)
    (h : ∀ s, step s u = s) (pre post : List Element) (s : σ) :
    (pre ++ u :: post).foldl step s = (pre ++ post).foldl step s := by
  rw [List.foldl_append, List.foldl_cons, h, List.foldl_append]

theorem readMetaStep_skip (env : Env) (st : InstrumentsMeta × Int) (u : Element)
    (h1 : u.name ≠ "instrument-group".toList) (h2 : u.name ≠ "InstrumentGroup".toList)
    (h3 : u.name ≠ "Articulation".toList) (h4 : u.name ≠ "Genre".toList)
    (h5 : u.name ≠ "Family".toList) (h6 : u.name ≠ "Order".toList) :
    readMetaStep env st u = st := by
  unfold readMetaStep
  rw [if_neg (not_or.mpr ⟨h1, h2⟩), if_neg h3, if_neg h4, if_neg h5, if_neg h6]

theorem loadGroupMetaStep_skip (env : Env) (st : InstrumentGroup × InstrumentsMeta)
    (u : Element) (h1 : toLower u.name ≠ "instrument".toList) (h2 : u.name ≠ "ref".toList)
    (h3 : u.name ≠ "name".toList) (h4 : u.name ≠ "extended".toList) :
    loadGroupMetaStep env st u = st := by
  unfold loadGroupMetaStep
  rw [if_neg h1, if_neg h2, if_neg h3, if_neg h4]

theorem readInstrumentTemplateStep_skip (env : Env) (st : TemplateState) (u : Element)
    (h : templateChild u.name = TemplateChild.other) :
    readInstrumentTemplateStep env st u = st := by
  unfold readInstrumentTemplateStep
  rw [h]

theorem readScoreOrderStep_skip (env : Env) (order : ScoreOrder) (u : Element)
    (h1 : u.name ≠ "name".toList) (h2 : u.name ≠ "instrument".toList)
    (h3 : u.name ≠ "family".toList) (h4 : u.name ≠ "soloists".toList)
    (h5 : u.name ≠ "unsorted".toList) (h6 : u.name ≠ "section".toList) :
    readScoreOrderStep env order u = order := by
  unfold readScoreOrderStep
  rw [if_neg h1, if_neg h2, if_neg h3, if_neg h4, if_neg h5, if_neg h6]

theorem readSectionStep_skip (env : Env) (s : QString) (order : ScoreOrder) (u : Element)
    (h1 : u.name ≠ "family".toList) (h2 : u.name ≠ "soloists".toList)
    (h3 : u.name ≠ "unsorted".toList) :
    readSectionStep env s order u = order := by
  unfold readSectionStep
  rw [if_neg h1, if_neg h2, if_neg h3]

theorem readArticulationStep_skip (a : MidiArticulation) (u : Element)
    (h1 : u.name ≠ "velocity".toList) (h2 : u.name ≠ "gateTime".toList)
    (h3 : u.name ≠ "descr".toList) : readArticulationStep a u = a := by
  unfold readArticulationStep
  rw [if_neg h1, if_neg h2, if_neg h3]

theorem readMidiActionStep_skip (env : Env) (a : MidiAction) (u : Element)
    (h1 : u.name ≠ "program".toList) (h2 : u.name ≠ "controller".toList)
    (h3 : u.name ≠ "descr".toList) : readMidiActionStep env a u = a := by
  unfold readMidiActionStep
  rw [if_neg h1, if_neg h2, if_neg h3]

theorem readStringDataStep_skip (st : Int × List InstrString) (u : Element)
    (h1 : u.name ≠ "frets".toList) (h2 : u.name ≠ "string".toList) :
    readStringDataStep st u = st := by
  unfold readStringDataStep
  rw [if_neg h1, if_neg h2]

theorem readMetaLoop_skip (env : Env) (attrs : List (QString × QString))
    (text : QString) (pre post : List Element) (u : Element)
    (h : ∀ st, readMetaStep env st u = st) (before after : List Element)
    (st : InstrumentsMeta × Int) :
    readMetaLoop env
        (before ++ Element.mk "museScore".toList attrs text (pre ++ u :: post) :: after) st =
      readMetaLoop env
        (before ++ Element.mk "museScore".toList attrs text (pre ++ post) :: after) st := by
  induction before generalizing st with
  | nil =>
    simp only [List.nil_append]
    rw [readMetaLoop, readMetaLoop]
    simp only [Element.name, Element.children, if_true]
    rw [foldl_skip _ u h]
  | cons r rest ih =>
    simp only [List.cons_append]
    rw [readMetaLoop, readMetaLoop]
    by_cases hn : r.name = "museScore".toList
    · rw [if_pos hn, if_pos hn]
      exact ih _
    · rw [if_neg hn, if_neg hn]

/-! ## Lemmas on keys and replacement -/

theorem QMap.keys_insert {α : Type} (m : QMap α) (k : QString) (v : α) :
    QMap.keys (QMap.insert m k v) =
      if k ∈ QMap.keys m then QMap.keys m else QMap.keys m ++ [k] := by
  induction m with
  | nil => simp [QMap.keys, QMap.insert]
  | cons p rest ih =>
    obtain ⟨k0, v0⟩ := p
    unfold QMap.keys at ih ⊢
    by_cases h : k0 = k
    · subst h
      simp only [QMap.insert, if_true, List.map_cons, List.mem_cons, true_or]
    · have hne : ¬ k = k0 := fun hk => h hk.symm
      simp only [QMap.insert, h, if_false, List.map_cons, List.mem_cons, hne, false_or, ih]
      split_ifs <;> simp

theorem QMap.nodup_insert {α : Type} (m : QMap α) (k : QString) (v : α)
    (h : (QMap.keys m).Nodup) : (QMap.keys (QMap.insert m k v)).Nodup := by
  rw [QMap.keys_insert]
  split_ifs with hk
  · exact h
  · rw [List.nodup_append]
    refine ⟨h, List.nodup_singleton _, ?_⟩
    intro a ha hb
    rw [List.mem_singleton] at hb
    exact hk (hb ▸ ha)

theorem QMap.nodup_index {α : Type} (dflt : α) (m : QMap α) (k : QString)
    (h : (QMap.keys m).Nodup) : (QMap.keys (QMap.index dflt m k).2).Nodup := by
  unfold QMap.index
  cases QMap.find m k with
  | some w => exact h
  | none => exact QMap.nodup_insert _ _ _ h

theorem QMap.filter_of_find {α : Type} (m : QMap α) (k : QString) (v : α)
    (hnd : (QMap.keys m).Nodup) (h : QMap.find m k = some v) :
    (m.filter fun p => decide (p.1 = k)) = [(k, v)] := by
  induction m with
  | nil => simp [QMap.find] at h
  | cons p rest ih =>
    obtain ⟨k0, v0⟩ := p
    unfold QMap.keys at hnd ih
    rw [List.map_cons, List.nodup_cons] at hnd
    by_cases hk : k0 = k
    · subst hk
      simp only [QMap.find, if_true, Option.some.injEq] at h
      subst h
      have hnil : (rest.filter fun p => decide (p.1 = k0)) = [] := by
        rw [List.filter_eq_nil_iff]
        intro q hq
        have : q.1 ≠ k0 := fun hqk => hnd.1 (hqk ▸ List.mem_map_of_mem (fun p => p.1) hq)
        simpa using this
      rw [List.filter_cons_of_pos (by simp), hnil]
    · simp only [QMap.find, hk, if_false] at h
      rw [List.filter_cons_of_neg (by simpa using hk)]
      exact ih hnd.2 h

theorem storedOnce_of_find {α : Type} (m : QMap α) (k : QString) (v : α)
    (hnd : (QMap.keys m).Nodup) (h : QMap.find m k = some v) : StoredOnce m k v := by
  refine ⟨h, ?_⟩
  rw [QMap.filter_of_find m k v hnd h]
  rfl

theorem foldl_find_keep {σ α : Type} (step : σ → Element → σ) (m : σ → QMap α)
    (k : QString) (v : α) (post : List Element)
    (hkeep : ∀ c ∈ post, ∀ s, QMap.find (m s) k = some v →
      QMap.find (m (step s c)) k = some v)
    (s : σ) (h : QMap.find (m s) k = some v) :
    QMap.find (m (post.foldl step s)) k = some v := by
  induction post generalizing s with
  | nil => exact h
  | cons c post ih =>
    rw [List.foldl_cons]
    exact ih (fun x hx => hkeep x (List.mem_cons_of_mem _ hx)) _
      (hkeep c (List.mem_cons_self _ _) s h)

/-! ## What each loop does to the maps of the catalog -/

theorem templateChild_Articulation (name : QString)
    (h : templateChild name = TemplateChild.Articulation) : name = "Articulation".toList := by
  unfold templateChild at h
  repeat (replace h := ite_ne_elim h (by decide))
  by_cases hc : name = "Articulation".toList
  · exact hc
  · rw [if_neg hc] at h
    repeat (replace h := ite_ne_elim h (by decide))
    cases h

theorem readArticulationStep_name (a : MidiArticulation) (e : Element) :
    (readArticulationStep a e).name = a.name := by
  unfold readArticulationStep
  split_ifs <;> rfl

theorem readArticulation_name (env : Env) (e : Element) :
    (readArticulation env e).name = e.value "name".toList := by
  unfold readArticulation
  generalize e.children = es
  have h : ∀ (es : List Element) (a : MidiArticulation),
      (es.foldl readArticulationStep a).name = a.name := by
    intro es
    induction es with
    | nil => intro a; rfl
    | cons c es ih => intro a; rw [List.foldl_cons, ih, readArticulationStep_name]
  rw [h]

theorem readGenre_id (env : Env) (e : Element) : (readGenre env e).id = e.value "id".toList := by
  unfold readGenre
  have h : ∀ (es : List Element) (g : InstrumentGenre),
      (es.foldl (readGenreStep env) g).id = g.id := by
    intro es
    induction es with
    | nil => intro g; rfl
    | cons c es ih =>
      intro g
      rw [List.foldl_cons, ih]
      unfold readGenreStep
      split_ifs <;> rfl
  rw [h]

theorem readFamily_id (env : Env) (e : Element) :
    (readFamily env e).id = e.value "id".toList := by
  unfold readFamily
  have h : ∀ (es : List Element) (g : InstrumentFamily),
      (es.foldl (readFamilyStep env) g).id = g.id := by
    intro es
    induction es with
    | nil => intro g; rfl
    | cons c es ih =>
      intro g
      rw [List.foldl_cons, ih]
      unfold readFamilyStep
      split_ifs <;> rfl
  rw [h]

theorem readSectionStep_id (env : Env) (s : QString) (order : ScoreOrder) (e : Element) :
    (readSectionStep env s order e).id = order.id := by
  unfold readSectionStep
  split_ifs <;> rfl

theorem readScoreOrderStep_id (env : Env) (order : ScoreOrder) (e : Element) :
    (readScoreOrderStep env order e).id = order.id := by
  unfold readScoreOrderStep
  split_ifs
  · rfl
  · rfl
  · rfl
  · rfl
  · rfl
  · generalize e.children = es
    induction es generalizing order with
    | nil => rfl
    | cons c es ih => rw [List.foldl_cons, ih, readSectionStep_id]
  · rfl

theorem readScoreOrder_id (env : Env) (e : Element) :
    (readScoreOrder env e).id = e.value "id".toList := by
  unfold readScoreOrder
  have h : ∀ (es : List Element) (o : ScoreOrder),
      (es.foldl (readScoreOrderStep env) o).id = o.id := by
    intro es
    induction es with
    | nil => intro o; rfl
    | cons c es ih => intro o; rw [List.foldl_cons, ih, readScoreOrderStep_id]
  rw [h]

/-- The maps a template step never touches. -/
theorem readInstrumentTemplateStep_others (env : Env) (st : TemplateState) (e : Element) :
    (readInstrumentTemplateStep env st e).generalMeta.groups = st.generalMeta.groups ∧
    (readInstrumentTemplateStep env st e).generalMeta.genres = st.generalMeta.genres ∧
    (readInstrumentTemplateStep env st e).generalMeta.families = st.generalMeta.families ∧
    (readInstrumentTemplateStep env st e).generalMeta.scoreOrders =
      st.generalMeta.scoreOrders := by
  unfold readInstrumentTemplateStep
  cases templateChild e.name <;> exact ⟨rfl, rfl, rfl, rfl⟩

theorem readInstrumentTemplate_fold_others (env : Env) (es : List Element)
    (st : TemplateState) :
    (es.foldl (readInstrumentTemplateStep env) st).generalMeta.groups = st.generalMeta.groups ∧
    (es.foldl (readInstrumentTemplateStep env) st).generalMeta.genres = st.generalMeta.genres ∧
    (es.foldl (readInstrumentTemplateStep env) st).generalMeta.families =
      st.generalMeta.families ∧
    (es.foldl (readInstrumentTemplateStep env) st).generalMeta.scoreOrders =
      st.generalMeta.scoreOrders := by
  induction es generalizing st with
  | nil => exact ⟨rfl, rfl, rfl, rfl⟩
  | cons e es ih =>
    obtain ⟨a1, a2, a3, a4⟩ := ih (readInstrumentTemplateStep env st e)
    obtain ⟨b1, b2, b3, b4⟩ := readInstrumentTemplateStep_others env st e
    exact ⟨a1.trans b1, a2.trans b2, a3.trans b3, a4.trans b4⟩

theorem readInstrumentTemplateStep_unique (env : Env) (st : TemplateState) (e : Element)
    (h : UniqueKeys st.generalMeta) :
    UniqueKeys (readInstrumentTemplateStep env st e).generalMeta := by
  obtain ⟨h1, h2, h3, h4, h5, h6⟩ := h
  unfold readInstrumentTemplateStep
  cases templateChild e.name
  case Articulation => exact ⟨h1, h2, h3, QMap.nodup_insert _ _ _ h4, h5, h6⟩
  case init => exact ⟨QMap.nodup_index _ _ _ h1, h2, h3, h4, h5, h6⟩
  all_goals exact ⟨h1, h2, h3, h4, h5, h6⟩

theorem readInstrumentTemplate_fold_unique (env : Env) (es : List Element)
    (st : TemplateState) (h : UniqueKeys st.generalMeta) :
    UniqueKeys (es.foldl (readInstrumentTemplateStep env) st).generalMeta := by
  induction es generalizing st with
  | nil => exact h
  | cons e es ih => exact ih _ (readInstrumentTemplateStep_unique env st e h)

theorem readInstrumentTemplateStep_articulation_keep (env : Env) (st : TemplateState)
    (e : Element) (k : QString) (v : MidiArticulation)
    (hne : e.name = "Articulation".toList → e.value "name".toList ≠ k)
    (h : QMap.find st.generalMeta.articulations k = some v) :
    QMap.find (readInstrumentTemplateStep env st e).generalMeta.articulations k = some v := by
  unfold readInstrumentTemplateStep
  cases ht : templateChild e.name
  case Articulation =>
    have hk := hne (templateChild_Articulation _ ht)
    rw [← readArticulation_name env e] at hk
    simp only
    rw [QMap.find_insert_of_ne _ _ _ _ hk]
    exact h
  all_goals exact h

theorem readInstrumentTemplate_fold_articulation_keep (env : Env) (es : List Element)
    (k : QString) (v : MidiArticulation)
    (hne : ∀ a ∈ es, a.name = "Articulation".toList → a.value "name".toList ≠ k)
    (st : TemplateState) (h : QMap.find st.generalMeta.articulations k = some v) :
    QMap.find (es.foldl (readInstrumentTemplateStep env) st).generalMeta.articulations k =
      some v :=
  foldl_find_keep (readInstrumentTemplateStep env) (fun s => s.generalMeta.articulations) k v es
    (fun c hc s hs => readInstrumentTemplateStep_articulation_keep env s c k v (hne c hc) hs)
    st h

theorem readInstrumentTemplate_others (env : Env) (e : Element) (meta : InstrumentsMeta) :
    (readInstrumentTemplate env e meta).2.groups = meta.groups ∧
    (readInstrumentTemplate env e meta).2.genres = meta.genres ∧
    (readInstrumentTemplate env e meta).2.families = meta.families ∧
    (readInstrumentTemplate env e meta).2.scoreOrders = meta.scoreOrders :=
  readInstrumentTemplate_fold_others env e.children (readInstrumentTemplateInit env e meta)

theorem readInstrumentTemplate_unique (env : Env) (e : Element) (meta : InstrumentsMeta)
    (h : UniqueKeys meta) : UniqueKeys (readInstrumentTemplate env e meta).2 :=
  readInstrumentTemplate_fold_unique env e.children (readInstrumentTemplateInit env e meta) h

theorem readInstrumentTemplate_find (env : Env) (e : Element) (meta : InstrumentsMeta)
    (k : QString) (t : InstrumentTemplate)
    (h : QMap.find meta.instrumentTemplates k = some t) :
    QMap.find (readInstrumentTemplate env e meta).2.instrumentTemplates k = some t :=
  readInstrumentTemplate_fold_find env e.children k t (readInstrumentTemplateInit env e meta) h

theorem readInstrumentTemplate_articulation_keep (env : Env) (e : Element)
    (meta : InstrumentsMeta) (k : QString) (v : MidiArticulation)
    (hne : ∀ a ∈ e.children, a.name = "Articulation".toList → a.value "name".toList ≠ k)
    (h : QMap.find meta.articulations k = some v) :
    QMap.find (readInstrumentTemplate env e meta).2.articulations k = some v :=
  readInstrumentTemplate_fold_articulation_keep env e.children k v hne
    (readInstrumentTemplateInit env e meta) h

theorem loadGroupMetaStep_others (env : Env) (st : InstrumentGroup × InstrumentsMeta)
    (e : Element) :
    (loadGroupMetaStep env st e).2.groups = st.2.groups ∧
    (loadGroupMetaStep env st e).2.genres = st.2.genres ∧
    (loadGroupMetaStep env st e).2.families = st.2.families ∧
    (loadGroupMetaStep env st e).2.scoreOrders = st.2.scoreOrders := by
  unfold loadGroupMetaStep
  split_ifs
  · exact readInstrumentTemplate_others env e st.2
  · exact ⟨rfl, rfl, rfl, rfl⟩
  · exact ⟨rfl, rfl, rfl, rfl⟩
  · exact ⟨rfl, rfl, rfl, rfl⟩
  · exact ⟨rfl, rfl, rfl, rfl⟩

theorem loadGroupMetaStep_unique (env : Env) (st : InstrumentGroup × InstrumentsMeta)
    (e : Element) (h : UniqueKeys st.2) : UniqueKeys (loadGroupMetaStep env st e).2 := by
  unfold loadGroupMetaStep
  split_ifs
  · obtain ⟨h1, h2, h3, h4, h5, h6⟩ := readInstrumentTemplate_unique env e st.2 h
    exact ⟨QMap.nodup_insert _ _ _ h1, h2, h3, h4, h5, h6⟩
  · obtain ⟨h1, h2, h3, h4, h5, h6⟩ := h
    exact ⟨QMap.nodup_insert _ _ _ (QMap.nodup_index _ _ _ h1), h2, h3, h4, h5, h6⟩
  · exact h
  · exact h
  · exact h

theorem loadGroupMetaStep_articulation_keep (env : Env)
    (st : InstrumentGroup × InstrumentsMeta) (e : Element) (k : QString)
    (v : MidiArticulation)
    (hne : ∀ a ∈ e.children, a.name = "Articulation".toList → a.value "name".toList ≠ k)
    (h : QMap.find st.2.articulations k = some v) :
    QMap.find (loadGroupMetaStep env st e).2.articulations k = some v := by
  unfold loadGroupMetaStep
  split_ifs
  · exact readInstrumentTemplate_articulation_keep env e st.2 k v hne h
  · exact h
  · exact h
  · exact h
  · exact h

theorem QMap.mem_insert {α : Type} (m : QMap α) (k : QString) (v : α) (p : QString × α)
    (h : p ∈ QMap.insert m k v) : p ∈ m ∨ p = (k, v) := by
  induction m with
  | nil =>
    simp only [QMap.insert, List.mem_singleton] at h
    exact Or.inr h
  | cons q rest ih =>
    obtain ⟨k0, v0⟩ := q
    by_cases hk : k0 = k
    · simp only [QMap.insert, hk, if_true, List.mem_cons] at h
      rcases h with h | h
      · exact Or.inr h
      · exact Or.inl (List.mem_cons_of_mem _ h)
    · simp only [QMap.insert, hk, if_false, List.mem_cons] at h
      rcases h with h | h
      · exact Or.inl (h ▸ List.mem_cons_self _ _)
      · rcases ih h with h1 | h1
        · exact Or.inl (List.mem_cons_of_mem _ h1)
        · exact Or.inr h1

theorem QMap.mem_of_find {α : Type} (m : QMap α) (k : QString) (v : α)
    (h : QMap.find m k = some v) : (k, v) ∈ m := by
  induction m with
  | nil => simp [QMap.find] at h
  | cons q rest ih =>
    obtain ⟨k0, v0⟩ := q
    by_cases hk : k0 = k
    · simp only [QMap.find, hk, if_true, Option.some.injEq] at h
      rw [hk, h]
      exact List.mem_cons_self _ _
    · simp only [QMap.find, hk, if_false] at h
      exact List.mem_cons_of_mem _ (ih h)

theorem templateIds_insert (meta : InstrumentsMeta) (k : QString) (t : InstrumentTemplate)
    (h : TemplateIds meta) (ht : t.id = k ∨ t.id = []) :
    TemplateIds { meta with instrumentTemplates := QMap.insert meta.instrumentTemplates k t } := by
  intro p hp
  rcases QMap.mem_insert _ _ _ _ hp with h1 | h1
  · exact h p h1
  · rw [h1]
    exact ht

theorem templateIds_index (env : Env) (meta : InstrumentsMeta) (k : QString)
    (h : TemplateIds meta) :
    TemplateIds { meta with
      instrumentTemplates := (QMap.index env.freshTemplate meta.instrumentTemplates k).2 } := by
  unfold QMap.index
  cases QMap.find meta.instrumentTemplates k with
  | some w => exact h
  | none => exact templateIds_insert meta k env.freshTemplate h (Or.inr rfl)

theorem readInstrumentTemplateStep_templateIds (env : Env) (st : TemplateState) (e : Element)
    (h : TemplateIds st.generalMeta) :
    TemplateIds (readInstrumentTemplateStep env st e).generalMeta := by
  unfold readInstrumentTemplateStep
  cases templateChild e.name
  case init => exact templateIds_index env st.generalMeta e.text h
  all_goals exact h

theorem readInstrumentTemplate_templateIds (env : Env) (e : Element) (meta : InstrumentsMeta)
    (h : TemplateIds meta) : TemplateIds (readInstrumentTemplate env e meta).2 := by
  have hfold : ∀ (es : List Element) (st : TemplateState), TemplateIds st.generalMeta →
      TemplateIds (es.foldl (readInstrumentTemplateStep env) st).generalMeta := by
    intro es
    induction es with
    | nil => intro st hst; exact hst
    | cons c es ih =>
      intro st hst
      exact ih _ (readInstrumentTemplateStep_templateIds env st c hst)
  exact hfold e.children (readInstrumentTemplateInit env e meta) h

theorem loadGroupMetaStep_templateIds (env : Env) (st : InstrumentGroup × InstrumentsMeta)
    (e : Element) (h : TemplateIds st.2) : TemplateIds (loadGroupMetaStep env st e).2 := by
  unfold loadGroupMetaStep
  split_ifs
  · exact templateIds_insert _ _ _ (readInstrumentTemplate_templateIds env e st.2 h)
      (Or.inl rfl)
  · exact templateIds_insert _ _ _ (templateIds_index env st.2 e.text h) (Or.inl rfl)
  · exact h
  · exact h
  · exact h

theorem loadGroupMeta_fold_templateIds (env : Env) (es : List Element)
    (st : InstrumentGroup × InstrumentsMeta) (h : TemplateIds st.2) :
    TemplateIds (es.foldl (loadGroupMetaStep env) st).2 := by
  induction es generalizing st with
  | nil => exact h
  | cons e es ih => exact ih _ (loadGroupMetaStep_templateIds env st e h)

theorem loadGroupMeta_templateIds (env : Env) (e : Element) (meta : InstrumentsMeta)
    (idx : Int) (h : TemplateIds meta) : TemplateIds (loadGroupMeta env e meta idx) :=
  loadGroupMeta_fold_templateIds env e.children (loadGroupMetaInit env e idx, meta) h

theorem loadGroupMetaStep_template_keep (env : Env) (st : InstrumentGroup × InstrumentsMeta)
    (e : Element) (k : QString) (t : InstrumentTemplate) (hinv : TemplateIds st.2)
    (hno : StoresNoTemplate k e)
    (h : QMap.find st.2.instrumentTemplates k = some t) :
    QMap.find (loadGroupMetaStep env st e).2.instrumentTemplates k = some t := by
  unfold loadGroupMetaStep
  split_ifs with h1 h2
  · have hk : (readInstrumentTemplate env e st.2).1.id ≠ k := hno.2 h1
    simp only
    rw [QMap.find_insert_of_ne _ _ _ _ hk]
    exact readInstrumentTemplate_find env e st.2 k t h
  · have hk0 : k ≠ [] := hno.1 h2
    simp only
    unfold QMap.index
    cases hf : QMap.find st.2.instrumentTemplates e.text with
    | some w =>
      simp only
      by_cases hw : w.id = k
      · rcases hinv _ (QMap.mem_of_find _ _ _ hf) with hid | hid
        · have hek : e.text = k := hid.symm.trans hw
          rw [hek, h] at hf
          rw [hw, ← Option.some.inj hf]
          exact QMap.find_insert_self _ _ _
        · exact absurd (hw.symm.trans hid) hk0
      · rw [QMap.find_insert_of_ne _ _ _ _ hw]
        exact h
    | none =>
      simp only
      have hd : env.freshTemplate.id ≠ k := fun hd => hk0 (hd.symm.trans rfl)
      rw [QMap.find_insert_of_ne _ _ _ _ hd]
      have hne : e.text ≠ k := by
        intro hek
        rw [hek, h] at hf
        cases hf
      rw [QMap.find_insert_of_ne _ _ _ _ hne]
      exact h
  · exact h
  · exact h
  · exact h

theorem loadGroupMetaStep_template_store (env : Env) (st : InstrumentGroup × InstrumentsMeta)
    (i : Element) (h : toLower i.name = "instrument".toList) :
    QMap.find (loadGroupMetaStep env st i).2.instrumentTemplates (i.value "id".toList) =
      some (storedTemplate env st i) := by
  unfold loadGroupMetaStep
  rw [if_pos h]
  exact QMap.find_insert_self _ _ _

theorem loadGroupMeta_fold_others (env : Env) (es : List Element)
    (st : InstrumentGroup × InstrumentsMeta) :
    (es.foldl (loadGroupMetaStep env) st).2.groups = st.2.groups ∧
    (es.foldl (loadGroupMetaStep env) st).2.genres = st.2.genres ∧
    (es.foldl (loadGroupMetaStep env) st).2.families = st.2.families ∧
    (es.foldl (loadGroupMetaStep env) st).2.scoreOrders = st.2.scoreOrders := by
  induction es generalizing st with
  | nil => exact ⟨rfl, rfl, rfl, rfl⟩
  | cons e es ih =>
    obtain ⟨a1, a2, a3, a4⟩ := ih (loadGroupMetaStep env st e)
    obtain ⟨b1, b2, b3, b4⟩ := loadGroupMetaStep_others env st e
    exact ⟨a1.trans b1, a2.trans b2, a3.trans b3, a4.trans b4⟩

theorem loadGroupMeta_fold_unique (env : Env) (es : List Element)
    (st : InstrumentGroup × InstrumentsMeta) (h : UniqueKeys st.2) :
    UniqueKeys (es.foldl (loadGroupMetaStep env) st).2 := by
  induction es generalizing st with
  | nil => exact h
  | cons e es ih => exact ih _ (loadGroupMetaStep_unique env st e h)

theorem finishGroup_id (env : Env) (e : Element) (meta : InstrumentsMeta) (idx : Int) :
    (finishGroup (loadGroupMetaLoop env e meta idx).1).id = storedGroupId env e := by
  have hname := loadGroupMetaLoop_name env e meta idx
  have hid : (loadGroupMetaLoop env e meta idx).1.id = e.value "id".toList := by
    unfold loadGroupMetaLoop
    rw [loadGroupMeta_fold_id]
    rfl
  unfold finishGroup storedGroupId
  cases hv : e.value "id".toList with
  | nil =>
    have hemp : (loadGroupMetaLoop env e meta idx).1.id.isEmpty = true := by
      rw [hid, hv]
      rfl
    rw [if_pos hemp, if_pos rfl]
    show deriveId (loadGroupMetaLoop env e meta idx).1.name = deriveId (finalGroupName env e)
    rw [hname]
  | cons c cs =>
    have hemp : ¬ (loadGroupMetaLoop env e meta idx).1.id.isEmpty = true := by
      rw [hid, hv]
      exact Bool.false_ne_true
    rw [if_neg hemp, if_neg (List.cons_ne_nil c cs)]
    exact hid.trans hv

theorem loadGroupMeta_others (env : Env) (e : Element) (meta : InstrumentsMeta) (idx : Int) :
    (loadGroupMeta env e meta idx).genres = meta.genres ∧
    (loadGroupMeta env e meta idx).families = meta.families ∧
    (loadGroupMeta env e meta idx).scoreOrders = meta.scoreOrders := by
  obtain ⟨_, a2, a3, a4⟩ := loadGroupMeta_fold_others env e.children
    (loadGroupMetaInit env e idx, meta)
  exact ⟨a2, a3, a4⟩

theorem loadGroupMeta_groups (env : Env) (e : Element) (meta : InstrumentsMeta) (idx : Int) :
    (loadGroupMeta env e meta idx).groups =
      QMap.insert meta.groups (storedGroupId env e)
        (finishGroup (loadGroupMetaLoop env e meta idx).1) := by
  have h := (loadGroupMeta_fold_others env e.children (loadGroupMetaInit env e idx, meta)).1
  simp only [loadGroupMeta]
  rw [finishGroup_id]
  unfold loadGroupMetaLoop
  rw [h]

theorem loadGroupMeta_unique (env : Env) (e : Element) (meta : InstrumentsMeta) (idx : Int)
    (h : UniqueKeys meta) : UniqueKeys (loadGroupMeta env e meta idx) := by
  obtain ⟨h1, h2, h3, h4, h5, h6⟩ := loadGroupMeta_fold_unique env e.children
    (loadGroupMetaInit env e idx, meta) h
  exact ⟨h1, QMap.nodup_insert _ _ _ h2, h3, h4, h5, h6⟩

theorem loadGroupMeta_articulation_keep (env : Env) (e : Element) (meta : InstrumentsMeta)
    (idx : Int) (k : QString) (v : MidiArticulation)
    (hne : ∀ i ∈ e.children, ∀ a ∈ i.children,
      a.name = "Articulation".toList → a.value "name".toList ≠ k)
    (h : QMap.find meta.articulations k = some v) :
    QMap.find (loadGroupMeta env e meta idx).articulations k = some v :=
  foldl_find_keep (loadGroupMetaStep env) (fun s => s.2.articulations) k v e.children
    (fun c hc s hs => loadGroupMetaStep_articulation_keep env s c k v (hne c hc) hs)
    (loadGroupMetaInit env e idx, meta) h

theorem loadGroupMeta_fold_template_keep (env : Env) (es : List Element) (k : QString)
    (t : InstrumentTemplate) (hno : ∀ c ∈ es, StoresNoTemplate k c)
    (st : InstrumentGroup × InstrumentsMeta) (hinv : TemplateIds st.2)
    (h : QMap.find st.2.instrumentTemplates k = some t) :
    QMap.find (es.foldl (loadGroupMetaStep env) st).2.instrumentTemplates k = some t := by
  induction es generalizing st with
  | nil => exact h
  | cons c es ih =>
    rw [List.foldl_cons]
    exact ih (fun x hx => hno x (List.mem_cons_of_mem _ hx)) _
      (loadGroupMetaStep_templateIds env st c hinv)
      (loadGroupMetaStep_template_keep env st c k t hinv (hno c (List.mem_cons_self _ _)) h)

theorem loadGroupMeta_template_keep (env : Env) (e : Element) (meta : InstrumentsMeta)
    (idx : Int) (k : QString) (t : InstrumentTemplate) (hinv : TemplateIds meta)
    (hno : ∀ c ∈ e.children, StoresNoTemplate k c)
    (h : QMap.find meta.instrumentTemplates k = some t) :
    QMap.find (loadGroupMeta env e meta idx).instrumentTemplates k = some t :=
  loadGroupMeta_fold_template_keep env e.children k t hno (loadGroupMetaInit env e idx, meta)
    hinv h

/-- The six branches of the inner loop of `readMeta`. -/
theorem readMetaStep_cases (env : Env) (st : InstrumentsMeta × Int) (e : Element) :
    (isGroupElement e ∧
      readMetaStep env st e = (loadGroupMeta env e st.1 st.2, wrap32 (st.2 + 1))) ∨
    (e.name = "Articulation".toList ∧
      readMetaStep env st e =
        ({ st.1 with
           articulations := QMap.insert st.1.articulations (readArticulation env e).name
             (readArticulation env e) }, st.2)) ∨
    (e.name = "Genre".toList ∧
      readMetaStep env st e =
        ({ st.1 with genres := QMap.insert st.1.genres (readGenre env e).id (readGenre env e) },
         st.2)) ∨
    (e.name = "Family".toList ∧
      readMetaStep env st e =
        ({ st.1 with
           families := QMap.insert st.1.families (readFamily env e).id (readFamily env e) },
         st.2)) ∨
    (e.name = "Order".toList ∧
      readMetaStep env st e =
        ({ st.1 with
           scoreOrders := QMap.insert st.1.scoreOrders (readScoreOrder env e).id
             { readScoreOrder env e with index := QMap.size st.1.scoreOrders } }, st.2)) ∨
    readMetaStep env st e = st := by
  unfold readMetaStep
  split_ifs with h1 h2 h3 h4 h5
  · exact Or.inl ⟨h1, rfl⟩
  · exact Or.inr (Or.inl ⟨h2, rfl⟩)
  · exact Or.inr (Or.inr (Or.inl ⟨h3, rfl⟩))
  · exact Or.inr (Or.inr (Or.inr (Or.inl ⟨h4, rfl⟩)))
  · exact Or.inr (Or.inr (Or.inr (Or.inr (Or.inl ⟨h5, rfl⟩))))
  · exact Or.inr (Or.inr (Or.inr (Or.inr (Or.inr rfl))))

theorem readMetaStep_group (env : Env) (st : InstrumentsMeta × Int) (e : Element)
    (h : isGroupElement e) :
    readMetaStep env st e = (loadGroupMeta env e st.1 st.2, wrap32 (st.2 + 1)) := by
  unfold isGroupElement at h
  unfold readMetaStep
  rw [if_pos h]

theorem readMetaStep_Articulation (env : Env) (st : InstrumentsMeta × Int) (e : Element)
    (h : e.name = "Articulation".toList) :
    readMetaStep env st e =
      ({ st.1 with
         articulations := QMap.insert st.1.articulations (readArticulation env e).name
           (readArticulation env e) }, st.2) := by
  unfold readMetaStep
  rw [if_neg (by rw [h]; decide), if_pos h]

theorem readMetaStep_Genre (env : Env) (st : InstrumentsMeta × Int) (e : Element)
    (h : e.name = "Genre".toList) :
    readMetaStep env st e =
      ({ st.1 with genres := QMap.insert st.1.genres (readGenre env e).id (readGenre env e) },
       st.2) := by
  unfold readMetaStep
  rw [if_neg (by rw [h]; decide), if_neg (by rw [h]; decide), if_pos h]

theorem readMetaStep_Family (env : Env) (st : InstrumentsMeta × Int) (e : Element)
    (h : e.name = "Family".toList) :
    readMetaStep env st e =
      ({ st.1 with
         families := QMap.insert st.1.families (readFamily env e).id (readFamily env e) },
       st.2) := by
  unfold readMetaStep
  rw [if_neg (by rw [h]; decide), if_neg (by rw [h]; decide), if_neg (by rw [h]; decide),
    if_pos h]

theorem readMetaStep_Order (env : Env) (st : InstrumentsMeta × Int) (e : Element)
    (h : e.name = "Order".toList) :
    readMetaStep env st e =
      ({ st.1 with
         scoreOrders := QMap.insert st.1.scoreOrders (readScoreOrder env e).id
           { readScoreOrder env e with index := QMap.size st.1.scoreOrders } }, st.2) := by
  unfold readMetaStep
  rw [if_neg (by rw [h]; decide), if_neg (by rw [h]; decide), if_neg (by rw [h]; decide),
    if_neg (by rw [h]; decide), if_pos h]

theorem readMetaStep_unique (env : Env) (st : InstrumentsMeta × Int) (e : Element)
    (h : UniqueKeys st.1) : UniqueKeys (readMetaStep env st e).1 := by
  rcases readMetaStep_cases env st e with ⟨_, hs⟩ | ⟨_, hs⟩ | ⟨_, hs⟩ | ⟨_, hs⟩ | ⟨_, hs⟩ | hs
  · rw [hs]
    exact loadGroupMeta_unique env e st.1 st.2 h
  · rw [hs]
    obtain ⟨h1, h2, h3, h4, h5, h6⟩ := h
    exact ⟨h1, h2, h3, QMap.nodup_insert _ _ _ h4, h5, h6⟩
  · rw [hs]
    obtain ⟨h1, h2, h3, h4, h5, h6⟩ := h
    exact ⟨h1, h2, QMap.nodup_insert _ _ _ h3, h4, h5, h6⟩
  · rw [hs]
    obtain ⟨h1, h2, h3, h4, h5, h6⟩ := h
    exact ⟨h1, h2, h3, h4, QMap.nodup_insert _ _ _ h5, h6⟩
  · rw [hs]
    obtain ⟨h1, h2, h3, h4, h5, h6⟩ := h
    exact ⟨h1, h2, h3, h4, h5, QMap.nodup_insert _ _ _ h6⟩
  · rw [hs]
    exact h

theorem stateAfter_unique (env : Env) (kids : List Element) :
    UniqueKeys (stateAfter env kids).1 := by
  unfold stateAfter
  have h : ∀ (es : List Element) (st : InstrumentsMeta × Int), UniqueKeys st.1 →
      UniqueKeys (es.foldl (readMetaStep env) st).1 := by
    intro es
    induction es with
    | nil => intro st hst; exact hst
    | cons c es ih => intro st hst; exact ih _ (readMetaStep_unique env st c hst)
  exact h kids _ ⟨List.nodup_nil, List.nodup_nil, List.nodup_nil, List.nodup_nil,
    List.nodup_nil, List.nodup_nil⟩

theorem stateAfter_append (env : Env) (pre : List Element) (e : Element)
    (post : List Element) :
    stateAfter env (pre ++ e :: post) =
      post.foldl (readMetaStep env) (readMetaStep env (stateAfter env pre) e) := by
  unfold stateAfter
  rw [List.foldl_append, List.foldl_cons]

theorem readMetaStep_genre_keep (env : Env) (st : InstrumentsMeta × Int) (c : Element)
    (k : QString) (v : InstrumentGenre)
    (hne : c.name = "Genre".toList → c.value "id".toList ≠ k)
    (h : QMap.find st.1.genres k = some v) :
    QMap.find (readMetaStep env st c).1.genres k = some v := by
  rcases readMetaStep_cases env st c with ⟨_, hs⟩ | ⟨_, hs⟩ | ⟨hn, hs⟩ | ⟨_, hs⟩ | ⟨_, hs⟩ | hs
  · rw [hs, (loadGroupMeta_others env c st.1 st.2).1]
    exact h
  · rw [hs]
    exact h
  · rw [hs]
    have hk := hne hn
    rw [← readGenre_id env c] at hk
    simp only
    rw [QMap.find_insert_of_ne _ _ _ _ hk]
    exact h
  · rw [hs]
    exact h
  · rw [hs]
    exact h
  · rw [hs]
    exact h

theorem readMetaStep_family_keep (env : Env) (st : InstrumentsMeta × Int) (c : Element)
    (k : QString) (v : InstrumentFamily)
    (hne : c.name = "Family".toList → c.value "id".toList ≠ k)
    (h : QMap.find st.1.families k = some v) :
    QMap.find (readMetaStep env st c).1.families k = some v := by
  rcases readMetaStep_cases env st c with ⟨_, hs⟩ | ⟨_, hs⟩ | ⟨_, hs⟩ | ⟨hn, hs⟩ | ⟨_, hs⟩ | hs
  · rw [hs, (loadGroupMeta_others env c st.1 st.2).2.1]
    exact h
  · rw [hs]
    exact h
  · rw [hs]
    exact h
  · rw [hs]
    have hk := hne hn
    rw [← readFamily_id env c] at hk
    simp only
    rw [QMap.find_insert_of_ne _ _ _ _ hk]
    exact h
  · rw [hs]
    exact h
  · rw [hs]
    exact h

theorem readMetaStep_order_keep (env : Env) (st : InstrumentsMeta × Int) (c : Element)
    (k : QString) (v : ScoreOrder)
    (hne : c.name = "Order".toList → c.value "id".toList ≠ k)
    (h : QMap.find st.1.scoreOrders k = some v) :
    QMap.find (readMetaStep env st c).1.scoreOrders k = some v := by
  rcases readMetaStep_cases env st c with ⟨_, hs⟩ | ⟨_, hs⟩ | ⟨_, hs⟩ | ⟨_, hs⟩ | ⟨hn, hs⟩ | hs
  · rw [hs, (loadGroupMeta_others env c st.1 st.2).2.2]
    exact h
  · rw [hs]
    exact h
  · rw [hs]
    exact h
  · rw [hs]
    exact h
  · rw [hs]
    have hk := hne hn
    rw [← readScoreOrder_id env c] at hk
    simp only
    rw [QMap.find_insert_of_ne _ _ _ _ hk]
    exact h
  · rw [hs]
    exact h

theorem readMetaStep_group_keep (env : Env) (st : InstrumentsMeta × Int) (c : Element)
    (k : QString) (v : InstrumentGroup)
    (hne : isGroupElement c → storedGroupId env c ≠ k)
    (h : QMap.find st.1.groups k = some v) :
    QMap.find (readMetaStep env st c).1.groups k = some v := by
  rcases readMetaStep_cases env st c with ⟨hn, hs⟩ | ⟨_, hs⟩ | ⟨_, hs⟩ | ⟨_, hs⟩ | ⟨_, hs⟩ | hs
  · rw [hs]
    simp only
    rw [loadGroupMeta_groups, QMap.find_insert_of_ne _ _ _ _ (hne hn)]
    exact h
  · rw [hs]
    exact h
  · rw [hs]
    exact h
  · rw [hs]
    exact h
  · rw [hs]
    exact h
  · rw [hs]
    exact h

theorem readMetaStep_articulation_keep (env : Env) (st : InstrumentsMeta × Int)
    (c : Element) (k : QString) (v : MidiArticulation) (hno : StoresNoArticulation k c)
    (h : QMap.find st.1.articulations k = some v) :
    QMap.find (readMetaStep env st c).1.articulations k = some v := by
  rcases readMetaStep_cases env st c with ⟨hn, hs⟩ | ⟨hn, hs⟩ | ⟨_, hs⟩ | ⟨_, hs⟩ | ⟨_, hs⟩ | hs
  · rw [hs]
    exact loadGroupMeta_articulation_keep env c st.1 st.2 k v (hno.2 hn) h
  · rw [hs]
    have hk := hno.1 hn
    rw [← readArticulation_name env c] at hk
    simp only
    rw [QMap.find_insert_of_ne _ _ _ _ hk]
    exact h
  · rw [hs]
    exact h
  · rw [hs]
    exact h
  · rw [hs]
    exact h
  · rw [hs]
    exact h

theorem readMetaStep_templateIds (env : Env) (st : InstrumentsMeta × Int) (e : Element)
    (h : TemplateIds st.1) : TemplateIds (readMetaStep env st e).1 := by
  rcases readMetaStep_cases env st e with ⟨_, hs⟩ | ⟨_, hs⟩ | ⟨_, hs⟩ | ⟨_, hs⟩ | ⟨_, hs⟩ | hs
  · rw [hs]
    exact loadGroupMeta_templateIds env e st.1 st.2 h
  all_goals (rw [hs]; exact h)

theorem readMeta_fold_templateIds (env : Env) (es : List Element)
    (st : InstrumentsMeta × Int) (h : TemplateIds st.1) :
    TemplateIds (es.foldl (readMetaStep env) st).1 := by
  induction es generalizing st with
  | nil => exact h
  | cons e es ih => exact ih _ (readMetaStep_templateIds env st e h)

theorem stateAfter_templateIds (env : Env) (kids : List Element) :
    TemplateIds (stateAfter env kids).1 :=
  readMeta_fold_templateIds env kids _ (fun p hp => by cases hp)

theorem readMetaStep_template_keep (env : Env) (st : InstrumentsMeta × Int) (c : Element)
    (k : QString) (t : InstrumentTemplate) (hinv : TemplateIds st.1)
    (hno : isGroupElement c → ∀ i ∈ c.children, StoresNoTemplate k i)
    (h : QMap.find st.1.instrumentTemplates k = some t) :
    QMap.find (readMetaStep env st c).1.instrumentTemplates k = some t := by
  rcases readMetaStep_cases env st c with ⟨hn, hs⟩ | ⟨_, hs⟩ | ⟨_, hs⟩ | ⟨_, hs⟩ | ⟨_, hs⟩ | hs
  · rw [hs]
    exact loadGroupMeta_template_keep env c st.1 st.2 k t hinv (hno hn) h
  all_goals (rw [hs]; exact h)

theorem readMeta_fold_template_keep (env : Env) (es : List Element) (k : QString)
    (t : InstrumentTemplate)
    (hno : ∀ g ∈ es, isGroupElement g → ∀ i ∈ g.children, StoresNoTemplate k i)
    (st : InstrumentsMeta × Int) (hinv : TemplateIds st.1)
    (h : QMap.find st.1.instrumentTemplates k = some t) :
    QMap.find (es.foldl (readMetaStep env) st).1.instrumentTemplates k = some t := by
  induction es generalizing st with
  | nil => exact h
  | cons c es ih =>
    rw [List.foldl_cons]
    exact ih (fun x hx => hno x (List.mem_cons_of_mem _ hx)) _
      (readMetaStep_templateIds env st c hinv)
      (readMetaStep_template_keep env st c k t hinv (hno c (List.mem_cons_self _ _)) h)

theorem readMeta_val (env : Env) (fileSystem : FileSystem) (path : QString)
    (attrs : List (QString × QString)) (text : QString) (kids : List Element)
    (hread : (fileSystem.readFile path).ret.success = true)
    (hdoc : env.parseXml (fileSystem.readFile path).val =
      [Element.mk "museScore".toList attrs text kids]) :
    (readMeta env fileSystem path).val = (stateAfter env kids).1 := by
  simp only [readMeta, hread, Bool.not_true, Bool.false_eq_true, if_false, hdoc]
  rw [readMetaLoop]
  simp only [Element.name, Element.children, if_true]
  rw [readMetaLoop]
  rfl

theorem stateAfter_snoc (env : Env) (pre : List Element) (e : Element) :
    stateAfter env (pre ++ [e]) = readMetaStep env (stateAfter env pre) e := by
  unfold stateAfter
  rw [List.foldl_append]
  rfl

theorem groupStateAfter_snoc (env : Env) (st : InstrumentsMeta × Int) (g : Element)
    (gpre : List Element) (i : Element) :
    groupStateAfter env st g (gpre ++ [i]) =
      loadGroupMetaStep env (groupStateAfter env st g gpre) i := by
  unfold groupStateAfter
  rw [List.foldl_append]
  rfl

theorem loadGroupMeta_templates (env : Env) (g : Element) (st : InstrumentsMeta × Int) :
    (loadGroupMeta env g st.1 st.2).instrumentTemplates =
      (groupStateAfter env st g g.children).2.instrumentTemplates := rfl

/-! ## An `init` that refers to a missing template -/

theorem QMap.insert_of_find_none {α : Type} (m : QMap α) (k : QString) (v : α)
    (h : QMap.find m k = none) : QMap.insert m k v = m ++ [(k, v)] := by
  induction m with
  | nil => rfl
  | cons p rest ih =>
    obtain ⟨k0, v0⟩ := p
    by_cases hk : k0 = k
    · simp only [QMap.find, hk, if_true] at h
      cases h
    · simp only [QMap.find, hk, if_false] at h
      simp only [QMap.insert, hk, if_false, List.cons_append, ih h]

theorem QMap.index_of_find_none {α : Type} (dflt : α) (m : QMap α) (k : QString)
    (h : QMap.find m k = none) : QMap.index dflt m k = (dflt, m ++ [(k, dflt)]) := by
  unfold QMap.index
  rw [h]
  simp only [QMap.insert_of_find_none m k dflt h]

/-- The `init` branch, whatever the lookup gives. -/
theorem readInstrumentTemplateStep_init_eq (env : Env) (st : TemplateState) (e : Element)
    (hname : e.name = "init".toList) :
    readInstrumentTemplateStep env st e =
      { st with
        instrument := initInstrument env st.instrument
          (QMap.index env.freshTemplate st.generalMeta.instrumentTemplates e.text).1.instrument
        generalMeta := { st.generalMeta with
          instrumentTemplates :=
            (QMap.index env.freshTemplate st.generalMeta.instrumentTemplates e.text).2 } } := by
  have ht : templateChild e.name = TemplateChild.init := by
    rw [hname]
    decide
  unfold readInstrumentTemplateStep
  rw [ht]

/-! ## The drum kit table -/

theorem templateChild_Drum (name : QString) (h : templateChild name = TemplateChild.Drum) :
    name = "Drum".toList := by
  unfold templateChild at h
  repeat (replace h := ite_ne_elim h (by decide))
  by_cases hc : name = "Drum".toList
  · exact hc
  · rw [if_neg hc] at h
    repeat (replace h := ite_ne_elim h (by decide))
    cases h

theorem templateChild_useDrumset (name : QString)
    (h : templateChild name = TemplateChild.useDrumset) : name = "useDrumset".toList := by
  unfold templateChild at h
  repeat (replace h := ite_ne_elim h (by decide))
  by_cases hc : name = "useDrumset".toList
  · exact hc
  · rw [if_neg hc] at h
    repeat (replace h := ite_ne_elim h (by decide))
    cases h

theorem templateChild_of_Drum (name : QString) (h : name = "Drum".toList) :
    templateChild name = TemplateChild.Drum := by
  rw [h]
  decide

/-- The `Drum` branch: the flag is set; the table is cleared before the load
when the flag was unset, and loaded as it is when the flag was set. -/
theorem readInstrumentTemplateStep_Drum (env : Env) (st : TemplateState) (e : Element)
    (h : e.name = "Drum".toList) :
    (readInstrumentTemplateStep env st e).customDrumset = true ∧
    (st.customDrumset = false →
      (readInstrumentTemplateStep env st e).instrument.drumset =
        some (env.drumsetLoad { drums := [] } e)) ∧
    (∀ D : Drumset, st.customDrumset = true → st.instrument.drumset = some D →
      (readInstrumentTemplateStep env st e).instrument.drumset =
        some (env.drumsetLoad D e)) := by
  have ht := templateChild_of_Drum e.name h
  unfold readInstrumentTemplateStep
  rw [ht]
  refine ⟨rfl, fun hc => ?_, fun D hc hD => ?_⟩
  · simp only [hc, Bool.not_false, if_true, Drumset.clear]
  · simp only [hc, hD, Bool.not_true, Bool.false_eq_true, if_false]

/-- The flag `customDrumset` is written by the `Drum` branch only. -/
theorem readInstrumentTemplateStep_customDrumset (env : Env) (st : TemplateState)
    (e : Element) (h : e.name ≠ "Drum".toList) :
    (readInstrumentTemplateStep env st e).customDrumset = st.customDrumset := by
  unfold readInstrumentTemplateStep
  cases ht : templateChild e.name
  case Drum => exact absurd (templateChild_Drum _ ht) h
  all_goals rfl

/-- Once set, the flag `customDrumset` stays set. -/
theorem readInstrumentTemplateStep_customDrumset_true (env : Env) (st : TemplateState)
    (e : Element) (h : st.customDrumset = true) :
    (readInstrumentTemplateStep env st e).customDrumset = true := by
  by_cases hd : e.name = "Drum".toList
  · exact (readInstrumentTemplateStep_Drum env st e hd).1
  · rw [readInstrumentTemplateStep_customDrumset env st e hd]
    exact h

theorem clearCount_of_customDrumset (env : Env) (kids : List Element) (st : TemplateState)
    (h : st.customDrumset = true) : clearCount env st kids = 0 := by
  induction kids generalizing st with
  | nil => rfl
  | cons c rest ih =>
    unfold clearCount
    rw [ih _ (readInstrumentTemplateStep_customDrumset_true env st c h), if_neg]
    intro hc
    rw [h] at hc
    exact Bool.noConfusion hc.2

theorem clearCount_of_no_Drum (env : Env) (kids : List Element)
    (h : ∀ c ∈ kids, c.name ≠ "Drum".toList) (st : TemplateState) :
    clearCount env st kids = 0 ∧
    (kids.foldl (readInstrumentTemplateStep env) st).customDrumset = st.customDrumset := by
  induction kids generalizing st with
  | nil => exact ⟨rfl, rfl⟩
  | cons c rest ih =>
    have hc := h c (List.mem_cons_self _ _)
    obtain ⟨h1, h2⟩ := ih (fun x hx => h x (List.mem_cons_of_mem _ hx))
      (readInstrumentTemplateStep env st c)
    refine ⟨?_, ?_⟩
    · unfold clearCount
      rw [h1, if_neg]
      intro hd
      exact hc (templateChild_Drum _ hd.1)
    · rw [List.foldl_cons, h2, readInstrumentTemplateStep_customDrumset env st c hc]

theorem clearCount_cons (env : Env) (st : TemplateState) (c : Element) (rest : List Element) :
    clearCount env st (c :: rest) =
      (if templateChild c.name = TemplateChild.Drum ∧ st.customDrumset = false then 1 else 0) +
        clearCount env (readInstrumentTemplateStep env st c) rest := rfl

theorem clearCount_append (env : Env) (pre post : List Element) (st : TemplateState) :
    clearCount env st (pre ++ post) =
      clearCount env st pre +
        clearCount env (pre.foldl (readInstrumentTemplateStep env) st) post := by
  induction pre generalizing st with
  | nil => simp [clearCount]
  | cons c rest ih =>
    rw [List.cons_append, List.foldl_cons, clearCount_cons, clearCount_cons, ih, Nat.add_assoc]

/-- The drum kit table of the template an `init` looks up: none when the
stored template holds none, or when the id is missing and a
default-constructed instrument holds none. -/
theorem index_drumset_none (env : Env) (meta : InstrumentsMeta) (k : QString)
    (hnew : env.newInstrument.drumset = none) (h : sourceDrumset meta k = none) :
    (QMap.index env.freshTemplate meta.instrumentTemplates k).1.instrument.drumset = none := by
  unfold sourceDrumset at h
  unfold QMap.index
  cases hf : QMap.find meta.instrumentTemplates k with
  | none => exact hnew
  | some t =>
    rw [hf] at h
    exact h

/-- The template mapping is written by the `init` branch only. -/
theorem readInstrumentTemplateStep_templates_keep (env : Env) (st : TemplateState)
    (e : Element) (hi : e.name ≠ "init".toList) :
    (readInstrumentTemplateStep env st e).generalMeta.instrumentTemplates =
      st.generalMeta.instrumentTemplates := by
  unfold readInstrumentTemplateStep
  cases ht : templateChild e.name
  case init => exact absurd (templateChild_init _ ht) hi
  all_goals rfl

theorem readInstrumentTemplateStep_sourceDrumset (env : Env) (st : TemplateState)
    (e : Element) (k : QString) (hnew : env.newInstrument.drumset = none)
    (h : sourceDrumset st.generalMeta k = none) :
    sourceDrumset (readInstrumentTemplateStep env st e).generalMeta k = none := by
  by_cases hi : e.name = "init".toList
  · rw [readInstrumentTemplateStep_init_eq env st e hi]
    unfold sourceDrumset at h ⊢
    show (QMap.find (QMap.index env.freshTemplate st.generalMeta.instrumentTemplates e.text).2
      k).bind (fun t => t.instrument.drumset) = none
    unfold QMap.index
    cases hf : QMap.find st.generalMeta.instrumentTemplates e.text with
    | some t => exact h
    | none =>
      show (QMap.find (QMap.insert st.generalMeta.instrumentTemplates e.text env.freshTemplate)
        k).bind (fun t => t.instrument.drumset) = none
      by_cases hk : e.text = k
      · rw [← hk, QMap.find_insert_self]
        exact hnew
      · rw [QMap.find_insert_of_ne _ _ _ _ hk]
        exact h
  · unfold sourceDrumset at h ⊢
    rw [readInstrumentTemplateStep_templates_keep env st e hi]
    exact h

theorem readInstrumentTemplateStep_drumset_keep_other (env : Env) (st : TemplateState)
    (e : Element) (hi : e.name ≠ "init".toList) (hd : e.name ≠ "Drum".toList)
    (huse : e.name = "useDrumset".toList → toInt e.text = 0) :
    (readInstrumentTemplateStep env st e).instrument.drumset = st.instrument.drumset := by
  unfold readInstrumentTemplateStep
  cases ht : templateChild e.name
  case init => exact absurd (templateChild_init _ ht) hi
  case Drum => exact absurd (templateChild_Drum _ ht) hd
  case useDrumset =>
    have h0 := huse (templateChild_useDrumset _ ht)
    simp only [h0, ne_eq, not_true_eq_false, decide_False, Bool.false_eq_true, if_false]
  all_goals rfl

/-- A child other than `Drum` leaves the drum kit table as it is, unless it
is a `useDrumset` with a non-zero value or an `init` from a template that
holds a table. -/
theorem readInstrumentTemplateStep_drumset_keep (env : Env) (st : TemplateState)
    (e : Element) (hnew : env.newInstrument.drumset = none)
    (hd : e.name ≠ "Drum".toList)
    (huse : e.name = "useDrumset".toList → toInt e.text = 0)
    (hinit : e.name = "init".toList → sourceDrumset st.generalMeta e.text = none) :
    (readInstrumentTemplateStep env st e).instrument.drumset = st.instrument.drumset := by
  by_cases hi : e.name = "init".toList
  · rw [readInstrumentTemplateStep_init_eq env st e hi]
    show (initInstrument env st.instrument _).drumset = st.instrument.drumset
    unfold initInstrument
    simp only [index_drumset_none env st.generalMeta e.text hnew (hinit hi)]
  · exact readInstrumentTemplateStep_drumset_keep_other env st e hi hd huse

theorem readInstrumentTemplate_fold_drumset (env : Env) (meta : InstrumentsMeta)
    (hnew : env.newInstrument.drumset = none) (post : List Element)
    (huse : ∀ c ∈ post, c.name = "useDrumset".toList → toInt c.text = 0)
    (hinit : ∀ c ∈ post, c.name = "init".toList → sourceDrumset meta c.text = none)
    (st : TemplateState) (D : Drumset) (hc : st.customDrumset = true)
    (hD : st.instrument.drumset = some D)
    (hcat : ∀ k, sourceDrumset meta k = none → sourceDrumset st.generalMeta k = none) :
    (post.foldl (readInstrumentTemplateStep env) st).instrument.drumset =
      some ((post.filter fun c => decide (c.name = "Drum".toList)).foldl env.drumsetLoad D) := by
  induction post generalizing st D with
  | nil => exact hD
  | cons c rest ih =>
    have hcat1 : ∀ k, sourceDrumset meta k = none →
        sourceDrumset (readInstrumentTemplateStep env st c).generalMeta k = none :=
      fun k hk => readInstrumentTemplateStep_sourceDrumset env st c k hnew (hcat k hk)
    have hc1 := readInstrumentTemplateStep_customDrumset_true env st c hc
    have huse1 : ∀ x ∈ rest, x.name = "useDrumset".toList → toInt x.text = 0 :=
      fun x hx => huse x (List.mem_cons_of_mem _ hx)
    have hinit1 : ∀ x ∈ rest, x.name = "init".toList → sourceDrumset meta x.text = none :=
      fun x hx => hinit x (List.mem_cons_of_mem _ hx)
    rw [List.foldl_cons]
    by_cases hd : c.name = "Drum".toList
    · have hf : ((c :: rest).filter fun c => decide (c.name = "Drum".toList)) =
          c :: rest.filter fun c => decide (c.name = "Drum".toList) :=
        List.filter_cons_of_pos (decide_eq_true hd)
      rw [hf, List.foldl_cons]
      exact ih huse1 hinit1 _ _ hc1
        ((readInstrumentTemplateStep_Drum env st c hd).2.2 D hc hD) hcat1
    · have hf : ((c :: rest).filter fun c => decide (c.name = "Drum".toList)) =
          rest.filter fun c => decide (c.name = "Drum".toList) :=
        List.filter_cons_of_neg (by simpa using hd)
      rw [hf]
      refine ih huse1 hinit1 _ _ hc1 ?_ hcat1
      rw [readInstrumentTemplateStep_drumset_keep env st c hnew hd
        (huse c (List.mem_cons_self _ _))
        (fun hi => hcat _ (hinit c (List.mem_cons_self _ _) hi))]
      exact hD

theorem fillByDefault_drumset (env : Env) (i : Instrument) :
    (fillByDefault env i).drumset = i.drumset := by
  unfold fillByDefault
  simp only
  split_ifs <;> rfl

theorem filter_of_no_Drum (pre : List Element) (h : ∀ c ∈ pre, c.name ≠ "Drum".toList) :
    (pre.filter fun c => decide (c.name = "Drum".toList)) = [] := by
  rw [List.filter_eq_nil_iff]
  intro c hc
  simpa using h c hc

/-! ## Claims -/

/-- C1, as the claim states it, fails: `pianoCopy` initializes from "piano"
and then overrides the chromatic transposition, but the instrument built for
it does not equal "piano" in every other field: the display name, the
description, the family and the sequence order are not copied by `init`. -/
theorem readInstrumentTemplate_init_not_all_fields :
    pianoTemplate.instrument.name = "Piano".toList ∧
    (readInstrumentTemplate sampleEnv pianoCopy pianoCatalog).1.instrument.name = [] ∧
    pianoTemplate.instrument.description = "Grand piano".toList ∧
    (readInstrumentTemplate sampleEnv pianoCopy pianoCatalog).1.instrument.description = [] ∧
    pianoTemplate.instrument.familyId = "keyboards".toList ∧
    (readInstrumentTemplate sampleEnv pianoCopy pianoCatalog).1.instrument.familyId = [] ∧
    pianoTemplate.instrument.sequenceOrder = 0 ∧
    (readInstrumentTemplate sampleEnv pianoCopy pianoCatalog).1.instrument.sequenceOrder = 1 := by
  decide

/-- C1, amended: let the catalog hold a template A with at least one channel
and a non-empty instrument id, and let B be an instrument element whose
children are any elements, then an `init` referring to A, then one element
overriding one inherited field F (extended, one side of one clef cell, one
cell of stafflines, smallStaff, bracket or bracketSpan, a pitch range, the
chromatic or the diatonic transposition, the MusicXML id, the string data,
single-note-dynamics).  Then the instrument built for B agrees with A's
instrument, F replaced by the override value, on every field that `init`
copies (the drum kit table when A has one); whatever came before the `init`
is discarded. -/
theorem readInstrumentTemplate_init_override (env : Env) (generalMeta : InstrumentsMeta)
    (A : InstrumentTemplate) (name : QString) (attrs : List (QString × QString))
    (text : QString) (pre : List Element) (initEl ov : Element)
    (f : Instrument → Instrument)
    (hinit : initEl.name = "init".toList)
    (hfind : QMap.find generalMeta.instrumentTemplates initEl.text = some A)
    (hch : A.instrument.channels ≠ []) (hid : A.instrument.id ≠ [])
    (hov : overrideField env ov = some f) :
    SameInherited env
      (readInstrumentTemplate env (Element.mk name attrs text (pre ++ [initEl, ov]))
        generalMeta).1.instrument
      (f A.instrument) := by
  have hfold := readInstrumentTemplate_fold_find env pre initEl.text A
    (readInstrumentTemplateInit env (Element.mk name attrs text (pre ++ [initEl, ov]))
      generalMeta) hfind
  have hx : (readInstrumentTemplateLoop env (Element.mk name attrs text (pre ++ [initEl, ov]))
      generalMeta).instrument =
      f (initInstrument env
        (pre.foldl (readInstrumentTemplateStep env)
          (readInstrumentTemplateInit env (Element.mk name attrs text (pre ++ [initEl, ov]))
            generalMeta)).instrument A.instrument) := by
    simp only [readInstrumentTemplateLoop, Element.children, List.foldl_append, List.foldl_cons,
      List.foldl_nil]
    rw [readInstrumentTemplateStep_override env _ ov f hov,
      readInstrumentTemplateStep_init env _ initEl A hinit hfold]
  have hsame := sameInherited_override env ov f hov _ _
    (initInstrument_sameInherited env
      (pre.foldl (readInstrumentTemplateStep env)
        (readInstrumentTemplateInit env (Element.mk name attrs text (pre ++ [initEl, ov]))
          generalMeta)).instrument A.instrument)
  have hkeep := overrideField_channels_id env ov f hov
    (initInstrument env
      (pre.foldl (readInstrumentTemplateStep env)
        (readInstrumentTemplateInit env (Element.mk name attrs text (pre ++ [initEl, ov]))
          generalMeta)).instrument A.instrument)
  simp only [readInstrumentTemplate]
  rw [hx]
  refine sameInherited_trans env _ _ _ (fillByDefault_sameInherited env _ ?_ ?_) hsame
  · rw [hkeep.1]
    exact hch
  · rw [hkeep.2]
    exact hid

/-- C1, amended, at a concrete input: `pianoCopy` sets the chromatic
transposition to 5, initializes from "piano" (three staves, transposition 7,
two channels) and sets the transposition to 2. -/
theorem readInstrumentTemplate_init_override_witness :
    SameInherited sampleEnv
      (readInstrumentTemplate sampleEnv pianoCopy pianoCatalog).1.instrument
      { pianoTemplate.instrument with
        transpose := { pianoTemplate.instrument.transpose with chromatic := 2 } } ∧
    (readInstrumentTemplate sampleEnv pianoCopy pianoCatalog).1.instrument.transpose.chromatic = 2 ∧
    (readInstrumentTemplate sampleEnv pianoCopy pianoCatalog).1.instrument.staves = 3 :=
  ⟨readInstrumentTemplate_init_override sampleEnv pianoCatalog pianoTemplate
      "instrument".toList [("id".toList, "upright".toList)] []
      [el "transposeChromatic" [] "5" []] (el "init" [] "piano" [])
      (el "transposeChromatic" [] "2" [])
      (fun i => { i with transpose := { i.transpose with chromatic := 2 } })
      (by decide) (by rfl) (by decide) (by decide) (by rfl),
   by decide, by decide⟩

/-- C2, as the claim states it, fails.  For the drum kit table:
`drumThenInit` allocates the standard drum kit with `useDrumset`, then
initializes from "piano", which has no drum kit table; the table set before
the `init` is not replaced, the instrument still holds the standard kit.  For
the channels: in `initThenChannel` the `Channel` element after the `init` does
not replace the two copied channels, it is appended to them. -/
theorem initInstrument_drumset_kept :
    pianoTemplate.instrument.drumset = none ∧
    (readInstrumentTemplate sampleEnv drumThenInit pianoCatalog).1.instrument.drumset =
      some sampleEnv.smDrumset ∧
    (readInstrumentTemplate sampleEnv drumThenInit pianoCatalog).1.instrument.useDrumset =
      false ∧
    (readInstrumentTemplate sampleEnv initThenChannel pianoCatalog).1.instrument.channels.map
      (fun c => c.name) = ["normal".toList, "mute".toList, "extra".toList] := by
  decide

/-- C2, amended: whatever the state `st` before an `init` that refers to a
stored template A, the instrument after the `init` has A's value in every
field of the inherited set (cells `0 .. MAX_STAVES-1` of the per-staff
arrays; the drum kit table when A has one).  An element after the `init`
acts on the copied value: a one-field element replaces its field (with
`overrideField`), a `Channel` or `MidiAction` element appends to the copied
list, and a long or short name element replaces the copied entry at its
position. -/
theorem readInstrumentTemplateStep_init_then (env : Env) (st : TemplateState)
    (A : InstrumentTemplate) (initEl e : Element)
    (hinit : initEl.name = "init".toList)
    (hfind : QMap.find st.generalMeta.instrumentTemplates initEl.text = some A) :
    SameInherited env (readInstrumentTemplateStep env st initEl).instrument A.instrument ∧
    (∀ f : Instrument → Instrument, overrideField env e = some f →
      SameInherited env
        (readInstrumentTemplateStep env (readInstrumentTemplateStep env st initEl) e).instrument
        (f A.instrument)) ∧
    (e.name = "Channel".toList ∨ e.name = "channel".toList →
      (readInstrumentTemplateStep env (readInstrumentTemplateStep env st initEl)
        e).instrument.channels = A.instrument.channels ++ [env.channelRead e]) ∧
    (e.name = "MidiAction".toList →
      (readInstrumentTemplateStep env (readInstrumentTemplateStep env st initEl)
        e).instrument.midiActions = A.instrument.midiActions ++ [readMidiAction env e]) ∧
    (e.name = "longName".toList ∨ e.name = "name".toList →
      (readInstrumentTemplateStep env (readInstrumentTemplateStep env st initEl)
        e).instrument.longNames =
        eraseFirstPos (e.intAttribute "pos".toList 0) A.instrument.longNames ++
          [{ name := env.translate "InstrumentsXML".toList e.text,
             pos := e.intAttribute "pos".toList 0 }]) ∧
    (e.name = "shortName".toList ∨ e.name = "short-name".toList →
      (readInstrumentTemplateStep env (readInstrumentTemplateStep env st initEl)
        e).instrument.shortNames =
        eraseFirstPos (e.intAttribute "pos".toList 0) A.instrument.shortNames ++
          [{ name := env.translate "InstrumentsXML".toList e.text,
             pos := e.intAttribute "pos".toList 0 }]) := by
  have hstep := readInstrumentTemplateStep_init env st initEl A hinit hfind
  have hsame : SameInherited env (readInstrumentTemplateStep env st initEl).instrument
      A.instrument := by
    rw [hstep]
    exact initInstrument_sameInherited env _ _
  refine ⟨hsame, ?_, ?_, ?_, ?_, ?_⟩
  · intro f hf
    rw [readInstrumentTemplateStep_override env _ e f hf]
    exact sameInherited_override env e f hf _ _ hsame
  · intro h
    rw [readInstrumentTemplateStep_Channel env _ e h, hstep]
    rfl
  · intro h
    rw [readInstrumentTemplateStep_MidiAction env _ e h, hstep]
    rfl
  · intro h
    rw [readInstrumentTemplateStep_longName env _ e h, hstep]
    rfl
  · intro h
    rw [readInstrumentTemplateStep_shortName env _ e h, hstep]
    rfl

/-- C2, amended, at a concrete input: a staff count of 9 set before the
`init` from "piano" is replaced by the three staves of "piano", and a
`Channel` element after the `init` is appended to the two copied channels. -/
theorem readInstrumentTemplateStep_init_then_witness :
    (readInstrumentTemplateStep sampleEnv
      (readInstrumentTemplateStep sampleEnv
        (readInstrumentTemplateInit sampleEnv pianoCopy pianoCatalog)
        (el "staves" [] "9" []))
      (el "init" [] "piano" [])).instrument.staves = 3 ∧
    (readInstrumentTemplateStep sampleEnv
      (readInstrumentTemplateStep sampleEnv
        (readInstrumentTemplateStep sampleEnv
          (readInstrumentTemplateInit sampleEnv pianoCopy pianoCatalog)
          (el "staves" [] "9" []))
        (el "init" [] "piano" []))
      (el "Channel" [("name", "extra")] "" [])).instrument.channels.length = 3 :=
  ⟨((readInstrumentTemplateStep_init_then sampleEnv
      (readInstrumentTemplateStep sampleEnv
        (readInstrumentTemplateInit sampleEnv pianoCopy pianoCatalog)
        (el "staves" [] "9" []))
      pianoTemplate (el "init" [] "piano" []) (el "Channel" [("name", "extra")] "" [])
      (by decide) (by rfl)).1.2.2.2.2.1).trans (by decide),
   (congrArg List.length
      ((readInstrumentTemplateStep_init_then sampleEnv
        (readInstrumentTemplateStep sampleEnv
          (readInstrumentTemplateInit sampleEnv pianoCopy pianoCatalog)
          (el "staves" [] "9" []))
        pianoTemplate (el "init" [] "piano" []) (el "Channel" [("name", "extra")] "" [])
        (by decide) (by rfl)).2.2.1 (Or.inl (by decide)))).trans (by decide)⟩

/-- C3: in the group sequence returned by `readScoreOrder`, the group at
position `i` has `index` equal to `i`, for every position `i` and every
`Order` element, whatever its children. -/
theorem readScoreOrder_index (env : Env) (e : Element)
    (i : Fin (readScoreOrder env e).groups.length) :
    ((readScoreOrder env e).groups.get i).index = (i.val : Int) := by
  exact indexed_get _ (readScoreOrder_fold_indexed env _ _ indexed_nil) i.val i.isLt

/-- C3, at a concrete order with eight groups: the indices are 0 to 7. -/
theorem readScoreOrder_index_witness :
    (readScoreOrder sampleEnv sampleOrder).groups.map (fun g => g.index) = [0, 1, 2, 3, 4, 5, 6, 7] ∧
    ((readScoreOrder sampleEnv sampleOrder).groups.get ⟨4, by decide⟩).index = 4 :=
  ⟨by decide, readScoreOrder_index sampleEnv sampleOrder ⟨4, by decide⟩⟩

/-- C4: `readMeta` fails exactly when reading the file fails, and then its
status is the status of the file read; when the file was read, whatever its
content, the status is `Ok` and the value is the catalog assembled from the
content. -/
theorem readMeta_status (env : Env) (fileSystem : FileSystem) (path : QString) :
    ((readMeta env fileSystem path).ret.success = false ↔
      (fileSystem.readFile path).ret.success = false) ∧
    ((fileSystem.readFile path).ret.success = false →
      (readMeta env fileSystem path).ret = (fileSystem.readFile path).ret) ∧
    ((fileSystem.readFile path).ret.success = true →
      (readMeta env fileSystem path).ret = make_ret Ret.Ok ∧
      (readMeta env fileSystem path).val =
        (readMetaLoop env (env.parseXml (fileSystem.readFile path).val)
          (InstrumentsMeta.empty, 0)).1) := by
  have hok : (make_ret Ret.Ok).success = true := rfl
  cases h : (fileSystem.readFile path).ret.success with
  | false => simp [readMeta, h]
  | true => simp [readMeta, h, hok]

/-- C4, at a concrete file system: the unreadable path gives the status of
the file read (code 3), a readable path gives `Ok`. -/
theorem readMeta_status_witness :
    (readMeta sampleEnv sampleFileSystem "missing.xml".toList).ret = { code := 3 } ∧
    (readMeta sampleEnv sampleFileSystem "instruments.xml".toList).ret = make_ret Ret.Ok :=
  ⟨(readMeta_status sampleEnv sampleFileSystem "missing.xml".toList).2.1 (by decide),
   ((readMeta_status sampleEnv sampleFileSystem "instruments.xml".toList).2.2 (by decide)).1⟩

/-- C5, as the claim states it, fails: the attribute value 3000000000 is an
integer greater than `MAX_STAVES`, but it is outside the `int` range, so
`toInt` gives 0 and the staff index is 0, not `MAX_STAVES - 1`. -/
theorem readStaffIndex_beyond_int :
    readStaffIndex sampleEnv (el "clef" [("staff", "3000000000")] "0" []) = 0 ∧
    sampleEnv.MAX_STAVES < 3000000000 ∧
    sampleEnv.MAX_STAVES - 1 ≠ 0 := by
  decide

/-- C5, amended: with `v` the `toInt` value of the `staff` attribute (0 when
the attribute is absent, is not a number or is outside the `int` range) and
`MAX_STAVES` at least 1, the staff index is always within
`[0, MAX_STAVES - 1]`; an absent or non-numeric attribute gives 0; and, `v`
not being the lowest `int`, the index is `v - 1` clamped into that interval:
`v ≤ 1` gives 0 and `v > MAX_STAVES` gives `MAX_STAVES - 1`. -/
theorem readStaffIndex_clamp (env : Env) (e : Element) (hmax : 1 ≤ env.MAX_STAVES) :
    (0 ≤ readStaffIndex env e ∧ readStaffIndex env e ≤ env.MAX_STAVES - 1) ∧
    (e.hasAttribute "staff".toList = false → readStaffIndex env e = 0) ∧
    (toIntOk (e.value "staff".toList) = none → readStaffIndex env e = 0) ∧
    (toInt (e.value "staff".toList) ≠ INT_MIN →
      readStaffIndex env e =
        max 0 (min (toInt (e.value "staff".toList) - 1) (env.MAX_STAVES - 1)) ∧
      (toInt (e.value "staff".toList) ≤ 1 → readStaffIndex env e = 0) ∧
      (env.MAX_STAVES < toInt (e.value "staff".toList) →
        readStaffIndex env e = env.MAX_STAVES - 1)) := by
  have hr := toInt_range (e.value "staff".toList)
  have hw := wrap32_range (toInt (e.value "staff".toList) - 1)
  have h0 : wrap32 ((0 : Int) - 1) = -1 := by decide
  refine ⟨?_, ?_, ?_, ?_⟩
  · unfold readStaffIndex
    simp only
    split_ifs <;> omega
  · intro h
    unfold readStaffIndex
    simp only [value_of_not_hasAttribute e _ h]
    have : toInt [] = 0 := by decide
    rw [this, h0]
    split_ifs <;> omega
  · intro h
    unfold readStaffIndex
    simp only [toInt_of_none _ h, h0]
    split_ifs <;> omega
  · intro hne
    have hwrap : wrap32 (toInt (e.value "staff".toList) - 1) =
        toInt (e.value "staff".toList) - 1 := by
      apply wrap32_of_range
      · unfold INT_MIN at hne hr ⊢; omega
      · unfold INT_MAX at hr ⊢; omega
    unfold readStaffIndex
    simp only [hwrap]
    refine ⟨?_, ?_, ?_⟩
    · split_ifs <;> omega
    · intro h1
      split_ifs <;> omega
    · intro h2
      split_ifs <;> omega

/-- C5, amended, at concrete inputs with four staves: staff 1 gives 0, staff
0 gives 0, an absent attribute gives 0, staff -3 gives 0, staff 9 gives 3. -/
theorem readStaffIndex_clamp_witness :
    readStaffIndex sampleEnv (el "clef" [("staff", "1")] "0" []) = 0 ∧
    readStaffIndex sampleEnv (el "clef" [("staff", "0")] "0" []) = 0 ∧
    readStaffIndex sampleEnv (el "clef" [] "0" []) = 0 ∧
    readStaffIndex sampleEnv (el "clef" [("staff", "-3")] "0" []) = 0 ∧
    readStaffIndex sampleEnv (el "clef" [("staff", "9")] "0" []) = sampleEnv.MAX_STAVES - 1 :=
  ⟨((readStaffIndex_clamp sampleEnv (el "clef" [("staff", "1")] "0" []) (by decide)).2.2.2
      (by decide)).2.1 (by decide),
   ((readStaffIndex_clamp sampleEnv (el "clef" [("staff", "0")] "0" []) (by decide)).2.2.2
      (by decide)).2.1 (by decide),
   (readStaffIndex_clamp sampleEnv (el "clef" [] "0" []) (by decide)).2.1 (by decide),
   ((readStaffIndex_clamp sampleEnv (el "clef" [("staff", "-3")] "0" []) (by decide)).2.2.2
      (by decide)).2.1 (by decide),
   ((readStaffIndex_clamp sampleEnv (el "clef" [("staff", "9")] "0" []) (by decide)).2.2.2
      (by decide)).2.2 (by decide)⟩

/-- C6, as the claim states it, fails: the text "40-abc" has two fields that
are not both numbers, and it is read as (40, 0), not as the default range
(0, 127). -/
theorem readPitchRange_not_default :
    readPitchRange (el "aPitchRange" [] "40-abc" []) = { min := 40, max := 0 } ∧
    readPitchRange (el "aPitchRange" [] "40-abc" []) ≠ { min := 0, max := 127 } := by
  decide

/-- C6, amended: a text "a-b" with `a` and `b` decimal numbers in the `int`
range is read as (a, b); a text with no separator or with more than one (the
empty text and "60" included) is read as the default range (0, 127); a text
with exactly one separator is read field by field with `toInt`, so a field
that is not a number reads as 0. -/
theorem readPitchRange_shapes (e : Element) :
    (∀ a b : Nat, (a : Int) ≤ INT_MAX → (b : Int) ≤ INT_MAX →
      e.text = decimal a ++ '-' :: decimal b →
      readPitchRange e = { min := (a : Int), max := (b : Int) }) ∧
    (e.text.count '-' ≠ 1 → readPitchRange e = { min := 0, max := 127 }) ∧
    (∀ lo hi : QString, '-' ∉ lo → '-' ∉ hi → e.text = lo ++ '-' :: hi →
      readPitchRange e = { min := toInt lo, max := toInt hi }) := by
  refine ⟨?_, readPitchRange_other_count e, fun lo hi => readPitchRange_two_fields e lo hi⟩
  intro a b ha hb h
  rw [readPitchRange_two_fields e _ _ (minus_not_mem_decimal a) (minus_not_mem_decimal b) h,
    toInt_decimal a ha, toInt_decimal b hb]

/-- C6, amended, at concrete inputs: "40-80" gives (40, 80), "0-127" gives
(0, 127), and "60", the empty text and "1-2-3" give the default range. -/
theorem readPitchRange_shapes_witness :
    readPitchRange (el "aPitchRange" [] "40-80" []) = { min := 40, max := 80 } ∧
    readPitchRange (el "pPitchRange" [] "0-127" []) = { min := 0, max := 127 } ∧
    readPitchRange (el "aPitchRange" [] "60" []) = { min := 0, max := 127 } ∧
    readPitchRange (el "aPitchRange" [] "" []) = { min := 0, max := 127 } ∧
    readPitchRange (el "aPitchRange" [] "1-2-3" []) = { min := 0, max := 127 } :=
  ⟨(readPitchRange_shapes (el "aPitchRange" [] "40-80" [])).1 40 80 (by decide) (by decide)
      (by simp [el, Element.text, decimal, decimalNat]),
   (readPitchRange_shapes (el "pPitchRange" [] "0-127" [])).1 0 127 (by decide) (by decide)
      (by simp [el, Element.text, decimal, decimalNat]),
   (readPitchRange_shapes (el "aPitchRange" [] "60" [])).2.1 (by decide),
   (readPitchRange_shapes (el "aPitchRange" [] "" [])).2.1 (by decide),
   (readPitchRange_shapes (el "aPitchRange" [] "1-2-3" [])).2.1 (by decide)⟩

/-- C7: an `Articulation` element whose last `velocity` (or `gateTime`) child
holds the decimal text of an `int` `n`, alone or followed by one percent sign,
is read with velocity (gate time) `n`. -/
theorem readArticulation_percentage (env : Env) (name : QString)
    (attrs : List (QString × QString)) (text : QString) (pre post : List Element)
    (v : Element) (n : Int) (hmin : INT_MIN ≤ n) (hmax : n ≤ INT_MAX)
    (htext : v.text = decimalInt n ∨ v.text = decimalInt n ++ ['%'])
    (hpost : ∀ c ∈ post, c.name ≠ v.name) :
    (v.name = "velocity".toList →
      (readArticulation env (Element.mk name attrs text (pre ++ v :: post))).velocity = n) ∧
    (v.name = "gateTime".toList →
      (readArticulation env (Element.mk name attrs text (pre ++ v :: post))).gateTime = n) := by
  have hval := toInt_stripPercent n hmin hmax v.text htext
  constructor
  · intro hv
    simp only [readArticulation, Element.children, List.foldl_append, List.foldl_cons]
    rw [readArticulation_fold_velocity post (fun c hc => hv ▸ hpost c hc)]
    simp [readArticulationStep, hv, hval]
  · intro hv
    simp only [readArticulation, Element.children, List.foldl_append, List.foldl_cons]
    rw [readArticulation_fold_gateTime post (fun c hc => hv ▸ hpost c hc)]
    have hne : v.name ≠ "velocity".toList := by rw [hv]; decide
    simp [readArticulationStep, hv, hval]

/-- C7, at a concrete input: the texts "75%" and "75" both give 75. -/
theorem readArticulation_percentage_witness :
    (readArticulation sampleEnv
      (el "Articulation" [("name", "staccato")] "" [el "velocity" [] "75%" []])).velocity = 75 ∧
    (readArticulation sampleEnv
      (el "Articulation" [("name", "staccato")] "" [el "gateTime" [] "75" []])).gateTime = 75 :=
  ⟨(readArticulation_percentage sampleEnv "Articulation".toList
      [("name".toList, "staccato".toList)] [] [] [] (el "velocity" [] "75%" []) 75
      (by decide) (by decide) (Or.inr (by simp [el, Element.text, decimalInt, decimal, decimalNat])) (by simp)).1 (by decide),
   (readArticulation_percentage sampleEnv "Articulation".toList
      [("name".toList, "staccato".toList)] [] [] [] (el "gateTime" [] "75" []) 75
      (by decide) (by decide) (Or.inl (by simp [el, Element.text, decimalInt, decimal, decimalNat])) (by simp)).2 (by decide)⟩

/-- C8, as the claim states it, fails: the element `pianoCopy` has no
`Channel` child, but its `init` copies the two channels of "piano", so the
instrument returned has two channels. -/
theorem readInstrumentTemplate_init_channels :
    (pianoCopy.children.all fun c =>
      decide (c.name ≠ "Channel".toList ∧ c.name ≠ "channel".toList)) = true ∧
    (readInstrumentTemplate sampleEnv pianoCopy pianoCatalog).1.instrument.channels.length = 2 := by
  decide

/-- C8, amended: for every instrument element with no `Channel`, `channel`
or `init` child, the instrument returned by `readInstrumentTemplate` has
exactly one channel, the one synthesized by `fillByDefault`: chorus 0, reverb
0, the reserved default name, program 0, bank 0, volume 90, pan 0. -/
theorem readInstrumentTemplate_default_channel (env : Env) (e : Element)
    (generalMeta : InstrumentsMeta)
    (h : ∀ c ∈ e.children, c.name ≠ "Channel".toList ∧ c.name ≠ "channel".toList ∧
      c.name ≠ "init".toList) :
    ∃ a : Channel,
      (readInstrumentTemplate env e generalMeta).1.instrument.channels = [a] ∧
      a.chorus = 0 ∧ a.reverb = 0 ∧ a.name = env.DEFAULT_NAME ∧ a.program = 0 ∧
      a.bank = 0 ∧ a.volume = 90 ∧ a.pan = 0 := by
  have hch : (readInstrumentTemplateLoop env e generalMeta).instrument.channels = [] := by
    unfold readInstrumentTemplateLoop
    rw [readInstrumentTemplate_fold_channels env _ h]
    rfl
  refine ⟨defaultChannel env, ?_, rfl, rfl, rfl, rfl, rfl, rfl, rfl⟩
  simp only [readInstrumentTemplate, fillByDefault_channels, hch, List.isEmpty_nil, if_true,
    List.nil_append]

/-- C8, amended, at a concrete instrument without channels. -/
theorem readInstrumentTemplate_default_channel_witness :
    ∃ a : Channel,
      (readInstrumentTemplate sampleEnv
        (el "instrument" [("id", "flute")] "" [el "longName" [] "Flute" []])
        InstrumentsMeta.empty).1.instrument.channels = [a] ∧
      a.chorus = 0 ∧ a.reverb = 0 ∧ a.name = sampleEnv.DEFAULT_NAME ∧ a.program = 0 ∧
      a.bank = 0 ∧ a.volume = 90 ∧ a.pan = 0 :=
  readInstrumentTemplate_default_channel sampleEnv
    (el "instrument" [("id", "flute")] "" [el "longName" [] "Flute" []])
    InstrumentsMeta.empty (by decide)

/-- C9: `loadGroupMeta` stores the group under its own id; the stored group
has the final display name; with no declared id (attribute absent or empty)
the id is that name lowercased with every space replaced by a hyphen, and a
non-empty declared id is kept. -/
theorem loadGroupMeta_stored_id (env : Env) (e : Element) (meta : InstrumentsMeta) (idx : Int) :
    ∃ g : InstrumentGroup,
      QMap.find (loadGroupMeta env e meta idx).groups g.id = some g ∧
      g.name = finalGroupName env e ∧
      g.sequenceOrder = idx ∧
      (e.value "id".toList = [] →
        g.id = replaceChar ' ' '-' (toLower (finalGroupName env e))) ∧
      (e.value "id".toList ≠ [] → g.id = e.value "id".toList) := by
  have hname := loadGroupMetaLoop_name env e meta idx
  have hid : (loadGroupMetaLoop env e meta idx).1.id = e.value "id".toList := by
    unfold loadGroupMetaLoop
    rw [loadGroupMeta_fold_id]
    rfl
  have hseq : (loadGroupMetaLoop env e meta idx).1.sequenceOrder = idx := by
    unfold loadGroupMetaLoop
    rw [loadGroupMeta_fold_sequenceOrder]
    rfl
  refine ⟨finishGroup (loadGroupMetaLoop env e meta idx).1, ?_, ?_, ?_, ?_, ?_⟩
  · simp only [loadGroupMeta]
    exact QMap.find_insert_self _ _ _
  · unfold finishGroup
    split_ifs <;> simp [hname]
  · unfold finishGroup
    split_ifs <;> simp [hseq]
  · intro h
    have hemp : (loadGroupMetaLoop env e meta idx).1.id.isEmpty = true := by
      rw [hid, h]
      rfl
    simp only [finishGroup, hemp, if_true, hname, deriveId]
  · intro h
    have hemp : (loadGroupMetaLoop env e meta idx).1.id.isEmpty = false := by
      rw [hid]
      cases hv : e.value "id".toList with
      | nil => exact absurd hv h
      | cons c cs => rfl
    simp only [finishGroup, hemp, Bool.false_eq_true, if_false]
    exact hid

/-- C9, at a concrete group: with no declared id and the name "Wood Winds",
the group is stored under "wood-winds". -/
theorem loadGroupMeta_stored_id_witness :
    QMap.find (loadGroupMeta sampleEnv woodWindsGroup InstrumentsMeta.empty 0).groups
      "wood-winds".toList =
      some { id := "wood-winds".toList, name := "Wood Winds".toList, extended := false,
             sequenceOrder := 0 } ∧
    ∃ g : InstrumentGroup,
      QMap.find (loadGroupMeta sampleEnv woodWindsGroup InstrumentsMeta.empty 0).groups g.id =
        some g ∧
      g.id = replaceChar ' ' '-' (toLower (finalGroupName sampleEnv woodWindsGroup)) :=
  ⟨by decide,
   (loadGroupMeta_stored_id sampleEnv woodWindsGroup InstrumentsMeta.empty 0).elim
     fun g hg => ⟨g, hg.1, hg.2.2.2.1 (by decide)⟩⟩

/-- C10: the code departs from the claim when the group declares no id.  The
instrument "flute" of the group named "Wood Winds" is stored with an empty
`groupId`, while the group itself is stored under the derived id
"wood-winds". -/
theorem loadGroupMeta_groupId_before_derivation :
    (QMap.find (loadGroupMeta sampleEnv woodWindsGroup InstrumentsMeta.empty 0).instrumentTemplates
      "flute".toList).map (fun t => t.instrument.groupId) = some [] ∧
    (loadGroupMeta sampleEnv woodWindsGroup InstrumentsMeta.empty 0).groups.map (fun p => p.1) =
      ["wood-winds".toList] := by
  decide

/-- C11, as the claim states it, fails: an instrument element with no id and
no name is returned with an empty id, and `pianoCopy`, which declares the id
"upright" and initializes from "piano", is returned with the instrument id
"piano". -/
theorem readInstrumentTemplate_id_empty :
    (readInstrumentTemplate sampleEnv namelessInstrument InstrumentsMeta.empty).1.instrument.id =
      [] ∧
    pianoCopy.value "id".toList = "upright".toList ∧
    (readInstrumentTemplate sampleEnv pianoCopy pianoCatalog).1.instrument.id =
      "piano".toList := by
  decide

/-- C11, amended: for every instrument element without an `init` child, the
instrument returned by `readInstrumentTemplate` has the declared id when one
is declared, and otherwise the id derived from its display name (lowercased,
spaces replaced by hyphens); the id is non-empty exactly when an id is
declared or the display name is non-empty. -/
theorem readInstrumentTemplate_id (env : Env) (e : Element) (generalMeta : InstrumentsMeta)
    (h : ∀ c ∈ e.children, c.name ≠ "init".toList) :
    (e.value "id".toList ≠ [] →
      (readInstrumentTemplate env e generalMeta).1.instrument.id = e.value "id".toList) ∧
    (e.value "id".toList = [] →
      (readInstrumentTemplate env e generalMeta).1.instrument.id =
        replaceChar ' ' '-'
          (toLower (readInstrumentTemplate env e generalMeta).1.instrument.name)) ∧
    ((readInstrumentTemplate env e generalMeta).1.instrument.id ≠ [] ↔
      (e.value "id".toList ≠ [] ∨
        (readInstrumentTemplate env e generalMeta).1.instrument.name ≠ [])) := by
  have hid : (readInstrumentTemplateLoop env e generalMeta).instrument.id =
      e.value "id".toList := by
    unfold readInstrumentTemplateLoop
    rw [readInstrumentTemplate_fold_id env _ h]
    rfl
  have hres : (readInstrumentTemplate env e generalMeta).1.instrument =
      fillByDefault env (readInstrumentTemplateLoop env e generalMeta).instrument := rfl
  rw [hres, fillByDefault_id, hid]
  cases hv : e.value "id".toList with
  | nil =>
    refine ⟨fun h1 => absurd rfl h1, fun _ => rfl, ?_⟩
    simp only [List.isEmpty_nil, if_true, ne_eq, deriveId_eq_nil, not_true_eq_false, false_or]
  | cons c cs =>
    refine ⟨fun _ => rfl, fun h1 => List.noConfusion h1, ?_⟩
    simp

/-- C11, amended, at a concrete instrument: with no declared id and the long
name "Bass Drum", the id is "bass-drum". -/
theorem readInstrumentTemplate_id_witness :
    (readInstrumentTemplate sampleEnv
      (el "instrument" [] "" [el "longName" [] "Bass Drum" []])
      InstrumentsMeta.empty).1.instrument.id = "bass-drum".toList :=
  ((readInstrumentTemplate_id sampleEnv
      (el "instrument" [] "" [el "longName" [] "Bass Drum" []])
      InstrumentsMeta.empty (by decide)).2.1 (by decide)).trans (by decide)

/-- C12: the code departs from the claim.  In `danglingInitDocument` the
instrument "violin" initializes from "ghost", which is declared nowhere; the
catalog returned by `readMeta` then holds a template under "ghost" that has
no channel at all, next to "violin", which has one. -/
theorem readMeta_template_without_channel :
    (QMap.find (catalogOf danglingInitDocument).instrumentTemplates "ghost".toList).map
      (fun t => t.instrument.channels) = some [] ∧
    (QMap.find (catalogOf danglingInitDocument).instrumentTemplates "violin".toList).map
      (fun t => t.instrument.channels.length) = some 1 := by
  decide

/-- C13: `fillByDefault` sets an empty display name, and an empty
description, to the first long name when there is one; it then sets an empty
id to the resulting display name lowercased with every space replaced by a
hyphen; a non-empty display name, description or id is left as it is (and so
is an empty display name or description when there is no long name). -/
theorem fillByDefault_backfill (env : Env) (i : Instrument) :
    (i.name ≠ [] → (fillByDefault env i).name = i.name) ∧
    (i.name = [] → i.longNames = [] → (fillByDefault env i).name = []) ∧
    (i.name = [] → ∀ (n : StaffName) (rest : List StaffName), i.longNames = n :: rest →
      (fillByDefault env i).name = n.name) ∧
    (i.description ≠ [] → (fillByDefault env i).description = i.description) ∧
    (i.description = [] → i.longNames = [] → (fillByDefault env i).description = []) ∧
    (i.description = [] → ∀ (n : StaffName) (rest : List StaffName), i.longNames = n :: rest →
      (fillByDefault env i).description = n.name) ∧
    (i.id ≠ [] → (fillByDefault env i).id = i.id) ∧
    (i.id = [] →
      (fillByDefault env i).id = replaceChar ' ' '-' (toLower (fillByDefault env i).name)) := by
  refine ⟨?_, ?_, ?_, ?_, ?_, ?_, ?_, ?_⟩
  · intro h
    rw [fillByDefault_name]
    cases hn : i.name with
    | nil => exact absurd hn h
    | cons c cs => rfl
  · intro h hl
    rw [fillByDefault_name, h, hl]
    rfl
  · intro h n rest hl
    rw [fillByDefault_name, h, hl]
    rfl
  · intro h
    rw [fillByDefault_description]
    cases hn : i.description with
    | nil => exact absurd hn h
    | cons c cs => rfl
  · intro h hl
    rw [fillByDefault_description, h, hl]
    rfl
  · intro h n rest hl
    rw [fillByDefault_description, h, hl]
    rfl
  · intro h
    rw [fillByDefault_id]
    cases hn : i.id with
    | nil => exact absurd hn h
    | cons c cs => rfl
  · intro h
    rw [fillByDefault_id, h]
    rfl

/-- C13, at a concrete instrument: no name, no description and no id, one
long name "Bass Drum": all three are backfilled and the id is "bass-drum". -/
theorem fillByDefault_backfill_witness :
    (fillByDefault sampleEnv
      { sampleEnv.freshInstrument with
        longNames := [{ name := "Bass Drum".toList, pos := 0 }] }).name = "Bass Drum".toList ∧
    (fillByDefault sampleEnv
      { sampleEnv.freshInstrument with
        longNames := [{ name := "Bass Drum".toList, pos := 0 }] }).description =
      "Bass Drum".toList ∧
    (fillByDefault sampleEnv
      { sampleEnv.freshInstrument with
        longNames := [{ name := "Bass Drum".toList, pos := 0 }] }).id = "bass-drum".toList :=
  ⟨(fillByDefault_backfill sampleEnv _).2.2.1 rfl _ _ rfl,
   (fillByDefault_backfill sampleEnv _).2.2.2.2.2.1 rfl _ _ rfl,
   ((fillByDefault_backfill sampleEnv _).2.2.2.2.2.2.2 rfl).trans (by decide)⟩

/-- C14: for every instrument element without an `init` child, the long-name
list of the instrument returned by `readInstrumentTemplate` has at most one
entry per position, has an entry for exactly the positions declared by the
`longName`/`name` children (`pos`, 0 when absent), and holds at each position
the text, as translated, of the last child declared there; likewise the
short-name list with the `shortName`/`short-name` children. -/
theorem readInstrumentTemplate_names (env : Env) (e : Element) (generalMeta : InstrumentsMeta)
    (h : ∀ c ∈ e.children, c.name ≠ "init".toList) :
    NamesOf env (longNameChildren e)
      (readInstrumentTemplate env e generalMeta).1.instrument.longNames ∧
    NamesOf env (shortNameChildren e)
      (readInstrumentTemplate env e generalMeta).1.instrument.shortNames := by
  have hres : (readInstrumentTemplate env e generalMeta).1.instrument =
      fillByDefault env (readInstrumentTemplateLoop env e generalMeta).instrument := rfl
  rw [hres, fillByDefault_longNames, fillByDefault_shortNames]
  unfold readInstrumentTemplateLoop
  rw [readInstrumentTemplate_fold_longNames env _ h,
    readInstrumentTemplate_fold_shortNames env _ h]
  exact ⟨namesOf_fold env _, namesOf_fold env _⟩

/-- C14, at a concrete instrument: the long name at position 0 is declared
twice ("Horn", then "French Horn") and one at position 1; the list holds
"Horn in F" at 1 and "French Horn" at 0. -/
theorem readInstrumentTemplate_names_witness :
    (readInstrumentTemplate sampleEnv renamedInstrument
      InstrumentsMeta.empty).1.instrument.longNames.map (fun n => (n.pos, n.name)) =
      [(1, "Horn in F".toList), (0, "French Horn".toList)] ∧
    NamesOf sampleEnv (longNameChildren renamedInstrument)
      (readInstrumentTemplate sampleEnv renamedInstrument
        InstrumentsMeta.empty).1.instrument.longNames :=
  ⟨by decide,
   (readInstrumentTemplate_names sampleEnv renamedInstrument InstrumentsMeta.empty
      (by decide)).1⟩

/-- C15: the code departs from the claim.  In `sharedIdDocument` three
instruments are declared, the first two under the id "a"; the second ("a",
long name "Second") and the third ("b") both receive the sequence order 1. -/
theorem readMeta_sequenceOrder_reused :
    (QMap.find (catalogOf sharedIdDocument).instrumentTemplates "a".toList).map
      (fun t => (t.instrument.name, t.instrument.sequenceOrder)) =
      some ("Second".toList, 1) ∧
    (QMap.find (catalogOf sharedIdDocument).instrumentTemplates "b".toList).map
      (fun t => (t.instrument.name, t.instrument.sequenceOrder)) =
      some ("Third".toList, 1) := by
  decide

/-- C16: the code departs from the claim.  In `brassSectionOrder` the section
"brass" holds a family, a soloists placeholder and an unsorted placeholder;
the groups of the first two carry the section "brass", the group of the
unsorted placeholder carries an empty section. -/
theorem readScoreOrder_unsorted_without_section :
    (readScoreOrder sampleEnv brassSectionOrder).groups.map
      (fun g => (g.family, g.section_)) =
      [("horns".toList, "brass".toList), ("<soloists>".toList, "brass".toList),
       ("<unsorted>".toList, [])] := by
  decide

/-- C17: the code departs from the claim.  The `family` branch of a section
calls `readElementText()` before it reads the three display flags, so the
flags are read on the end tag, where no attribute is present, and always get
their defaults.  In `brassSectionOrder` the family "horns" declares
showSystemMarkings="TRUE" and barLineSpan="False", which read as true and
false; its group has `bracket = true` and the flags false, true, true. -/
theorem readScoreOrder_section_family_flags_ignored :
    brassSectionOrder.children.map (fun sec => sec.children.map fun fam =>
      (fam.name, attributeFlag fam "showSystemMarkings".toList false,
        attributeFlag fam "barLineSpan".toList true,
        attributeFlag fam "thinBrackets".toList true)) =
      [[("family".toList, true, false, true), ("soloists".toList, false, true, true),
        ("unsorted".toList, false, true, true)]] ∧
    ((readScoreOrder sampleEnv brassSectionOrder).groups.map fun g =>
      (g.family, g.bracket, g.showSystemMarkings, g.barLineSpan, g.thinBracket)).head? =
      some ("horns".toList, true, false, true, true) := by
  decide

/-- C19: the code departs from the claim.  Handling the group
`danglingRefGroup`, whose `ref` child names the undeclared id "ghost", on a
catalog that holds the one template "piano" leaves the template mapping with
three keys: "piano", "ghost" and the empty id. -/
theorem loadGroupMeta_ref_adds_templates :
    pianoCatalog.instrumentTemplates.map (fun p => p.1) = ["piano".toList] ∧
    (loadGroupMeta sampleEnv danglingRefGroup pianoCatalog 1).instrumentTemplates.map
      (fun p => p.1) = ["piano".toList, "ghost".toList, []] := by
  decide

/-- C20: an element that no loop recognizes is skipped with its whole
subtree.  At the top level of the `museScore` wrapper: two readable documents
that differ only by such an element give the same catalog.  Inside a group,
an instrument, an order, a section, an articulation, a MIDI action or a
string-data block: the parser of the block returns the same result for the
block with and without such a child. -/
theorem skipped_element_removed (env : Env) (u : Element) (name : QString)
    (attrs : List (QString × QString)) (text : QString) (pre post : List Element) :
    (u.name ≠ "instrument-group".toList → u.name ≠ "InstrumentGroup".toList →
      u.name ≠ "Articulation".toList → u.name ≠ "Genre".toList →
      u.name ≠ "Family".toList → u.name ≠ "Order".toList →
      ∀ (fileSystem : FileSystem) (path1 path2 : QString) (before after : List Element),
        (fileSystem.readFile path1).ret.success = true →
        (fileSystem.readFile path2).ret.success = true →
        env.parseXml (fileSystem.readFile path1).val =
          before ++ Element.mk "museScore".toList attrs text (pre ++ u :: post) :: after →
        env.parseXml (fileSystem.readFile path2).val =
          before ++ Element.mk "museScore".toList attrs text (pre ++ post) :: after →
        (readMeta env fileSystem path1).val = (readMeta env fileSystem path2).val) ∧
    (toLower u.name ≠ "instrument".toList → u.name ≠ "ref".toList →
      u.name ≠ "name".toList → u.name ≠ "extended".toList →
      ∀ (generalMeta : InstrumentsMeta) (groupIndex : Int),
        loadGroupMeta env (Element.mk name attrs text (pre ++ u :: post)) generalMeta
            groupIndex =
          loadGroupMeta env (Element.mk name attrs text (pre ++ post)) generalMeta
            groupIndex) ∧
    (templateChild u.name = TemplateChild.other →
      ∀ generalMeta : InstrumentsMeta,
        readInstrumentTemplate env (Element.mk name attrs text (pre ++ u :: post))
            generalMeta =
          readInstrumentTemplate env (Element.mk name attrs text (pre ++ post)) generalMeta) ∧
    (u.name ≠ "name".toList → u.name ≠ "instrument".toList → u.name ≠ "family".toList →
      u.name ≠ "soloists".toList → u.name ≠ "unsorted".toList →
      u.name ≠ "section".toList →
      readScoreOrder env (Element.mk name attrs text (pre ++ u :: post)) =
        readScoreOrder env (Element.mk name attrs text (pre ++ post))) ∧
    (u.name ≠ "family".toList → u.name ≠ "soloists".toList → u.name ≠ "unsorted".toList →
      ∀ order : ScoreOrder,
        readScoreOrderStep env order
            (Element.mk "section".toList attrs text (pre ++ u :: post)) =
          readScoreOrderStep env order (Element.mk "section".toList attrs text (pre ++ post))) ∧
    (u.name ≠ "velocity".toList → u.name ≠ "gateTime".toList → u.name ≠ "descr".toList →
      readArticulation env (Element.mk name attrs text (pre ++ u :: post)) =
        readArticulation env (Element.mk name attrs text (pre ++ post))) ∧
    (u.name ≠ "program".toList → u.name ≠ "controller".toList → u.name ≠ "descr".toList →
      readMidiAction env (Element.mk name attrs text (pre ++ u :: post)) =
        readMidiAction env (Element.mk name attrs text (pre ++ post))) ∧
    (u.name ≠ "frets".toList → u.name ≠ "string".toList →
      readStringData (Element.mk name attrs text (pre ++ u :: post)) =
        readStringData (Element.mk name attrs text (pre ++ post))) := by
  refine ⟨?_, ?_, ?_, ?_, ?_, ?_, ?_, ?_⟩
  · intro h1 h2 h3 h4 h5 h6 fileSystem path1 path2 before after hr1 hr2 hd1 hd2
    simp only [readMeta, hr1, hr2, Bool.not_true, Bool.false_eq_true, if_false, hd1, hd2]
    rw [readMetaLoop_skip env attrs text pre post u
      (fun st => readMetaStep_skip env st u h1 h2 h3 h4 h5 h6)]
  · intro h1 h2 h3 h4 generalMeta groupIndex
    simp only [loadGroupMeta, loadGroupMetaLoop, Element.children]
    rw [foldl_skip _ u (fun st => loadGroupMetaStep_skip env st u h1 h2 h3 h4)]
    rfl
  · intro h generalMeta
    simp only [readInstrumentTemplate, readInstrumentTemplateLoop, Element.children]
    rw [foldl_skip _ u (fun st => readInstrumentTemplateStep_skip env st u h)]
    rfl
  · intro h1 h2 h3 h4 h5 h6
    simp only [readScoreOrder, Element.children]
    rw [foldl_skip _ u (fun st => readScoreOrderStep_skip env st u h1 h2 h3 h4 h5 h6)]
    rfl
  · intro h1 h2 h3 order
    rw [readScoreOrderStep_section env order
        (Element.mk "section".toList attrs text (pre ++ u :: post)) rfl,
      readScoreOrderStep_section env order
        (Element.mk "section".toList attrs text (pre ++ post)) rfl]
    simp only [Element.children]
    rw [foldl_skip _ u (fun st => readSectionStep_skip env _ st u h1 h2 h3)]
    rfl
  · intro h1 h2 h3
    simp only [readArticulation, Element.children]
    rw [foldl_skip _ u (fun st => readArticulationStep_skip st u h1 h2 h3)]
    rfl
  · intro h1 h2 h3
    simp only [readMidiAction, Element.children]
    rw [foldl_skip _ u (fun st => readMidiActionStep_skip env st u h1 h2 h3)]
    rfl
  · intro h1 h2
    simp only [readStringData, Element.children]
    rw [foldl_skip _ u (fun st => readStringDataStep_skip st u h1 h2)]

/-- C20, at a concrete pair of documents: "with.xml" holds the unknown
element `Comment` (with a subtree) between a genre and a family,
"without.xml" is the same document without it; both give the same catalog. -/
theorem skipped_element_removed_witness :
    (readMeta twoDocumentsEnv twoFiles "with.xml".toList).val =
      (readMeta twoDocumentsEnv twoFiles "without.xml".toList).val :=
  (skipped_element_removed twoDocumentsEnv unknownElement [] [] []
      [el "Genre" [("id", "jazz")] "" [el "name" [] "Jazz" []]]
      [el "Family" [("id", "brass")] "" [el "name" [] "Brass" []]]).1
    (by decide) (by decide) (by decide) (by decide) (by decide) (by decide)
    twoFiles "with.xml".toList "without.xml".toList [] [] rfl rfl rfl rfl

/-- C21, as the claim states it, fails.  In `drumThenUseDrumset` a
`useDrumset` comes after the first `Drum`: it puts the standard drum kit in
place of the table, the flag `customDrumset` is already set, so the second
`Drum` is loaded on top of the two standard entries and the first one is
lost.  In `drumThenKit` an `init` after the `Drum` puts the table of
"standard-kit" in place of the one loaded.  In both, the table is cleared
once. -/
theorem readInstrumentTemplate_drumset_default_entries :
    (readInstrumentTemplate sampleEnv drumThenUseDrumset
      InstrumentsMeta.empty).1.instrument.drumset =
      some { drums := [{ pitch := 35, name := "Acoustic Bass Drum".toList },
                       { pitch := 38, name := "Acoustic Snare".toList },
                       { pitch := 40, name := "Snare".toList }] } ∧
    loadedDrums sampleEnv drumThenUseDrumset.children =
      { drums := [{ pitch := 36, name := "Kick".toList },
                  { pitch := 40, name := "Snare".toList }] } ∧
    clearCount sampleEnv
      (readInstrumentTemplateInit sampleEnv drumThenUseDrumset InstrumentsMeta.empty)
      drumThenUseDrumset.children = 1 ∧
    (readInstrumentTemplate sampleEnv drumThenKit kitCatalog).1.instrument.drumset =
      some sampleEnv.smDrumset ∧
    loadedDrums sampleEnv drumThenKit.children =
      { drums := [{ pitch := 36, name := "Kick".toList }] } ∧
    clearCount sampleEnv (readInstrumentTemplateInit sampleEnv drumThenKit kitCatalog)
      drumThenKit.children = 1 := by
  decide

/-- C21, amended: let `d` be the first `Drum` child of an instrument element,
`pre` the children before it and `post` those after it.  The drum kit table
is cleared exactly once, by the step that handles `d` and before `d` is
loaded: no clear happens in `pre`, and after `d` the table holds the entry of
`d` alone, whatever `useDrumset` and `init` children `pre` holds.  If a
default-constructed instrument holds no table and `post` holds no
`useDrumset` with a non-zero value and no `init` from a stored template that
holds a table, the table of the returned instrument holds exactly the entries
loaded from the `Drum` children, in their order. -/
theorem readInstrumentTemplate_drumset (env : Env) (e : Element)
    (generalMeta : InstrumentsMeta) (pre post : List Element) (d : Element)
    (hkids : e.children = pre ++ d :: post) (hd : d.name = "Drum".toList)
    (hpre : ∀ c ∈ pre, c.name ≠ "Drum".toList) :
    clearCount env (readInstrumentTemplateInit env e generalMeta) e.children = 1 ∧
    clearCount env (readInstrumentTemplateInit env e generalMeta) pre = 0 ∧
    ((pre ++ [d]).foldl (readInstrumentTemplateStep env)
      (readInstrumentTemplateInit env e generalMeta)).instrument.drumset =
      some (env.drumsetLoad { drums := [] } d) ∧
    (env.newInstrument.drumset = none →
      (∀ c ∈ post, c.name = "useDrumset".toList → toInt c.text = 0) →
      (∀ c ∈ post, c.name = "init".toList → sourceDrumset generalMeta c.text = none) →
      (readInstrumentTemplate env e generalMeta).1.instrument.drumset =
        some (loadedDrums env e.children)) := by
  obtain ⟨hpre0, hflag⟩ :=
    clearCount_of_no_Drum env pre hpre (readInstrumentTemplateInit env e generalMeta)
  have hfalse : (pre.foldl (readInstrumentTemplateStep env)
      (readInstrumentTemplateInit env e generalMeta)).customDrumset = false := hflag
  have hstep := readInstrumentTemplateStep_Drum env
    (pre.foldl (readInstrumentTemplateStep env) (readInstrumentTemplateInit env e generalMeta))
    d hd
  refine ⟨?_, hpre0, ?_, fun hnew huse hinit => ?_⟩
  · rw [hkids, clearCount_append, hpre0, clearCount_cons,
      clearCount_of_customDrumset env post _ hstep.1,
      if_pos ⟨templateChild_of_Drum _ hd, hfalse⟩]
  · rw [List.foldl_append]
    exact hstep.2.1 hfalse
  · have hcat : ∀ (es : List Element) (st : TemplateState),
        (∀ k, sourceDrumset generalMeta k = none → sourceDrumset st.generalMeta k = none) →
        ∀ k, sourceDrumset generalMeta k = none →
          sourceDrumset (es.foldl (readInstrumentTemplateStep env) st).generalMeta k = none := by
      intro es
      induction es with
      | nil => exact fun st h => h
      | cons c rest ih =>
        exact fun st h => ih _ fun k hk =>
          readInstrumentTemplateStep_sourceDrumset env st c k hnew (h k hk)
    have hfilter : (e.children.filter fun c => decide (c.name = "Drum".toList)) =
        d :: post.filter fun c => decide (c.name = "Drum".toList) := by
      rw [hkids, List.filter_append, filter_of_no_Drum pre hpre, List.nil_append]
      exact List.filter_cons_of_pos (decide_eq_true hd)
    show (fillByDefault env (readInstrumentTemplateLoop env e generalMeta).instrument).drumset =
      some (loadedDrums env e.children)
    unfold loadedDrums readInstrumentTemplateLoop
    rw [fillByDefault_drumset, hfilter, List.foldl_cons, hkids, List.foldl_append,
      List.foldl_cons]
    have hcatd := hcat (pre ++ [d]) (readInstrumentTemplateInit env e generalMeta)
      (fun _ hk => hk)
    rw [List.foldl_append] at hcatd
    exact readInstrumentTemplate_fold_drumset env generalMeta hnew post huse hinit _ _
      hstep.1 (hstep.2.1 hfalse) hcatd

/-- C21, amended, at a concrete input: `interleavedKit` switches the standard
drum kit on and initializes from "standard-kit" before its first drum; after
it, it switches the drum kit off, initializes from "triangle" (no table) and
from "ghost" (declared nowhere) and loads a second drum.  The table is
cleared once and ends with the two drums declared. -/
theorem readInstrumentTemplate_drumset_witness :
    clearCount sampleEnv (readInstrumentTemplateInit sampleEnv interleavedKit kitCatalog)
      interleavedKit.children = 1 ∧
    (readInstrumentTemplate sampleEnv interleavedKit kitCatalog).1.instrument.drumset =
      some { drums := [{ pitch := 36, name := "Kick".toList },
                       { pitch := 40, name := "Snare".toList }] } :=
  ⟨(readInstrumentTemplate_drumset sampleEnv interleavedKit kitCatalog
      [el "useDrumset" [] "1" [], el "init" [] "standard-kit" []]
      [el "useDrumset" [] "0" [], el "init" [] "triangle" [], el "init" [] "ghost" [],
        el "Drum" [("pitch", "40")] "Snare" []]
      (el "Drum" [("pitch", "36")] "Kick" []) rfl (by decide) (by decide)).1,
   ((readInstrumentTemplate_drumset sampleEnv interleavedKit kitCatalog
      [el "useDrumset" [] "1" [], el "init" [] "standard-kit" []]
      [el "useDrumset" [] "0" [], el "init" [] "triangle" [], el "init" [] "ghost" [],
        el "Drum" [("pitch", "40")] "Snare" []]
      (el "Drum" [("pitch", "36")] "Kick" []) rfl (by decide) (by decide)).2.2.2
      (by decide) (by decide) (by decide)).trans (by decide)⟩

/-- C22: the code departs from the claim.  With four staves, the element
`barlineSpan` with `staff="3"` has the staff index 2 and the span 4, so the
loop writes the cells 2, 3 and 4: the cell 4 is outside `[0, MAX_STAVES-1]`,
and it is set. -/
theorem readInstrumentTemplate_barlineSpan_beyond :
    sampleEnv.MAX_STAVES = 4 ∧
    readStaffIndex sampleEnv (el "barlineSpan" [("staff", "3")] "4" []) = 2 ∧
    sampleEnv.freshInstrument.barlineSpan 4 = false ∧
    (List.map
      (readInstrumentTemplate sampleEnv wideBarlineSpan
        InstrumentsMeta.empty).1.instrument.barlineSpan [0, 1, 2, 3, 4, 5]) =
      [false, false, true, true, true, false] := by
  decide

/-- C23: for every instrument child `e` of a group, the template id returned
by `readInstrumentTemplate` is the value of the `id` attribute of `e`,
whatever the children of `e` (an `init` and `fillByDefault` act on the id of
the embedded instrument only), and `loadGroupMeta` stores the template under
that key, once.  So an instrument without an id attribute is stored under the
empty key, and a later instrument without an id attribute replaces it: after
the later one, the mapping holds one entry under the empty key, the template
of the later one. -/
theorem loadGroupMeta_template_key (env : Env) (st : InstrumentGroup × InstrumentsMeta)
    (e : Element) (hu : UniqueKeys st.2) (h : toLower e.name = "instrument".toList) :
    (readInstrumentTemplate env e st.2).1.id = e.value "id".toList ∧
    (storedTemplate env st e).id = e.value "id".toList ∧
    StoredOnce (loadGroupMetaStep env st e).2.instrumentTemplates (e.value "id".toList)
      (storedTemplate env st e) ∧
    (e.hasAttribute "id".toList = false →
      StoredOnce (loadGroupMetaStep env st e).2.instrumentTemplates []
        (storedTemplate env st e)) ∧
    (∀ (between : List Element) (later : Element),
      toLower later.name = "instrument".toList → later.hasAttribute "id".toList = false →
      StoredOnce
        ((e :: between ++ [later]).foldl (loadGroupMetaStep env) st).2.instrumentTemplates []
        (storedTemplate env ((e :: between).foldl (loadGroupMetaStep env) st) later)) := by
  have hstore : ∀ (s : InstrumentGroup × InstrumentsMeta) (i : Element), UniqueKeys s.2 →
      toLower i.name = "instrument".toList →
      StoredOnce (loadGroupMetaStep env s i).2.instrumentTemplates (i.value "id".toList)
        (storedTemplate env s i) := fun s i hs hi =>
    storedOnce_of_find _ _ _ (loadGroupMetaStep_unique env s i hs).1
      (loadGroupMetaStep_template_store env s i hi)
  refine ⟨rfl, rfl, hstore st e hu h, fun hno => ?_, fun between later hl hno => ?_⟩
  · have hs := hstore st e hu h
    rw [value_of_not_hasAttribute e _ hno] at hs
    exact hs
  · have hs := hstore ((e :: between).foldl (loadGroupMetaStep env) st) later
      (loadGroupMeta_fold_unique env _ st hu) hl
    rw [value_of_not_hasAttribute later _ hno] at hs
    rw [List.foldl_append]
    exact hs

/-- C23, at concrete inputs: in the group "winds", two instruments without an
id attribute are declared, "Flute" and then "Oboe".  After both, the mapping
has the single key "" and holds the template of "Oboe" under it, whose
embedded instrument has the derived id "oboe"; and the template of
`pianoCopy`, which initializes from "piano", keeps the id "upright". -/
theorem loadGroupMeta_template_key_witness :
    StoredOnce
      ((idlessFlute :: [] ++ [idlessOboe]).foldl (loadGroupMetaStep sampleEnv)
        windsGroupState).2.instrumentTemplates []
      (storedTemplate sampleEnv
        ((idlessFlute :: []).foldl (loadGroupMetaStep sampleEnv) windsGroupState) idlessOboe) ∧
    QMap.keys ((idlessFlute :: [] ++ [idlessOboe]).foldl (loadGroupMetaStep sampleEnv)
      windsGroupState).2.instrumentTemplates = ["".toList] ∧
    (storedTemplate sampleEnv
      ((idlessFlute :: []).foldl (loadGroupMetaStep sampleEnv) windsGroupState)
      idlessOboe).instrument.id = "oboe".toList ∧
    (readInstrumentTemplate sampleEnv pianoCopy pianoCatalog).1.id = "upright".toList ∧
    (readInstrumentTemplate sampleEnv pianoCopy pianoCatalog).1.instrument.id = "piano".toList :=
  ⟨(loadGroupMeta_template_key sampleEnv windsGroupState idlessFlute
      ⟨List.nodup_nil, List.nodup_nil, List.nodup_nil, List.nodup_nil, List.nodup_nil,
        List.nodup_nil⟩ (by decide)).2.2.2.2 [] idlessOboe (by decide) (by decide),
   by decide, by decide, by decide, by decide⟩

/-- C24, as the claim states it, fails: `drumThenGhost` switches the standard
drum kit on and then initializes from "ghost", which is no key of the
template mapping.  A default-constructed instrument holds no drum kit table,
but the instrument keeps the standard kit after the `init` (while its drum
kit use is reset to false). -/
theorem readInstrumentTemplate_dangling_init_drumset :
    QMap.keys pianoCatalog.instrumentTemplates = ["piano".toList] ∧
    sampleEnv.freshInstrument.drumset = none ∧
    (readInstrumentTemplate sampleEnv drumThenGhost pianoCatalog).1.instrument.drumset =
      some sampleEnv.smDrumset ∧
    (readInstrumentTemplate sampleEnv drumThenGhost pianoCatalog).1.instrument.useDrumset =
      false := by
  decide

/-- C24, amended: an `init` whose referenced id is not a key of the template
mapping leaves the instrument with the inherited fields of a
default-constructed instrument, the drum kit table apart: the table is that
of a default-constructed instrument when such an instrument holds one, and is
left as it was when it holds none.  The `init` changes the catalog only by
appending one default-constructed template under the referenced id: every
entry present before is still there, unchanged, and the other five mappings
are as before.  An `init` whose referenced id is present leaves the whole
catalog unchanged.  The step is a total function: there is no error to
raise. -/
theorem readInstrumentTemplateStep_init_missing (env : Env) (st : TemplateState) (e : Element)
    (hname : e.name = "init".toList) :
    (QMap.find st.generalMeta.instrumentTemplates e.text = none →
      SameInherited env (readInstrumentTemplateStep env st e).instrument env.freshInstrument ∧
      (env.freshInstrument.drumset = none →
        (readInstrumentTemplateStep env st e).instrument.drumset = st.instrument.drumset) ∧
      (readInstrumentTemplateStep env st e).generalMeta =
        { st.generalMeta with
          instrumentTemplates :=
            st.generalMeta.instrumentTemplates ++ [(e.text, env.freshTemplate)] } ∧
      QMap.find (readInstrumentTemplateStep env st e).generalMeta.instrumentTemplates e.text =
        some env.freshTemplate ∧
      (∀ (k : QString) (t : InstrumentTemplate),
        QMap.find st.generalMeta.instrumentTemplates k = some t →
        QMap.find (readInstrumentTemplateStep env st e).generalMeta.instrumentTemplates k =
          some t)) ∧
    (∀ t : InstrumentTemplate,
      QMap.find st.generalMeta.instrumentTemplates e.text = some t →
      (readInstrumentTemplateStep env st e).instrument =
        initInstrument env st.instrument t.instrument ∧
      (readInstrumentTemplateStep env st e).generalMeta = st.generalMeta) := by
  refine ⟨fun hnone => ?_, fun t hsome => ?_⟩
  · have hstep := readInstrumentTemplateStep_init_eq env st e hname
    rw [QMap.index_of_find_none _ _ _ hnone] at hstep
    refine ⟨?_, fun hnew => ?_, ?_, ?_,
      fun k t hk => readInstrumentTemplateStep_find env st e k t hk⟩
    · rw [hstep]
      exact initInstrument_sameInherited env st.instrument env.freshInstrument
    · rw [hstep]
      show (initInstrument env st.instrument env.freshInstrument).drumset =
        st.instrument.drumset
      unfold initInstrument
      simp only [hnew]
    · rw [hstep]
    · have hidx : (QMap.index env.freshTemplate st.generalMeta.instrumentTemplates e.text).2 =
          QMap.insert st.generalMeta.instrumentTemplates e.text env.freshTemplate := by
        unfold QMap.index
        rw [hnone]
      rw [readInstrumentTemplateStep_init_eq env st e hname]
      show QMap.find (QMap.index env.freshTemplate st.generalMeta.instrumentTemplates e.text).2
        e.text = some env.freshTemplate
      rw [hidx]
      exact QMap.find_insert_self _ _ _
  · have hstep := readInstrumentTemplateStep_init_eq env st e hname
    rw [QMap.index_of_find _ _ _ _ hsome] at hstep
    rw [hstep]
    exact ⟨rfl, rfl⟩

/-- C24, amended, at concrete inputs: in the catalog that holds only "piano",
an `init` from "ghost" appends a default-constructed template under "ghost",
leaves the instrument with the inherited fields of a default-constructed
instrument and leaves its drum kit table as it was; an `init` from "piano"
leaves the catalog as it is; and `readMeta` returns `Ok` for a document with
a dangling `init`. -/
theorem readInstrumentTemplateStep_init_missing_witness :
    (readInstrumentTemplateStep sampleEnv
      (readInstrumentTemplateInit sampleEnv pianoCopy pianoCatalog)
      (el "init" [] "ghost" [])).generalMeta =
      { pianoCatalog with
        instrumentTemplates :=
          pianoCatalog.instrumentTemplates ++ [("ghost".toList, sampleEnv.freshTemplate)] } ∧
    SameInherited sampleEnv
      (readInstrumentTemplateStep sampleEnv
        (readInstrumentTemplateInit sampleEnv pianoCopy pianoCatalog)
        (el "init" [] "ghost" [])).instrument sampleEnv.freshInstrument ∧
    (readInstrumentTemplateStep sampleEnv
      (readInstrumentTemplateInit sampleEnv pianoCopy pianoCatalog)
      (el "init" [] "piano" [])).generalMeta = pianoCatalog ∧
    QMap.keys (readInstrumentTemplateStep sampleEnv
      (readInstrumentTemplateInit sampleEnv pianoCopy pianoCatalog)
      (el "init" [] "ghost" [])).generalMeta.instrumentTemplates =
      ["piano".toList, "ghost".toList] ∧
    (readMeta (docEnv danglingInitDocument) sampleFileSystem "instruments.xml".toList).ret =
      make_ret Ret.Ok ∧
    (readInstrumentTemplateStep sampleEnv
      (readInstrumentTemplateStep sampleEnv
        (readInstrumentTemplateInit sampleEnv drumThenGhost pianoCatalog)
        (el "useDrumset" [] "1" []))
      (el "init" [] "ghost" [])).instrument.drumset =
      (readInstrumentTemplateStep sampleEnv
        (readInstrumentTemplateInit sampleEnv drumThenGhost pianoCatalog)
        (el "useDrumset" [] "1" [])).instrument.drumset :=
  ⟨((readInstrumentTemplateStep_init_missing sampleEnv
      (readInstrumentTemplateInit sampleEnv pianoCopy pianoCatalog)
      (el "init" [] "ghost" []) (by decide)).1 rfl).2.2.1,
   ((readInstrumentTemplateStep_init_missing sampleEnv
      (readInstrumentTemplateInit sampleEnv pianoCopy pianoCatalog)
      (el "init" [] "ghost" []) (by decide)).1 rfl).1,
   ((readInstrumentTemplateStep_init_missing sampleEnv
      (readInstrumentTemplateInit sampleEnv pianoCopy pianoCatalog)
      (el "init" [] "piano" []) (by decide)).2 pianoTemplate rfl).2,
   by decide, by decide,
   ((readInstrumentTemplateStep_init_missing sampleEnv
      (readInstrumentTemplateStep sampleEnv
        (readInstrumentTemplateInit sampleEnv drumThenGhost pianoCatalog)
        (el "useDrumset" [] "1" []))
      (el "init" [] "ghost" []) (by decide)).1 rfl).2.1 (by decide)⟩

end InstrumentsReader
